import Mathlib

/-!
# RNetCDF: slice resolution and array transcoding

A shallow embedding of the slice-translation code of `src/pkg/src/RNetCDF.c`
(`R_nc_size_r2c`, `R_nc_slice`, `R_nc_length`, and the variable get/put
operations), together with theorems about it.

Conventions of the embedding:

* `size_t` values are natural numbers below `SIZE_MOD = 2 ^ 64`; every
  `size_t` operation that can wrap is written with an explicit `% SIZE_MOD`.
* C arrays are lists that are updated in place with `List.set`; loops over
  `ii = 0 .. n-1` are folds over `List.range n`.
* The netCDF library is a record of response functions (`NcLib`); every call
  the code makes to it is appended to a log of `NcCall` events.
* The R runtime accessors whose results the code only consumes (`asInteger`,
  `asLogical`) and the result of a C conversion whose behaviour is undefined
  (an out-of-range `double` to `size_t` conversion) are fields of `Host`.
-/

set_option autoImplicit false

namespace RNetCDF

/-! ## Machine integers -/

/-- Number of values of the C type `size_t` (64-bit platform). -/
def SIZE_MOD : Nat := 2 ^ 64

/-- Source: `#define NA_SIZE ((size_t) -1)`. -/
def NA_SIZE : Nat := SIZE_MOD - 1

/-- Number of values of the C type `int` (32 bits). -/
def INT_MOD : Nat := 2 ^ 32

/-- The netCDF status `NC_NOERR` (netcdf.h). -/
def NC_NOERR : Int := 0

/-- The netCDF status `NC_EINVAL` (netcdf.h). -/
def NC_EINVAL : Int := -36

/-- The netCDF status `NC_EBADID` (netcdf.h). -/
def NC_EBADID : Int := -33

/-- The netCDF status `NC_EBADTYPE` (netcdf.h). -/
def NC_EBADTYPE : Int := -45

/-- The netCDF status `NC_EINDEFINE` (netcdf.h). -/
def NC_EINDEFINE : Int := -39

/-- The netCDF status `NC_ENOTINDEFINE` (netcdf.h). -/
def NC_ENOTINDEFINE : Int := -38

/-- Source: `#define E_UNSUPPORTED -22222`. -/
def E_UNSUPPORTED : Int := -22222

/-- The R missing integer `NA_INTEGER` (`INT_MIN`). -/
def NA_INTEGER : Int := -2147483648

/-- Length that the callers allocate for `cstart` and `ccount` (netcdf.h). -/
def MAX_NC_DIMS : Nat := 1024

/-- Conversion of a C `int` to `size_t`: reduction modulo `2 ^ 64`. -/
def int2size (v : Int) : Nat := (v % (SIZE_MOD : Int)).toNat

/-- Conversion of a `size_t` to a C `int` (two's complement wrap to 32 bits). -/
def size2int (v : Nat) : Int :=
  if v % INT_MOD < INT_MOD / 2 then ((v % INT_MOD : Nat) : Int)
  else ((v % INT_MOD : Nat) : Int) - (INT_MOD : Int)

/-! ## R values -/

/-- An R double: either a finite IEEE-754 binary64 value `m * 2 ^ e` with a
53-bit significand, or a non-finite value (`NA`, `NaN`, `Inf`, `-Inf`). -/
inductive RDouble where
  | finite (m : Int) (e : Int) (hm : m.natAbs < 2 ^ 53)
  | nonfinite
  deriving DecidableEq

/-- The R macro `R_FINITE`. -/
def R_FINITE : RDouble → Bool
  | .finite _ _ _ => true
  | .nonfinite => false

/-- Integral part (rounding toward zero) of a finite double; 0 for a
non-finite one, for which the code never asks. -/
def RDouble.trunc : RDouble → Int
  | .finite m e _ => if 0 ≤ e then m * 2 ^ e.toNat else Int.tdiv m (2 ^ (-e).toNat)
  | .nonfinite => 0

/-- A whole-numbered double below `2 ^ 53`. -/
def RDouble.ofNat (n : Nat) (h : n < 2 ^ 53) : RDouble :=
  .finite (n : Int) 0 (by simpa using h)

/-- An R integer: a C `int` (32 bits, two's complement). `NA_INTEGER` is the
smallest one. -/
structure RInt where
  val : Int
  lo : -2147483648 ≤ val
  hi : val < 2147483648
  deriving DecidableEq

/-- The R integer with value `n`, for `n` below `2 ^ 31`. -/
def RInt.ofNat (n : Nat) (h : n < 2147483648) : RInt :=
  ⟨(n : Int), by omega, by omega⟩

/-- The R integer with value `-n`, for `n` up to `2 ^ 31`. -/
def RInt.negOfNat (n : Nat) (h : n ≤ 2147483648) : RInt :=
  ⟨-(n : Int), by omega, by omega⟩

/-- Boxed R values, as far as the code distinguishes them. -/
inductive SEXP where
  | null
  | lgl (xs : List RInt)
  | int (xs : List RInt)
  | real (xs : List RDouble)
  | str (xs : List (List Nat))
  | raw (xs : List Nat)
  deriving DecidableEq

/-- The R function `xlength`. -/
def xlength : SEXP → Nat
  | .null => 0
  | .lgl xs => xs.length
  | .int xs => xs.length
  | .real xs => xs.length
  | .str xs => xs.length
  | .raw xs => xs.length

/-- The R function `isReal`. -/
def isReal : SEXP → Bool
  | .real _ => true
  | _ => false

/-- The R function `isInteger`. -/
def isInteger : SEXP → Bool
  | .int _ => true
  | _ => false

/-- The R function `isString`. -/
def isString : SEXP → Bool
  | .str _ => true
  | _ => false

/-- The R function `isNumeric`. -/
def isNumeric : SEXP → Bool
  | .lgl _ => true
  | .int _ => true
  | .real _ => true
  | _ => false

/-- The R accessor `REAL`: the doubles of a real vector. -/
def REAL : SEXP → List RDouble
  | .real xs => xs
  | _ => []

/-- The R accessor `INTEGER`: the ints of an integer vector. -/
def INTEGER : SEXP → List Int
  | .int xs => xs.map RInt.val
  | .lgl xs => xs.map RInt.val
  | _ => []

/-- What the code takes from its environment without computing it: the R
coercions `asInteger` and `asLogical`, and the `size_t` produced by converting
a double whose integral part is not representable in `size_t` (undefined
behaviour in C, so any function is allowed). -/
structure Host where
  asInteger : SEXP → Int
  asLogical : SEXP → Int
  castUB : RDouble → Nat

/-- Conversion of a finite double to `size_t`, as in `cv[nc-1-ii] = realp[ii]`:
the integral part when it is representable, otherwise whatever the platform
produces. -/
def dbl2size (H : Host) (d : RDouble) : Nat :=
  if 0 ≤ d.trunc ∧ d.trunc < (SIZE_MOD : Int) then d.trunc.toNat
  else H.castUB d % SIZE_MOD

/-! ## Loops -/

/-- The loop `for (ii = lo; ii < hi; ii++) body`, without early exit. -/
def forLoop {σ : Type} (lo hi : Nat) (body : Nat → σ → σ) (s : σ) : σ :=
  ((List.range (hi - lo)).map (fun k => lo + k)).foldl (fun st ii => body ii st) s

/-! ## `R_nc_size_r2c` and `R_nc_length` -/

/-- Source: `R_nc_size_r2c (SEXP rv, size_t nc, size_t fillval, size_t *cv)`.
The array `cv` is passed in and the updated array is returned. -/
def R_nc_size_r2c (H : Host) (rv : SEXP) (nc : Nat) (fillval : Nat) (cv : List Nat) :
    List Nat :=
  let nr := xlength rv
  let nr := if nr < nc then nr else nc
  if isReal rv then
    let realp := REAL rv
    let cv := forLoop 0 nr (fun ii cv =>
      if R_FINITE (realp.getD ii .nonfinite) then
        cv.set (nc - 1 - ii) (dbl2size H (realp.getD ii .nonfinite))
      else
        cv.set (nc - 1 - ii) fillval) cv
    forLoop nr nc (fun ii cv => cv.set (nc - 1 - ii) fillval) cv
  else if isInteger rv then
    let intp := INTEGER rv
    let cv := forLoop 0 nr (fun ii cv =>
      if intp.getD ii 0 = NA_INTEGER then
        cv.set (nc - 1 - ii) fillval
      else
        cv.set (nc - 1 - ii) (int2size (intp.getD ii 0))) cv
    forLoop nr nc (fun ii cv => cv.set (nc - 1 - ii) fillval) cv
  else
    let nr := 0
    forLoop nr nc (fun ii cv => cv.set (nc - 1 - ii) fillval) cv

/-- Source: `R_nc_length (int ndims, const size_t *count)`; the running
product is a `size_t`, so every multiplication wraps modulo `2 ^ 64`. -/
def R_nc_length (ndims : Nat) (count : List Nat) : Nat :=
  forLoop 0 ndims (fun ii length => (length * count.getD ii 0) % SIZE_MOD) 1

/-! ## The netCDF library -/

/-- A call that the code makes to the netCDF library. -/
inductive NcCall where
  | inq_var (ncid varid : Int)
  | inq_dimlen (ncid dimid : Int)
  | inq_varid (ncid : Int) (name : List Nat)
  | inq_vartype (ncid varid : Int)
  | enddef (ncid : Int)
  | get_vara_text (ncid varid : Int) (start count : List Nat)
  | get_vara_string (ncid varid : Int) (start count : List Nat)
  | get_vara_double (ncid varid : Int) (start count : List Nat)
  | free_string (len : Nat) (data : List (List Nat))
  | put_vara_double (ncid varid : Int) (start count : List Nat) (data : List RDouble)
  | put_vara_text (ncid varid : Int) (start count : List Nat) (data : List Nat)
  deriving DecidableEq

/-- The bulk transfer functions `nc_get_vara_*` and `nc_put_vara_*`. -/
def NcCall.isBulk : NcCall → Bool
  | .get_vara_text _ _ _ _ => true
  | .get_vara_string _ _ _ _ => true
  | .get_vara_double _ _ _ _ => true
  | .put_vara_double _ _ _ _ _ => true
  | .put_vara_text _ _ _ _ _ => true
  | _ => false

/-- The metadata queries of the library that `R_nc_slice` uses. Each returns
the status first. `nc_inq_var` returns the dimension identifiers of the
variable in storage order, their number being the rank; `nc_inq_dimlen`
returns a `size_t`. -/
structure NcMeta where
  nc_inq_var : Int → Int → Int × List Int
  nc_inq_dimlen : Int → Int → Int × Nat
  dimlen_lt : ∀ ncid dimid, (nc_inq_dimlen ncid dimid).2 < SIZE_MOD

/-- The loop `for (ii = 0; ii < n; ii++) body` whose body may leave the
function with `return (status)`: the first component is `some status` when it
did. The indices still to visit are the list argument. -/
def forLoopRet {σ : Type} (body : Nat → σ → Option Int × σ) : List Nat → σ → Option Int × σ
  | [], s => (none, s)
  | ii :: rest, s =>
    match body ii s with
    | (some status, s2) => (some status, s2)
    | (none, s2) => forLoopRet body rest s2

/-! ## `R_nc_slice` -/

/-- What `R_nc_slice` leaves behind: its return value, the library calls it
made, and the contents of `*ndims`, `cstart` and `ccount`. -/
structure SliceResult where
  status : Int
  calls : List NcCall
  ndims : Nat
  cstart : List Nat
  ccount : List Nat
  deriving DecidableEq

/-- Body of the last loop of `R_nc_slice`; the state is the call log and
`ccount`. -/
def sliceCountBody (L : NcMeta) (ncid : Int) (dimids : List Int) (cstart : List Nat)
    (ii : Nat) (st : List NcCall × List Nat) : Option Int × (List NcCall × List Nat) :=
  if st.2.getD ii 0 = NA_SIZE then
    let r := L.nc_inq_dimlen ncid (dimids.getD ii 0)
    let calls := st.1 ++ [NcCall.inq_dimlen ncid (dimids.getD ii 0)]
    if r.1 ≠ NC_NOERR then
      (some r.1, (calls, st.2))
    else
      let clen := r.2
      (none, (calls, st.2.set ii ((clen + SIZE_MOD - cstart.getD ii 0) % SIZE_MOD)))
  else
    (none, st)

/-- Source: `R_nc_slice (SEXP start, SEXP count, int ncid, int varid,
int *ndims, size_t *cstart, size_t *ccount)`. The arrays `cstart` and `ccount`
are passed in with their contents before the call. -/
def R_nc_slice (H : Host) (L : NcMeta) (start count : SEXP) (ncid varid : Int)
    (cstart ccount : List Nat) : SliceResult :=
  let q := L.nc_inq_var ncid varid
  let calls := [NcCall.inq_var ncid varid]
  let ndims := q.2.length
  let dimids := q.2
  if q.1 ≠ NC_NOERR then
    ⟨q.1, calls, ndims, cstart, ccount⟩
  else
    let cstart := R_nc_size_r2c H start ndims 1 cstart
    let cstart := forLoop 0 ndims
      (fun ii cs => cs.set ii ((cs.getD ii 0 + SIZE_MOD - 1) % SIZE_MOD)) cstart
    let ccount := R_nc_size_r2c H count ndims NA_SIZE ccount
    match forLoopRet (sliceCountBody L ncid dimids cstart) (List.range ndims) (calls, ccount) with
    | (some status, st) => ⟨status, st.1, ndims, cstart, st.2⟩
    | (none, st) => ⟨NC_NOERR, st.1, ndims, cstart, st.2⟩

/-! ## The data functions of the library, and the result list -/

/-- The netCDF type code `NC_BYTE` (netcdf.h). -/
def NC_BYTE : Int := 1
/-- The netCDF type code `NC_CHAR` (netcdf.h). -/
def NC_CHAR : Int := 2
/-- The netCDF type code `NC_SHORT` (netcdf.h). -/
def NC_SHORT : Int := 3
/-- The netCDF type code `NC_INT` (netcdf.h). -/
def NC_INT : Int := 4
/-- The netCDF type code `NC_FLOAT` (netcdf.h). -/
def NC_FLOAT : Int := 5
/-- The netCDF type code `NC_DOUBLE` (netcdf.h). -/
def NC_DOUBLE : Int := 6
/-- The netCDF type code `NC_UBYTE` (netcdf.h). -/
def NC_UBYTE : Int := 7
/-- The netCDF type code `NC_USHORT` (netcdf.h). -/
def NC_USHORT : Int := 8
/-- The netCDF type code `NC_UINT` (netcdf.h). -/
def NC_UINT : Int := 9
/-- The netCDF type code `NC_INT64` (netcdf.h). -/
def NC_INT64 : Int := 10
/-- The netCDF type code `NC_UINT64` (netcdf.h). -/
def NC_UINT64 : Int := 11
/-- The netCDF type code `NC_STRING` (netcdf.h). -/
def NC_STRING : Int := 12

/-- The library functions that the variable get/put operations use, on top of
the metadata queries. Each returns the status first; a read function also
returns what it stored in the caller's buffer. Strings are lists of bytes. -/
structure NcLib extends NcMeta where
  nc_inq_varid : Int → List Nat → Int × Int
  nc_inq_vartype : Int → Int → Int × Int
  nc_enddef : Int → Int
  nc_get_vara_text : Int → Int → List Nat → List Nat → Int × List Nat
  nc_get_vara_string : Int → Int → List Nat → List Nat → Int × List (List Nat)
  nc_get_vara_double : Int → Int → List Nat → List Nat → Int × List RDouble
  nc_free_string : Nat → List (List Nat) → Int
  nc_put_vara_double : Int → Int → List Nat → List Nat → List RDouble → Int
  nc_put_vara_text : Int → Int → List Nat → List Nat → List Nat → Int
  nc_strerror : Int → String

/-- The list of three elements that every operation returns to R: the status,
the error message, the data (with its `dim` attribute). An element that was
never set is `none` (`null` for the data). Source: `ROBJDEF`. -/
structure RetList where
  status : Option Int
  errmsg : Option String
  data : SEXP
  dim : Option (List Int)
  deriving DecidableEq

/-- Source: `ROBJDEF (NOSXP, 0)`. -/
def RetList.empty : RetList := ⟨none, none, .null, none⟩

/-- What an operation leaves behind: the list returned to R and the library
calls made, in order. -/
structure OpResult where
  ret : RetList
  calls : List NcCall
  deriving DecidableEq

/-- Source: `R_nc_status (SEXP retlist, int status, int force)`; returns the
list and the C truth value. -/
def R_nc_status (L : NcLib) (retlist : RetList) (status : Int) (force : Int) : RetList × Int :=
  if force ≠ 0 ∨ status ≠ NC_NOERR then
    let retlist := { retlist with status := some status }
    if status = E_UNSUPPORTED then
      ({ retlist with
          errmsg := some "Operation requires RNetCDF built with newer netcdf library" }, 1)
    else if status ≠ NC_NOERR then
      ({ retlist with errmsg := some (L.nc_strerror status) }, 1)
    else
      (retlist, 1)
  else
    (retlist, 0)

/-- Source: the macro `RNCCHECK (STATUS)`: `some` list when the function
returns it at once. -/
def RNCCHECK (L : NcLib) (retlist : RetList) (status : Int) : Option RetList :=
  if (R_nc_status L retlist status 0).2 ≠ 0 then some (R_nc_status L retlist status 0).1
  else none

/-- Source: the macro `RNCRETURN (STATUS)`. -/
def RNCRETURN (L : NcLib) (retlist : RetList) (status : Int) : RetList :=
  (R_nc_status L retlist status 1).1

/-- Source: `R_nc_enddef (int ncid)`. -/
def R_nc_enddef (L : NcLib) (ncid : Int) : Int :=
  let status := L.nc_enddef ncid
  if status = NC_ENOTINDEFINE then NC_NOERR else status

/-- The C string held in a byte list: the bytes before the first zero byte. -/
def cstr (s : List Nat) : List Nat := s.takeWhile (fun c => c ≠ 0)

/-- Source: `R_nc_var_id (SEXP var, int ncid, int *varid)`: status, `*varid`
and the library calls made. -/
def R_nc_var_id (H : Host) (L : NcLib) (var : SEXP) (ncid : Int) : Int × Int × List NcCall :=
  if isNumeric var then
    (NC_NOERR, H.asInteger var, [])
  else if isString var then
    let name := cstr (match var with
      | .str xs => xs.getD 0 []
      | _ => [])
    ((L.nc_inq_varid ncid name).1, (L.nc_inq_varid ncid name).2, [NcCall.inq_varid ncid name])
  else
    (NC_EINVAL, 0, [])

/-- The C function `strnlen`: the number of bytes before the first zero byte
among the first `maxlen` bytes. -/
def strnlen : List Nat → Nat → Nat
  | _, 0 => 0
  | [], _ + 1 => 0
  | c :: cs, n + 1 => if c = 0 then 0 else strnlen cs n + 1

/-- A buffer of `n` elements after the library stored `src` in it; an element
the library did not store is `d`. -/
def fillBuf {α : Type} (n : Nat) (src : List α) (d : α) : List α :=
  (List.range n).map (fun i => src.getD i d)

/-- The strings of a character vector. -/
def STRINGS : SEXP → List (List Nat)
  | .str xs => xs
  | _ => []

/-- The R accessor `RAW`: the bytes of a raw vector. -/
def RAW : SEXP → List Nat
  | .raw xs => xs
  | _ => []

/-- What the `switch` of `R_nc_get_var` leaves behind: the list returned from
inside it, if any; the result list; `rank`; the library calls it made. -/
structure SwitchResult where
  returned : Option RetList
  retlist : RetList
  rank : Nat
  calls : List NcCall
  deriving DecidableEq

/-- Source: the statement `switch (xtype)` of `R_nc_get_var`. -/
def R_nc_get_var_switch (L : NcLib) (retlist : RetList) (ncid varid : Int) (ndims : Nat)
    (cstart ccount : List Nat) (arrlen : Nat) (xtype : Int) (rawchar : Int) : SwitchResult :=
  let rank := ndims
  if xtype = NC_CHAR then
    if rawchar ≠ 0 then
      let retlist := { retlist with data := .raw (List.replicate arrlen 0) }
      if arrlen > 0 then
        let r := L.nc_get_vara_text ncid varid cstart ccount
        let calls := [NcCall.get_vara_text ncid varid cstart ccount]
        match RNCCHECK L retlist r.1 with
        | some out => ⟨some out, retlist, rank, calls⟩
        | none => ⟨none, { retlist with data := .raw (fillBuf arrlen r.2 0) }, rank, calls⟩
      else
        ⟨none, retlist, rank, []⟩
    else
      let strlen := if ndims > 0 then ccount.getD (ndims - 1) 0 else 1
      let strcnt := if ndims > 0 then R_nc_length (ndims - 1) ccount else 1
      let rank := if ndims > 0 then ndims - 1 else 0
      let retlist := { retlist with data := .str (List.replicate strcnt []) }
      if arrlen > 0 then
        let r := L.nc_get_vara_text ncid varid cstart ccount
        let calls := [NcCall.get_vara_text ncid varid cstart ccount]
        match RNCCHECK L retlist r.1 with
        | some out => ⟨some out, retlist, rank, calls⟩
        | none =>
          let charbuf := fillBuf arrlen r.2 0
          let strs := forLoop 0 strcnt (fun ii strs =>
            let nextstr := charbuf.drop ((ii * strlen) % SIZE_MOD)
            strs.set ii (nextstr.take (strnlen nextstr strlen))) (List.replicate strcnt [])
          ⟨none, { retlist with data := .str strs }, rank, calls⟩
      else
        ⟨none, retlist, rank, []⟩
  else if xtype = NC_STRING then
    let retlist := { retlist with data := .str (List.replicate arrlen []) }
    if arrlen > 0 then
      let r := L.nc_get_vara_string ncid varid cstart ccount
      let calls := [NcCall.get_vara_string ncid varid cstart ccount]
      match RNCCHECK L retlist r.1 with
      | some out => ⟨some out, retlist, rank, calls⟩
      | none =>
        let strbuf := fillBuf arrlen r.2 []
        let strs := forLoop 0 arrlen (fun ii strs => strs.set ii (cstr (strbuf.getD ii [])))
          (List.replicate arrlen [])
        let retlist := { retlist with data := .str strs }
        let calls := calls ++ [NcCall.free_string arrlen strbuf]
        match RNCCHECK L retlist (L.nc_free_string arrlen strbuf) with
        | some out => ⟨some out, retlist, rank, calls⟩
        | none => ⟨none, retlist, rank, calls⟩
    else
      ⟨none, retlist, rank, []⟩
  else if xtype = NC_BYTE ∨ xtype = NC_SHORT ∨ xtype = NC_INT ∨ xtype = NC_FLOAT ∨
      xtype = NC_DOUBLE ∨ xtype = NC_UBYTE ∨ xtype = NC_USHORT ∨ xtype = NC_UINT ∨
      xtype = NC_INT64 ∨ xtype = NC_UINT64 then
    let retlist := { retlist with data := .real (List.replicate arrlen .nonfinite) }
    if arrlen > 0 then
      let r := L.nc_get_vara_double ncid varid cstart ccount
      let calls := [NcCall.get_vara_double ncid varid cstart ccount]
      match RNCCHECK L retlist r.1 with
      | some out => ⟨some out, retlist, rank, calls⟩
      | none =>
        ⟨none, { retlist with data := .real (fillBuf arrlen r.2 .nonfinite) }, rank, calls⟩
    else
      ⟨none, retlist, rank, []⟩
  else
    ⟨some (RNCRETURN L retlist NC_EBADTYPE), retlist, rank, []⟩

/-- Source: `R_nc_get_var (SEXP nc, SEXP var, SEXP start, SEXP count,
SEXP rawchar)`. The local arrays `cstart` and `ccount` have `MAX_NC_DIMS`
entries; their contents before `R_nc_slice` fills them are never read and are
taken to be 0. -/
def R_nc_get_var (H : Host) (L : NcLib) (nc var start count rawchar : SEXP) : OpResult :=
  let retlist := RetList.empty
  let ncid := H.asInteger nc
  let v := R_nc_var_id H L var ncid
  let calls := v.2.2
  match RNCCHECK L retlist v.1 with
  | some out => ⟨out, calls⟩
  | none =>
    let varid := v.2.1
    let sl := R_nc_slice H L.toNcMeta start count ncid varid
      (List.replicate MAX_NC_DIMS 0) (List.replicate MAX_NC_DIMS 0)
    let calls := calls ++ sl.calls
    match RNCCHECK L retlist sl.status with
    | some out => ⟨out, calls⟩
    | none =>
      let ndims := sl.ndims
      let arrlen := R_nc_length ndims sl.ccount
      let t := L.nc_inq_vartype ncid varid
      let calls := calls ++ [NcCall.inq_vartype ncid varid]
      match RNCCHECK L retlist t.1 with
      | some out => ⟨out, calls⟩
      | none =>
        let xtype := t.2
        let calls := calls ++ [NcCall.enddef ncid]
        match RNCCHECK L retlist (R_nc_enddef L ncid) with
        | some out => ⟨out, calls⟩
        | none =>
          let sw := R_nc_get_var_switch L retlist ncid varid ndims sl.cstart sl.ccount arrlen
            xtype (H.asLogical rawchar)
          let calls := calls ++ sw.calls
          match sw.returned with
          | some out => ⟨out, calls⟩
          | none =>
            let retlist := sw.retlist
            let rank := sw.rank
            let retlist :=
              if rank > 0 then
                let intp := forLoop 0 rank (fun ii intp =>
                  intp.set ii (size2int (sl.ccount.getD (rank - 1 - ii) 0)))
                  (List.replicate rank 0)
                { retlist with dim := some intp }
              else retlist
            ⟨RNCRETURN L retlist NC_NOERR, calls⟩

/-- State of the first loop of `R_nc_put_vara_double`: `s_start`, `s_count`
and `varsize`. -/
structure PutDims where
  s_start : List Nat
  s_count : List Nat
  varsize : Nat
  deriving DecidableEq

/-- Source: the loop "Copy dims from int to size_t" of `R_nc_put_vara_double`,
which also multiplies up `varsize`. -/
def putDoubleDims (start count ndims : SEXP) : PutDims :=
  forLoop 0 ((INTEGER ndims).getD 0 0).toNat (fun i (d : PutDims) =>
    let s_start := d.s_start.set i (int2size ((INTEGER start).getD i 0))
    let s_count := d.s_count.set i (int2size ((INTEGER count).getD i 0))
    ⟨s_start, s_count, (d.varsize * s_count.getD i 0) % SIZE_MOD⟩)
    ⟨List.replicate MAX_NC_DIMS 0, List.replicate MAX_NC_DIMS 0, 1⟩

/-- Source: `R_nc_put_vara_double (SEXP ncid, SEXP varid, SEXP start,
SEXP count, SEXP ndims, SEXP data)`. -/
def R_nc_put_vara_double (L : NcLib) (ncid varid start count ndims data : SEXP) : OpResult :=
  let retlist := RetList.empty
  let d := putDoubleDims start count ndims
  let calls := [NcCall.enddef ((INTEGER ncid).getD 0 0)]
  match RNCCHECK L retlist (R_nc_enddef L ((INTEGER ncid).getD 0 0)) with
  | some out => ⟨out, calls⟩
  | none =>
    if d.varsize > 0 then
      let calls := calls ++ [NcCall.put_vara_double ((INTEGER ncid).getD 0 0)
        ((INTEGER varid).getD 0 0) d.s_start d.s_count (REAL data)]
      match RNCCHECK L retlist (L.nc_put_vara_double ((INTEGER ncid).getD 0 0)
          ((INTEGER varid).getD 0 0) d.s_start d.s_count (REAL data)) with
      | some out => ⟨out, calls⟩
      | none => ⟨RNCRETURN L retlist NC_NOERR, calls⟩
    else
      ⟨RNCRETURN L retlist NC_NOERR, calls⟩

/-- The C function `strncpy (dest, src, n)` as the `n` bytes it stores: the
bytes of the C string `src`, cut after `n` bytes or padded with zero bytes up
to `n`. -/
def strncpy (src : List Nat) (n : Nat) : List Nat :=
  (cstr src).take n ++ List.replicate (n - (cstr src).length) 0

/-- Storing `bytes` in a buffer from offset `off` on. -/
def writeAt (buf : List Nat) (off : Nat) (bytes : List Nat) : List Nat :=
  forLoop 0 bytes.length (fun k b => b.set (off + k) (bytes.getD k 0)) buf

/-- Sizes that `R_nc_put_vara_text` computes before it writes: `s_start`,
`s_count`, `tx_len`, `tx_num` and `varsize`. -/
structure PutTextDims where
  s_start : List Nat
  s_count : List Nat
  tx_len : Nat
  tx_num : Nat
  varsize : Nat
  deriving DecidableEq

/-- Source: the part "Copy dims from int to size_t, calculate number and
length of strings" of `R_nc_put_vara_text`. -/
def putTextDims (start count ndims : SEXP) : PutTextDims :=
  let nd := (INTEGER ndims).getD 0 0
  let d := forLoop 0 nd.toNat (fun i (d : List Nat × List Nat) =>
    (d.1.set i (int2size ((INTEGER start).getD i 0)),
      d.2.set i (int2size ((INTEGER count).getD i 0))))
    (List.replicate MAX_NC_DIMS 0, List.replicate MAX_NC_DIMS 0)
  let s_start := d.1
  let s_count := d.2
  let tx_num :=
    if nd > 0 then
      forLoop 0 (nd - 1).toNat (fun i tx_num => (tx_num * s_count.getD i 0) % SIZE_MOD) 1
    else 1
  let tx_len := if nd > 0 then s_count.getD (nd - 1).toNat 0 else 1
  let varsize := (tx_num * tx_len) % SIZE_MOD
  ⟨s_start, s_count, tx_len, tx_num, varsize⟩

/-- Source: the part "Prepare output array" of `R_nc_put_vara_text`: the
buffer `ncdata`. -/
def putTextBuffer (d : PutTextDims) (rawchar data : SEXP) : List Nat :=
  if (INTEGER rawchar).getD 0 0 > 0 then
    RAW data
  else
    forLoop 0 d.tx_num (fun i buf =>
      writeAt buf ((i * d.tx_len) % SIZE_MOD) (strncpy ((STRINGS data).getD i []) d.tx_len))
      (List.replicate d.varsize 0)

/-- Source: `R_nc_put_vara_text (SEXP ncid, SEXP varid, SEXP start,
SEXP count, SEXP ndims, SEXP rawchar, SEXP data)`. -/
def R_nc_put_vara_text (L : NcLib) (ncid varid start count ndims rawchar data : SEXP) :
    OpResult :=
  let retlist := RetList.empty
  let d := putTextDims start count ndims
  let calls := [NcCall.enddef ((INTEGER ncid).getD 0 0)]
  match RNCCHECK L retlist (R_nc_enddef L ((INTEGER ncid).getD 0 0)) with
  | some out => ⟨out, calls⟩
  | none =>
    let ncdata := putTextBuffer d rawchar data
    if d.varsize > 0 then
      let calls := calls ++ [NcCall.put_vara_text ((INTEGER ncid).getD 0 0)
        ((INTEGER varid).getD 0 0) d.s_start d.s_count ncdata]
      match RNCCHECK L retlist (L.nc_put_vara_text ((INTEGER ncid).getD 0 0)
          ((INTEGER varid).getD 0 0) d.s_start d.s_count ncdata) with
      | some out => ⟨out, calls⟩
      | none => ⟨RNCRETURN L retlist NC_NOERR, calls⟩
    else
      ⟨RNCRETURN L retlist NC_NOERR, calls⟩

/-! ## Vocabulary of the statements -/

/-- The `size_t` that `R_nc_size_r2c` stores for position `k` of the user
vector `rv` (the body of its loops at `ii = k`). -/
def userEntry (H : Host) (rv : SEXP) (fillval : Nat) (k : Nat) : Nat :=
  if isReal rv then
    if k < xlength rv then
      if R_FINITE ((REAL rv).getD k .nonfinite) then dbl2size H ((REAL rv).getD k .nonfinite)
      else fillval
    else fillval
  else if isInteger rv then
    if k < xlength rv then
      if (INTEGER rv).getD k 0 = NA_INTEGER then fillval else int2size ((INTEGER rv).getD k 0)
    else fillval
  else fillval

/-- Position `k` of a user vector is missing: it lies beyond the end of the
vector, or holds `NA` (integer vector) or a non-finite value (real vector). -/
def entryMissing : SEXP → Nat → Bool
  | .int xs, k => decide (xs.length ≤ k) || decide ((xs.map RInt.val).getD k 0 = NA_INTEGER)
  | .real xs, k => decide (xs.length ≤ k) || !R_FINITE (xs.getD k .nonfinite)
  | rv, k => decide (xlength rv ≤ k)

/-- The value of a double when it is a whole number. -/
def RDouble.toInt? : RDouble → Option Int
  | .finite m e _ =>
    if 0 ≤ e then some (m * 2 ^ e.toNat)
    else if m % 2 ^ (-e).toNat = 0 then some (m / 2 ^ (-e).toNat)
    else none
  | .nonfinite => none

/-- The whole number at position `k` of a user vector, when that position
exists and holds a non-missing integer value (in an integer or a real
vector). -/
def entryValue : SEXP → Nat → Option Int
  | .int xs, k =>
    if k < xs.length ∧ (xs.map RInt.val).getD k 0 ≠ NA_INTEGER then
      some ((xs.map RInt.val).getD k 0)
    else none
  | .real xs, k => if k < xs.length then (xs.getD k .nonfinite).toInt? else none
  | _, _ => none

/-- The length of dimension `i` (storage order) of a variable, as the library
reports it. -/
def dimensionLength (L : NcMeta) (ncid varid : Int) (i : Nat) : Nat :=
  (L.nc_inq_dimlen ncid ((L.nc_inq_var ncid varid).2.getD i 0)).2

/-- The exact product of the first `ndims` entries of `count`. -/
def extentProduct (ndims : Nat) (count : List Nat) : Nat :=
  ((List.range ndims).map (fun i => count.getD i 0)).prod

/-- The first `n` elements of a user vector. -/
def SEXP.take (n : Nat) : SEXP → SEXP
  | .null => .null
  | .lgl xs => .lgl (xs.take n)
  | .int xs => .int (xs.take n)
  | .real xs => .real (xs.take n)
  | .str xs => .str (xs.take n)
  | .raw xs => .raw (xs.take n)

/-- The slice that `R_nc_get_var` resolves for its arguments. -/
def getVarSlice (H : Host) (L : NcLib) (nc var start count : SEXP) : SliceResult :=
  R_nc_slice H L.toNcMeta start count (H.asInteger nc)
    (R_nc_var_id H L var (H.asInteger nc)).2.1
    (List.replicate MAX_NC_DIMS 0) (List.replicate MAX_NC_DIMS 0)

/-- The total number of elements `arrlen` that `R_nc_get_var` computes for its
arguments. -/
def getVarArrlen (H : Host) (L : NcLib) (nc var start count : SEXP) : Nat :=
  R_nc_length (getVarSlice H L nc var start count).ndims
    (getVarSlice H L nc var start count).ccount

/-! ## Concrete inputs -/

/-- A host whose coercions and out-of-range conversions all give 0. -/
def hostZero : Host := ⟨fun _ => 0, fun _ => 0, fun _ => 0⟩

/-- A dataset in which every variable has the single dimension 0, of length
`len`, and every query succeeds. -/
def oneDimMeta (len : Nat) (h : len < SIZE_MOD) : NcMeta :=
  ⟨fun _ _ => (NC_NOERR, [0]), fun _ _ => (NC_NOERR, len), fun _ _ => h⟩

/-- A dataset in which every variable is a scalar and every query succeeds. -/
def scalarMeta : NcMeta :=
  ⟨fun _ _ => (NC_NOERR, []), fun _ _ => (NC_NOERR, 0), fun _ _ => Nat.two_pow_pos 64⟩

/-- The double `2 ^ 65`. -/
def twoPow65 : RDouble := .finite 1 65 (by decide)

/-- A dataset with one character variable of dimensions 0 and 1, of lengths 2
and 3, holding `"ab\0cd\0"`; every call succeeds. -/
def charLib : NcLib where
  nc_inq_var := fun _ _ => (NC_NOERR, [0, 1])
  nc_inq_dimlen := fun _ d => (NC_NOERR, if d = 0 then 2 else 3)
  dimlen_lt := by intro _ d; dsimp only; split <;> decide
  nc_inq_varid := fun _ _ => (NC_NOERR, 0)
  nc_inq_vartype := fun _ _ => (NC_NOERR, NC_CHAR)
  nc_enddef := fun _ => NC_NOERR
  nc_get_vara_text := fun _ _ _ _ => (NC_NOERR, [97, 98, 0, 99, 100, 0])
  nc_get_vara_string := fun _ _ _ _ => (NC_NOERR, [])
  nc_get_vara_double := fun _ _ _ _ => (NC_NOERR, [])
  nc_free_string := fun _ _ => NC_NOERR
  nc_put_vara_double := fun _ _ _ _ _ => NC_NOERR
  nc_put_vara_text := fun _ _ _ _ _ => NC_NOERR
  nc_strerror := fun _ => "error"

/-- The library as it answers for a dataset identifier that is not open:
every call fails with `NC_EBADID`. -/
def closedLib : NcLib where
  nc_inq_var := fun _ _ => (NC_EBADID, [])
  nc_inq_dimlen := fun _ _ => (NC_EBADID, 0)
  dimlen_lt := fun _ _ => Nat.two_pow_pos 64
  nc_inq_varid := fun _ _ => (NC_EBADID, 0)
  nc_inq_vartype := fun _ _ => (NC_EBADID, 0)
  nc_enddef := fun _ => NC_EBADID
  nc_get_vara_text := fun _ _ _ _ => (NC_EBADID, [])
  nc_get_vara_string := fun _ _ _ _ => (NC_EBADID, [])
  nc_get_vara_double := fun _ _ _ _ => (NC_EBADID, [])
  nc_free_string := fun _ _ => NC_EBADID
  nc_put_vara_double := fun _ _ _ _ _ => NC_EBADID
  nc_put_vara_text := fun _ _ _ _ _ => NC_EBADID
  nc_strerror := fun _ => "NetCDF: Not a valid ID"

/-- The R integer vector `c(n)`. -/
def intScalar (n : Nat) (h : n < 2147483648) : SEXP := .int [RInt.ofNat n h]

/-! ## Vocabulary for `R_nc_get_var` -/

/-- The variable identifier that `R_nc_get_var` resolves for its arguments. -/
def getVarVarid (H : Host) (L : NcLib) (nc var : SEXP) : Int :=
  (R_nc_var_id H L var (H.asInteger nc)).2.1

/-- The element type `xtype` that `R_nc_get_var` is told by the library. -/
def getVarXtype (H : Host) (L : NcLib) (nc var : SEXP) : Int :=
  (L.nc_inq_vartype (H.asInteger nc) (getVarVarid H L nc var)).2

/-- The steps of `R_nc_get_var` before its `switch` all succeed: the variable
lookup, `R_nc_slice`, the type query and `R_nc_enddef`. -/
def getVarReaches (H : Host) (L : NcLib) (nc var start count : SEXP) : Prop :=
  (R_nc_var_id H L var (H.asInteger nc)).1 = NC_NOERR ∧
  (getVarSlice H L nc var start count).status = NC_NOERR ∧
  (L.nc_inq_vartype (H.asInteger nc) (getVarVarid H L nc var)).1 = NC_NOERR ∧
  R_nc_enddef L (H.asInteger nc) = NC_NOERR

instance (H : Host) (L : NcLib) (nc var start count : SEXP) :
    Decidable (getVarReaches H L nc var start count) :=
  inferInstanceAs (Decidable (_ ∧ _ ∧ _ ∧ _))

/-- The `switch` of `R_nc_get_var` at the slice resolved for its arguments. -/
def getVarSwitch (H : Host) (L : NcLib) (nc var start count rawchar : SEXP) : SwitchResult :=
  R_nc_get_var_switch L RetList.empty (H.asInteger nc) (getVarVarid H L nc var)
    (getVarSlice H L nc var start count).ndims
    (getVarSlice H L nc var start count).cstart
    (getVarSlice H L nc var start count).ccount
    (getVarArrlen H L nc var start count)
    (getVarXtype H L nc var) (H.asLogical rawchar)

/-- Source: the loop of `R_nc_get_var` that fills the dimension attribute:
`intp[ii] = ccount[rank-1-ii]`. -/
def dimAttr (rank : Nat) (ccount : List Nat) : List Int :=
  forLoop 0 rank (fun ii intp => intp.set ii (size2int (ccount.getD (rank - 1 - ii) 0)))
    (List.replicate rank 0)

/-- Source: the string width `strlen` of `R_nc_get_var` in string mode. -/
def stringWidth (ndims : Nat) (ccount : List Nat) : Nat :=
  if ndims > 0 then ccount.getD (ndims - 1) 0 else 1

/-- Source: the string count `strcnt` of `R_nc_get_var` in string mode. -/
def stringCount (ndims : Nat) (ccount : List Nat) : Nat :=
  if ndims > 0 then R_nc_length (ndims - 1) ccount else 1

/-- Source: the output rank of `R_nc_get_var` in string mode. -/
def stringRank (ndims : Nat) : Nat :=
  if ndims > 0 then ndims - 1 else 0

/-- Source: the loop of `R_nc_get_var` that forms the strings from `charbuf`. -/
def extractStrings (charbuf : List Nat) (strcnt strlen : Nat) : List (List Nat) :=
  forLoop 0 strcnt (fun ii strs =>
    let nextstr := charbuf.drop ((ii * strlen) % SIZE_MOD)
    strs.set ii (nextstr.take (strnlen nextstr strlen))) (List.replicate strcnt [])

/-- The bytes of a window before its first zero byte. -/
def cutAtZero (window : List Nat) : List Nat := window.takeWhile (fun c => c ≠ 0)

/-- The window of `strlen` bytes of a flat buffer that holds string `k`. -/
def stringWindow (buf : List Nat) (strlen k : Nat) : List Nat :=
  (buf.drop (k * strlen)).take strlen

/-- The element types that `R_nc_get_var` reads as doubles. -/
def isNumericType (xtype : Int) : Prop :=
  xtype = NC_BYTE ∨ xtype = NC_SHORT ∨ xtype = NC_INT ∨ xtype = NC_FLOAT ∨
  xtype = NC_DOUBLE ∨ xtype = NC_UBYTE ∨ xtype = NC_USHORT ∨ xtype = NC_UINT ∨
  xtype = NC_INT64 ∨ xtype = NC_UINT64

instance (xtype : Int) : Decidable (isNumericType xtype) :=
  inferInstanceAs (Decidable (_ ∨ _ ∨ _ ∨ _ ∨ _ ∨ _ ∨ _ ∨ _ ∨ _ ∨ _))

/-- A host whose `asLogical` is true, so that character data is read raw. -/
def hostRaw : Host := ⟨fun _ => 0, fun _ => 1, fun _ => 0⟩

/-- The netCDF status `NC_EVARSIZE` (netcdf.h). -/
def NC_EVARSIZE : Int := -62

/-- A dataset with one scalar character variable holding the byte `b`; every
call succeeds. -/
def scalarCharLib (b : Nat) : NcLib where
  nc_inq_var := fun _ _ => (NC_NOERR, [])
  nc_inq_dimlen := fun _ _ => (NC_NOERR, 0)
  dimlen_lt := fun _ _ => Nat.two_pow_pos 64
  nc_inq_varid := fun _ _ => (NC_NOERR, 0)
  nc_inq_vartype := fun _ _ => (NC_NOERR, NC_CHAR)
  nc_enddef := fun _ => NC_NOERR
  nc_get_vara_text := fun _ _ _ _ => (NC_NOERR, [b])
  nc_get_vara_string := fun _ _ _ _ => (NC_NOERR, [])
  nc_get_vara_double := fun _ _ _ _ => (NC_NOERR, [])
  nc_free_string := fun _ _ => NC_NOERR
  nc_put_vara_double := fun _ _ _ _ _ => NC_NOERR
  nc_put_vara_text := fun _ _ _ _ _ => NC_NOERR
  nc_strerror := fun _ => "error"

/-- A dataset with one scalar variable of element type `xtype`, in which
`nc_enddef` returns `enddef` and every other call succeeds. -/
def typedLib (xtype enddef : Int) : NcLib where
  nc_inq_var := fun _ _ => (NC_NOERR, [])
  nc_inq_dimlen := fun _ _ => (NC_NOERR, 0)
  dimlen_lt := fun _ _ => Nat.two_pow_pos 64
  nc_inq_varid := fun _ _ => (NC_NOERR, 0)
  nc_inq_vartype := fun _ _ => (NC_NOERR, xtype)
  nc_enddef := fun _ => enddef
  nc_get_vara_text := fun _ _ _ _ => (NC_NOERR, [])
  nc_get_vara_string := fun _ _ _ _ => (NC_NOERR, [])
  nc_get_vara_double := fun _ _ _ _ => (NC_NOERR, [RDouble.nonfinite])
  nc_free_string := fun _ _ => NC_NOERR
  nc_put_vara_double := fun _ _ _ _ _ => NC_NOERR
  nc_put_vara_text := fun _ _ _ _ _ => NC_NOERR
  nc_strerror := fun _ => "error"

/-- The first user-defined type identifier, `NC_FIRSTUSERTYPEID` (netcdf.h). -/
def NC_FIRSTUSERTYPEID : Int := 32

/-- The flat buffer `charbuf` of `R_nc_get_var` after the bulk read of
character data: `arrlen` bytes, stored by the library. -/
def getVarBuffer (H : Host) (L : NcLib) (nc var start count : SEXP) : List Nat :=
  fillBuf (getVarArrlen H L nc var start count)
    (L.nc_get_vara_text (H.asInteger nc) (getVarVarid H L nc var)
      (getVarSlice H L nc var start count).cstart
      (getVarSlice H L nc var start count).ccount).2 0

/-- The count vector `c(2 ^ 32 + 1, 2 ^ 32)`, of doubles. -/
def wrapCount : SEXP :=
  .real [RDouble.ofNat 4294967297 (by decide), RDouble.ofNat 4294967296 (by decide)]

/-- The count vector `c(2 ^ 32 + 5, 0)`, of doubles. -/
def wideEmptyCount : SEXP :=
  .real [RDouble.ofNat 4294967301 (by decide), RDouble.ofNat 0 (by decide)]

/-- The status with which the library answers a metadata query. -/
def queryStatus (L : NcMeta) : NcCall → Int
  | .inq_var ncid varid => (L.nc_inq_var ncid varid).1
  | .inq_dimlen ncid dimid => (L.nc_inq_dimlen ncid dimid).1
  | _ => NC_NOERR

/-- A dataset with one variable of dimensions 0, 1 and 2 in which the length
query fails with `NC_EBADDIM` (-46) for dimension 1 and succeeds with length 4
for the others. -/
def brokenDimMeta : NcMeta :=
  ⟨fun _ _ => (NC_NOERR, [0, 1, 2]), fun _ d => (if d = 1 then -46 else NC_NOERR, 4),
    fun _ _ => Nat.lt_of_lt_of_le (by decide : 4 < 5) (by decide : 5 ≤ SIZE_MOD)⟩

/-- The count vector `c(4194304, 4194304, 4194304, 1)` in storage order: three
extents of `2 ^ 22` and a string width of 1. -/
def cubeCount : SEXP :=
  .int [RInt.ofNat 4194304 (by decide), RInt.ofNat 4194304 (by decide),
    RInt.ofNat 4194304 (by decide), RInt.ofNat 1 (by decide)]

/-- A dataset with one character variable of the single dimension 0, of length
3, holding the bytes `'a'`, zero, `'b'`; every call succeeds. -/
def dirtyStringLib : NcLib where
  nc_inq_var := fun _ _ => (NC_NOERR, [0])
  nc_inq_dimlen := fun _ _ => (NC_NOERR, 3)
  dimlen_lt := fun _ _ => Nat.lt_of_lt_of_le (by decide : 3 < 4) (by decide : 4 ≤ SIZE_MOD)
  nc_inq_varid := fun _ _ => (NC_NOERR, 0)
  nc_inq_vartype := fun _ _ => (NC_NOERR, NC_CHAR)
  nc_enddef := fun _ => NC_NOERR
  nc_get_vara_text := fun _ _ _ _ => (NC_NOERR, [97, 0, 98])
  nc_get_vara_string := fun _ _ _ _ => (NC_NOERR, [])
  nc_get_vara_double := fun _ _ _ _ => (NC_NOERR, [])
  nc_free_string := fun _ _ => NC_NOERR
  nc_put_vara_double := fun _ _ _ _ _ => NC_NOERR
  nc_put_vara_text := fun _ _ _ _ _ => NC_NOERR
  nc_strerror := fun _ => "error"

/-- The number of library-owned strings that a library call creates (positive)
or releases (negative) during a read of `arrlen` elements: a bulk read of
variable-length strings that succeeds allocates one string for each element,
and `nc_free_string (len, ...)` releases `len` strings. -/
def stringsAllocated (L : NcLib) (arrlen : Nat) : NcCall → Int
  | .get_vara_string ncid varid start count =>
    if (L.nc_get_vara_string ncid varid start count).1 = NC_NOERR then (arrlen : Int) else 0
  | .free_string len _ => -(len : Int)
  | _ => 0

/-- The library-owned strings outstanding after a sequence of library calls
made by reads of `arrlen` elements each. -/
def outstandingStrings (L : NcLib) (arrlen : Nat) (calls : List NcCall) : Int :=
  (calls.map (stringsAllocated L arrlen)).sum

/-- A dataset with one variable of type `NC_STRING` and of the single
dimension 0, of length 2, holding `"a"` and `"bc"`; every call succeeds. -/
def vstringLib : NcLib where
  nc_inq_var := fun _ _ => (NC_NOERR, [0])
  nc_inq_dimlen := fun _ _ => (NC_NOERR, 2)
  dimlen_lt := fun _ _ => Nat.lt_of_lt_of_le (by decide : 2 < 3) (by decide : 3 ≤ SIZE_MOD)
  nc_inq_varid := fun _ _ => (NC_NOERR, 0)
  nc_inq_vartype := fun _ _ => (NC_NOERR, NC_STRING)
  nc_enddef := fun _ => NC_NOERR
  nc_get_vara_text := fun _ _ _ _ => (NC_NOERR, [])
  nc_get_vara_string := fun _ _ _ _ => (NC_NOERR, [[97], [98, 99]])
  nc_get_vara_double := fun _ _ _ _ => (NC_NOERR, [])
  nc_free_string := fun _ _ => NC_NOERR
  nc_put_vara_double := fun _ _ _ _ _ => NC_NOERR
  nc_put_vara_text := fun _ _ _ _ _ => NC_NOERR
  nc_strerror := fun _ => "error"

/-- A dataset with one variable of type `NC_INT` and of dimensions 0, 1 and 2,
each of length 4; every call succeeds. -/
def cubeLib : NcLib where
  nc_inq_var := fun _ _ => (NC_NOERR, [0, 1, 2])
  nc_inq_dimlen := fun _ _ => (NC_NOERR, 4)
  dimlen_lt := fun _ _ => Nat.lt_of_lt_of_le (by decide : 4 < 5) (by decide : 5 ≤ SIZE_MOD)
  nc_inq_varid := fun _ _ => (NC_NOERR, 0)
  nc_inq_vartype := fun _ _ => (NC_NOERR, NC_INT)
  nc_enddef := fun _ => NC_NOERR
  nc_get_vara_text := fun _ _ _ _ => (NC_NOERR, [])
  nc_get_vara_string := fun _ _ _ _ => (NC_NOERR, [])
  nc_get_vara_double := fun _ _ _ _ => (NC_NOERR, [])
  nc_free_string := fun _ _ => NC_NOERR
  nc_put_vara_double := fun _ _ _ _ _ => NC_NOERR
  nc_put_vara_text := fun _ _ _ _ _ => NC_NOERR
  nc_strerror := fun _ => "error"

/-- The count vector `c(4194304, 4194304, 4194304)`: three extents of
`2 ^ 22`. -/
def cubeExtents : SEXP :=
  .int [RInt.ofNat 4194304 (by decide), RInt.ofNat 4194304 (by decide),
    RInt.ofNat 4194304 (by decide)]

/-! ## Type labels: `R_nc_type2str` and `R_nc_str2type` -/

/-- The queries of the library about user-defined types. Each returns the
status first; `nc_inq_user_type` returns the name of the type and
`nc_inq_typeid` its identifier. -/
structure NcTypeLib where
  nc_inq_user_type : Int → Int → Int × List Nat
  nc_inq_typeid : Int → List Nat → Int × Int

/-- A call of a type query of the library, with its arguments. -/
inductive TypeCall where
  | inq_user_type (ncid xtype : Int)
  | inq_typeid (ncid : Int) (name : List Nat)
  deriving DecidableEq

/-- The bytes of a string literal of the source. -/
def ascii (s : String) : List Nat := s.toList.map Char.toNat

/-- The netCDF type code `NC_NAT`, "not a type" (netcdf.h). -/
def NC_NAT : Int := 0

/-- The netCDF type code `NC_LONG`, a deprecated name of `NC_INT` (netcdf.h). -/
def NC_LONG : Int := NC_INT

/-- Source: `R_nc_type2str (int ncid, nc_type xtype)`: the label as a C
string, and the library calls made. -/
def R_nc_type2str (T : NcTypeLib) (ncid xtype : Int) : List Nat × List TypeCall :=
  if xtype = NC_BYTE then (ascii "NC_BYTE", [])
  else if xtype = NC_UBYTE then (ascii "NC_UBYTE", [])
  else if xtype = NC_CHAR then (ascii "NC_CHAR", [])
  else if xtype = NC_SHORT then (ascii "NC_SHORT", [])
  else if xtype = NC_USHORT then (ascii "NC_USHORT", [])
  else if xtype = NC_INT then (ascii "NC_INT", [])
  else if xtype = NC_UINT then (ascii "NC_UINT", [])
  else if xtype = NC_INT64 then (ascii "NC_INT64", [])
  else if xtype = NC_UINT64 then (ascii "NC_UINT64", [])
  else if xtype = NC_FLOAT then (ascii "NC_FLOAT", [])
  else if xtype = NC_DOUBLE then (ascii "NC_DOUBLE", [])
  else if xtype = NC_STRING then (ascii "NC_STRING", [])
  else
    let r := T.nc_inq_user_type ncid xtype
    if r.1 = NC_NOERR then (cstr r.2, [TypeCall.inq_user_type ncid xtype])
    else (ascii "UNKNOWN", [TypeCall.inq_user_type ncid xtype])

/-- Source: the `switch (str[3])` of `R_nc_str2type`, which sets `*xtype`
(initially `NC_NAT`) for the labels of the built-in types. `s` is the C string
`str`, read as 0 at its end, and `typelen` its length as an `int`. -/
def str2typeSwitch (s : List Nat) (typelen : Int) : Int :=
  if typelen ≥ 6 then
    if s.getD 3 0 = Char.toNat 'B' then
      if s = ascii "NC_BYTE" then NC_BYTE else NC_NAT
    else if s.getD 3 0 = Char.toNat 'C' then
      if s = ascii "NC_CHAR" then NC_CHAR else NC_NAT
    else if s.getD 3 0 = Char.toNat 'D' then
      if s = ascii "NC_DOUBLE" then NC_DOUBLE else NC_NAT
    else if s.getD 3 0 = Char.toNat 'F' then
      if s = ascii "NC_FLOAT" then NC_FLOAT else NC_NAT
    else if s.getD 3 0 = Char.toNat 'I' then
      if s.getD 6 0 = 0 then
        if s = ascii "NC_INT" then NC_INT else NC_NAT
      else if s.getD 6 0 = Char.toNat '6' then
        if s = ascii "NC_INT64" then NC_INT64 else NC_NAT
      else NC_NAT
    else if s.getD 3 0 = Char.toNat 'L' then
      if s = ascii "NC_LONG" then NC_LONG else NC_NAT
    else if s.getD 3 0 = Char.toNat 'S' then
      if s.getD 4 0 = Char.toNat 'H' then
        if s = ascii "NC_SHORT" then NC_SHORT else NC_NAT
      else if s.getD 4 0 = Char.toNat 'T' then
        if s = ascii "NC_STRING" then NC_STRING else NC_NAT
      else NC_NAT
    else if s.getD 3 0 = Char.toNat 'U' then
      if typelen ≥ 7 then
        if s.getD 7 0 = 0 then
          if s = ascii "NC_UINT" then NC_UINT else NC_NAT
        else if s.getD 7 0 = Char.toNat '6' then
          if s = ascii "NC_UINT64" then NC_UINT64 else NC_NAT
        else if s.getD 7 0 = Char.toNat 'E' then
          if s = ascii "NC_UBYTE" then NC_UBYTE else NC_NAT
        else if s.getD 7 0 = Char.toNat 'R' then
          if s = ascii "NC_USHORT" then NC_USHORT else NC_NAT
        else NC_NAT
      else NC_NAT
    else NC_NAT
  else NC_NAT

/-- Source: `R_nc_str2type (int ncid, const char *str, nc_type * xtype)`: the
status, `*xtype` and the library calls made. `typelen` is an `int` that
receives the `size_t` result of `strlen`. -/
def R_nc_str2type (T : NcTypeLib) (ncid : Int) (str : List Nat) : Int × Int × List TypeCall :=
  let typelen := size2int (cstr str).length
  let xtype := str2typeSwitch (cstr str) typelen
  if xtype = NC_NAT then
    let r := T.nc_inq_typeid ncid (cstr str)
    (r.1, r.2, [TypeCall.inq_typeid ncid (cstr str)])
  else
    (NC_NOERR, xtype, [])

/-- The twelve built-in type codes. -/
def builtinTypes : List Int :=
  [NC_BYTE, NC_UBYTE, NC_CHAR, NC_SHORT, NC_USHORT, NC_INT, NC_UINT, NC_INT64, NC_UINT64,
    NC_FLOAT, NC_DOUBLE, NC_STRING]

/-- The labels of the twelve built-in types, in the order of `builtinTypes`. -/
def builtinLabels : List (List Nat) :=
  [ascii "NC_BYTE", ascii "NC_UBYTE", ascii "NC_CHAR", ascii "NC_SHORT", ascii "NC_USHORT",
    ascii "NC_INT", ascii "NC_UINT", ascii "NC_INT64", ascii "NC_UINT64", ascii "NC_FLOAT",
    ascii "NC_DOUBLE", ascii "NC_STRING"]

/-! ## `R_nc_close` -/

/-- What `R_nc_close` leaves behind: the list returned to R, the address held
by the external pointer afterwards (`none` when it is cleared, otherwise the
file identifier stored at the address), and the file identifiers it passed to
`nc_close`, in order. -/
structure CloseResult where
  ret : RetList
  ptr : Option Int
  closed : List Int
  deriving DecidableEq

/-- Source: `R_nc_close (SEXP ptr)`. The external pointer `ptr` is `none` when
its address is `NULL`, and `some fileid` when it points to the file
identifier; `nc_close` is the library function. -/
def R_nc_close (L : NcLib) (nc_close : Int → Int) (ptr : Option Int) : CloseResult :=
  let retlist := RetList.empty
  match ptr with
  | none => ⟨RNCRETURN L retlist NC_NOERR, none, []⟩
  | some fileid =>
    match RNCCHECK L retlist (nc_close fileid) with
    | some out => ⟨out, some fileid, [fileid]⟩
    | none => ⟨RNCRETURN L retlist NC_NOERR, none, [fileid]⟩

/-! ## `R_nc_get_att` -/

/-- The attribute functions of the library that `R_nc_get_att` uses. Each
returns the status first. `nc_inq_attname` returns the name of the attribute
with a given number, `nc_inq_att` the type and the length `cnt` of an
attribute, `nc_get_att_text` its bytes and `nc_get_att_double` its values. -/
structure NcAttLib where
  nc_inq_attname : Int → Int → Int → Int × List Nat
  nc_inq_att : Int → Int → List Nat → Int × Int × Nat
  nc_get_att_text : Int → Int → List Nat → Int × List Nat
  nc_get_att_double : Int → Int → List Nat → Int × List RDouble

/-- The variable identifier `NC_GLOBAL` (netcdf.h). -/
def NC_GLOBAL : Int := -1

/-- Source: `R_nc_strcmp (SEXP var, const char *str)`. -/
def R_nc_strcmp (var : SEXP) (str : List Nat) : Bool :=
  isString var && decide (xlength var ≥ 1) && decide (cstr ((STRINGS var).getD 0 []) = str)

/-- Source: `R_nc_att_name (SEXP att, int ncid, int varid, char *attname)`:
the status and the name stored in `attname`. -/
def R_nc_att_name (H : Host) (A : NcAttLib) (att : SEXP) (ncid varid : Int) :
    Int × List Nat :=
  if isNumeric att then
    ((A.nc_inq_attname ncid varid (H.asInteger att)).1,
      cstr (A.nc_inq_attname ncid varid (H.asInteger att)).2)
  else if isString att then
    (NC_NOERR, cstr ((STRINGS att).getD 0 []))
  else
    (NC_EINVAL, [])

/-- What `R_nc_get_att` leaves behind: the list returned to R, the number of
bytes it allocated for the text buffer `cvalue` (0 when it allocated none) and
the indices of `cvalue` that were written, in order. -/
structure AttResult where
  ret : RetList
  allocated : Nat
  written : List Nat
  deriving DecidableEq

/-- Source: `R_nc_get_att (SEXP nc, SEXP var, SEXP att)`. `mem` holds the
bytes of memory from the address that `R_alloc` returns on, as they are before
the call: the allocation, which `R_alloc` does not initialise, and what
follows it. The library stores the `cnt` bytes of a text attribute at the
indices below `cnt`. -/
def R_nc_get_att (H : Host) (L : NcLib) (A : NcAttLib) (mem : List Nat) (nc var att : SEXP) :
    AttResult :=
  let retlist := RetList.empty
  let ncid := H.asInteger nc
  let v := if R_nc_strcmp var (ascii "NC_GLOBAL") then (NC_NOERR, NC_GLOBAL)
    else ((R_nc_var_id H L var ncid).1, (R_nc_var_id H L var ncid).2.1)
  match RNCCHECK L retlist v.1 with
  | some out => ⟨out, 0, []⟩
  | none =>
    let varid := v.2
    let an := R_nc_att_name H A att ncid varid
    match RNCCHECK L retlist an.1 with
    | some out => ⟨out, 0, []⟩
    | none =>
      let attname := an.2
      let q := A.nc_inq_att ncid varid attname
      match RNCCHECK L retlist q.1 with
      | some out => ⟨out, 0, []⟩
      | none =>
        let type := q.2.1
        let cnt := q.2.2
        if type = NC_CHAR then
          let retlist := { retlist with data := .str [[]] }
          let size := (cnt + 1) % SIZE_MOD
          let r := A.nc_get_att_text ncid varid attname
          let cvalue := writeAt mem 0 (fillBuf cnt r.2 0)
          let written := List.range cnt
          match RNCCHECK L retlist r.1 with
          | some out => ⟨out, size, written⟩
          | none =>
            let cvalue := cvalue.set ((cnt + 1) % SIZE_MOD) 0
            let written := written ++ [(cnt + 1) % SIZE_MOD]
            ⟨RNCRETURN L { retlist with data := .str [cstr cvalue] } NC_NOERR, size, written⟩
        else
          let retlist := { retlist with data := .real (List.replicate cnt .nonfinite) }
          let r := A.nc_get_att_double ncid varid attname
          match RNCCHECK L retlist r.1 with
          | some out => ⟨out, 0, []⟩
          | none =>
            ⟨RNCRETURN L { retlist with data := .real (fillBuf cnt r.2 .nonfinite) } NC_NOERR,
              0, []⟩

/-- A dataset whose attributes are all of type `NC_CHAR` and hold the two
bytes `"ab"`; every call succeeds. -/
def textAttLib : NcAttLib where
  nc_inq_attname := fun _ _ _ => (NC_NOERR, [])
  nc_inq_att := fun _ _ _ => (NC_NOERR, NC_CHAR, 2)
  nc_get_att_text := fun _ _ _ => (NC_NOERR, [97, 98])
  nc_get_att_double := fun _ _ _ => (NC_NOERR, [])

/-! ## `R_nc_unlimdims` -/

/-- The group and dimension queries of the library that `R_nc_unlimdims` uses.
Each returns the status first. `nc_inq_dimids` (called with
`include_parents = 1`) returns the number of visible dimensions,
`nc_inq_unlimdims` the identifiers of the unlimited dimensions of a group,
`nc_inq_grp_parent` the identifier of the parent group and `nc_inq_unlimdim`
the identifier of the unlimited dimension of a classic dataset (-1 when it has
none). -/
structure NcGroupLib where
  nc_inq_format : Int → Int × Int
  nc_inq_dimids : Int → Int × Nat
  nc_inq_unlimdims : Int → Int × List Int
  nc_inq_grp_parent : Int → Int × Int
  nc_inq_unlimdim : Int → Int × Int

/-- The format code `NC_FORMAT_NETCDF4` (netcdf.h). -/
def NC_FORMAT_NETCDF4 : Int := 3

/-- The netCDF status `NC_ENOMEM` (netcdf.h). -/
def NC_ENOMEM : Int := -61

/-- The netCDF status `NC_ENOGRP` (netcdf.h). -/
def NC_ENOGRP : Int := -125

/-- The size of a C `int` in bytes, `sizeof (int)`. -/
def SIZEOF_INT : Nat := 4

/-- The C function `memcpy` on arrays of `int`: `src` stored into `mem` from
index `off` on. -/
def memcpyInt (mem : List Int) (off : Nat) (src : List Int) : List Int :=
  forLoop 0 src.length (fun k b => b.set (off + k) (src.getD k 0)) mem

/-- Source: the `do ... while` loop of `R_nc_unlimdims`, with a bound `fuel`
on the number of groups visited: the status returned, `*nunlim` and the memory
at `*unlimids`; `none` when the bound is reached. The destination of `memcpy`
is `*unlimids + *nunlim * sizeof (int)`, a sum of an `int *` and an integer,
which is the array index `*nunlim * sizeof (int)`. -/
def unlimdimsLoop (G : NcGroupLib) (ancestors : Int) (ndims : Nat) :
    Nat → Int → Nat → List Int → Option (Int × Nat × List Int)
  | 0, _, _, _ => none
  | fuel + 1, ncid, nunlim, unlimids =>
    let r := G.nc_inq_unlimdims ncid
    if r.1 ≠ NC_NOERR then
      some (r.1, nunlim, unlimids)
    else if r.2.length + nunlim ≤ ndims then
      let unlimids := memcpyInt unlimids (nunlim * SIZEOF_INT) r.2
      let nunlim := nunlim + r.2.length
      if ancestors ≠ 0 ∧ (G.nc_inq_grp_parent ncid).1 = NC_NOERR then
        unlimdimsLoop G ancestors ndims fuel (G.nc_inq_grp_parent ncid).2 nunlim unlimids
      else
        some (NC_NOERR, nunlim, unlimids)
    else
      some (NC_ENOMEM, nunlim, unlimids)

/-- Source: `R_nc_unlimdims (int ncid, int *nunlim, int **unlimids,
int ancestors)`: the status, `*nunlim` and the memory at `*unlimids`. `mem`
holds the `int`s of memory from the address that `R_alloc` returns on, as they
are before the call (`R_alloc` does not initialise the allocation). -/
def R_nc_unlimdims (G : NcGroupLib) (mem : List Int) (fuel : Nat) (ncid ancestors : Int) :
    Option (Int × Nat × List Int) :=
  let f := G.nc_inq_format ncid
  if f.1 ≠ NC_NOERR then
    some (f.1, 0, mem)
  else if f.2 = NC_FORMAT_NETCDF4 then
    let d := G.nc_inq_dimids ncid
    if d.1 ≠ NC_NOERR then
      some (d.1, 0, mem)
    else
      unlimdimsLoop G ancestors d.2 fuel ncid 0 mem
  else
    let u := G.nc_inq_unlimdim ncid
    let unlimids := mem.set 0 u.2
    if u.1 = NC_NOERR ∧ u.2 ≠ -1 then some (u.1, 1, unlimids) else some (u.1, 0, unlimids)

/-- The lists of unlimited dimensions that the library returns for a group
and, when `ancestors` is set, for its ancestors, in visiting order, for at
most `fuel` groups. -/
def unlimitedLists (G : NcGroupLib) (ancestors : Int) : Nat → Int → List (List Int)
  | 0, _ => []
  | fuel + 1, ncid =>
    (G.nc_inq_unlimdims ncid).2 ::
      (if ancestors ≠ 0 ∧ (G.nc_inq_grp_parent ncid).1 = NC_NOERR then
        unlimitedLists G ancestors fuel (G.nc_inq_grp_parent ncid).2
      else [])

/-- A netCDF-4 dataset with five visible dimensions: the group 1 has the
unlimited dimension 5, and its parent, the root group 0, the unlimited
dimension 7. -/
def nestedGroupLib : NcGroupLib where
  nc_inq_format := fun _ => (NC_NOERR, NC_FORMAT_NETCDF4)
  nc_inq_dimids := fun _ => (NC_NOERR, 5)
  nc_inq_unlimdims := fun ncid => (NC_NOERR, if ncid = 1 then [5] else [7])
  nc_inq_grp_parent := fun ncid => if ncid = 1 then (NC_NOERR, 0) else (NC_ENOGRP, 0)
  nc_inq_unlimdim := fun _ => (NC_NOERR, -1)

/-! ## `R_nc_def_var` and `R_nc_inq_var` -/

/-- The functions of the library that `R_nc_def_var` and `R_nc_inq_var` use
besides those of `NcLib` and `NcTypeLib`. `nc_inq_dimid` returns the status
and the identifier of a named dimension; `nc_def_var` takes the dataset, the
name, the type and the dimension identifiers (their number being `ndims`) and
returns the status and the new variable identifier; `nc_inq_var_info` is the
name, the type and the number of attributes that `nc_inq_var` reports along
with the dimension identifiers. -/
structure NcDefLib where
  nc_inq_dimid : Int → List Nat → Int × Int
  nc_redef : Int → Int
  nc_def_var : Int → List Nat → Int → List Int → Int × RInt
  nc_inq_var_info : Int → Int → List Nat × Int × RInt

/-- The largest rank of a variable, `NC_MAX_VAR_DIMS` (netcdf.h). -/
def NC_MAX_VAR_DIMS : Nat := 1024

/-- The netCDF status `NC_EMAXDIMS` (netcdf.h). -/
def NC_EMAXDIMS : Int := -41

/-- Conversion of a double to a C `int`, as in `*dimid = REAL (dim)[idx]`: the
integral part when the double is finite and the part is representable,
otherwise whatever the platform produces. -/
def dbl2int (H : Host) (d : RDouble) : Int :=
  if R_FINITE d ∧ -2147483648 ≤ d.trunc ∧ d.trunc < 2147483648 then d.trunc
  else size2int (H.castUB d)

/-- Source: `R_nc_dim_id (SEXP dim, int ncid, int *dimid, int idx)`: the
status and `*dimid` (0 when the function does not set it). -/
def R_nc_dim_id (H : Host) (D : NcDefLib) (dim : SEXP) (ncid : Int) (idx : Nat) : Int × Int :=
  if isInteger dim then
    (NC_NOERR, (INTEGER dim).getD idx 0)
  else if isReal dim then
    (NC_NOERR, dbl2int H ((REAL dim).getD idx .nonfinite))
  else if isString dim then
    D.nc_inq_dimid ncid (cstr ((STRINGS dim).getD idx []))
  else
    (NC_EINVAL, 0)

/-- Source: `R_nc_redef (int ncid)`. -/
def R_nc_redef (D : NcDefLib) (ncid : Int) : Int :=
  let status := D.nc_redef ncid
  if status = NC_EINDEFINE then NC_NOERR else status

/-- Body of the loop of `R_nc_def_var` over the dimensions; the state is the
array `dimids`. -/
def defVarDimBody (H : Host) (D : NcDefLib) (dims : SEXP) (ncid : Int) (ndims : Nat)
    (ii : Nat) (dimids : List Int) : Option Int × List Int :=
  let r := R_nc_dim_id H D dims ncid ii
  if r.1 ≠ NC_NOERR then (some r.1, dimids)
  else (none, dimids.set (ndims - 1 - ii) r.2)

/-- What `R_nc_def_var` leaves behind: the list returned to R and, when it
called `nc_def_var`, the name, the type and the dimension identifiers that it
passed. -/
structure DefVarResult where
  ret : RetList
  passed : Option (List Nat × Int × List Int)
  deriving DecidableEq

/-- Source: `R_nc_def_var (SEXP nc, SEXP varname, SEXP type, SEXP dims)`.
`junk` is the content of the integer that `ROBJDEF (INTSXP, 1)` allocates
without initialising it; the array `dimids` is taken to hold 0 before it is
filled. -/
def R_nc_def_var (H : Host) (L : NcLib) (T : NcTypeLib) (D : NcDefLib) (junk : RInt)
    (nc varname type dims : SEXP) : DefVarResult :=
  let retlist := { RetList.empty with data := .int [junk] }
  let ncid := H.asInteger nc
  let varnamep := cstr ((STRINGS varname).getD 0 [])
  let t := R_nc_str2type T ncid ((STRINGS type).getD 0 [])
  match RNCCHECK L retlist t.1 with
  | some out => ⟨out, none⟩
  | none =>
    let xtype := t.2.1
    let ndims := xlength dims
    if ndims > NC_MAX_VAR_DIMS then
      ⟨RNCRETURN L retlist NC_EMAXDIMS, none⟩
    else
      match forLoopRet (defVarDimBody H D dims ncid ndims) (List.range ndims)
          (List.replicate NC_MAX_VAR_DIMS 0) with
      | (some status, _) => ⟨(RNCCHECK L retlist status).getD retlist, none⟩
      | (none, dimids) =>
        match RNCCHECK L retlist (R_nc_redef D ncid) with
        | some out => ⟨out, none⟩
        | none =>
          let r := D.nc_def_var ncid varnamep xtype (dimids.take ndims)
          match RNCCHECK L retlist r.1 with
          | some out => ⟨out, some (varnamep, xtype, dimids.take ndims)⟩
          | none =>
            ⟨RNCRETURN L { retlist with data := .int [r.2] } NC_NOERR,
              some (varnamep, xtype, dimids.take ndims)⟩

/-- The elements of the list that `R_nc_inq_var` returns as its data: the
variable identifier, the name, the type label, the rank, the dimension
identifiers in R order and the number of attributes. -/
structure VarInfo where
  varid : Int
  name : List Nat
  vartype : List Nat
  ndims : Nat
  dimids : List Int
  natts : Int
  deriving DecidableEq

/-- What `R_nc_inq_var` leaves behind: the list returned to R, whose data
element (a list of six elements) is given apart as `info` once it is filled. -/
structure InqVarResult where
  ret : RetList
  info : Option VarInfo
  deriving DecidableEq

/-- Source: `R_nc_inq_var (SEXP nc, SEXP var)`. -/
def R_nc_inq_var (H : Host) (L : NcLib) (T : NcTypeLib) (D : NcDefLib) (nc var : SEXP) :
    InqVarResult :=
  let retlist := RetList.empty
  let ncid := H.asInteger nc
  let v := R_nc_var_id H L var ncid
  match RNCCHECK L retlist v.1 with
  | some out => ⟨out, none⟩
  | none =>
    let varid := v.2.1
    let q := L.nc_inq_var ncid varid
    match RNCCHECK L retlist q.1 with
    | some out => ⟨out, none⟩
    | none =>
      let rest := D.nc_inq_var_info ncid varid
      let cdimids := q.2
      let ndims := q.2.length
      let vartype := (R_nc_type2str T ncid rest.2.1).1
      let rdimids :=
        if ndims > 0 then
          forLoop 0 ndims (fun ii r => r.set ii (cdimids.getD (ndims - 1 - ii) 0))
            (List.replicate ndims 0)
        else [NA_INTEGER]
      ⟨RNCRETURN L retlist NC_NOERR,
        some ⟨varid, cstr rest.1, vartype, ndims, rdimids, rest.2.2.val⟩⟩

/-- The dimension identifiers held in a numeric vector: the elements of an
integer vector, or those of a real vector when each is a whole number that a
C `int` can hold. -/
def dimensionIds : SEXP → Option (List Int)
  | .int xs => some (xs.map RInt.val)
  | .real xs =>
    if xs.all (fun x => match x.toInt? with
        | some v => decide (-2147483648 ≤ v ∧ v < 2147483648)
        | none => false) then
      some (xs.map RDouble.trunc)
    else none
  | _ => none

/-- A library without user-defined types. -/
def plainTypes : NcTypeLib := ⟨fun _ _ => (NC_EBADTYPE, []), fun _ _ => (NC_EBADTYPE, 0)⟩

/-- A library in which entering define mode and defining a variable succeed,
the new variable getting the identifier 0. -/
def plainDefLib : NcDefLib where
  nc_inq_dimid := fun _ _ => (NC_NOERR, 0)
  nc_redef := fun _ => NC_NOERR
  nc_def_var := fun _ _ _ _ => (NC_NOERR, RInt.ofNat 0 (by decide))
  nc_inq_var_info := fun _ _ => (ascii "v", NC_INT, RInt.ofNat 0 (by decide))

/-- A dataset whose variable 0 has the dimensions 2, 1 and 0, in storage
order; every call succeeds. -/
def orderLib : NcLib where
  nc_inq_var := fun _ _ => (NC_NOERR, [2, 1, 0])
  nc_inq_dimlen := fun _ _ => (NC_NOERR, 4)
  dimlen_lt := fun _ _ => Nat.lt_of_lt_of_le (by decide : 4 < 5) (by decide : 5 ≤ SIZE_MOD)
  nc_inq_varid := fun _ _ => (NC_NOERR, 0)
  nc_inq_vartype := fun _ _ => (NC_NOERR, NC_INT)
  nc_enddef := fun _ => NC_NOERR
  nc_get_vara_text := fun _ _ _ _ => (NC_NOERR, [])
  nc_get_vara_string := fun _ _ _ _ => (NC_NOERR, [])
  nc_get_vara_double := fun _ _ _ _ => (NC_NOERR, [])
  nc_free_string := fun _ _ => NC_NOERR
  nc_put_vara_double := fun _ _ _ _ _ => NC_NOERR
  nc_put_vara_text := fun _ _ _ _ _ => NC_NOERR
  nc_strerror := fun _ => "error"

/-! ## Lemmas on loops and on `R_nc_size_r2c` -/

theorem forLoop_nil {σ : Type} (lo hi : Nat) (h : hi ≤ lo) (body : Nat → σ → σ) (s : σ) :
    forLoop lo hi body s = s := by
  simp [forLoop, Nat.sub_eq_zero_of_le h]

theorem forLoop_succ {σ : Type} (lo hi : Nat) (h : lo ≤ hi) (body : Nat → σ → σ) (s : σ) :
    forLoop lo (hi + 1) body s = body hi (forLoop lo hi body s) := by
  unfold forLoop
  have : hi + 1 - lo = (hi - lo) + 1 := by omega
  rw [this, List.range_succ, List.map_append, List.foldl_append]
  simp
  congr 1
  omega

theorem getD_set_eq (cv : List Nat) (p v j d : Nat) :
    (cv.set p v).getD j d = if j = p ∧ p < cv.length then v else cv.getD j d := by
  simp only [List.getD_eq_getElem?_getD, List.getElem?_set]
  by_cases h : p = j
  · subst h
    by_cases h2 : p < cv.length
    · simp [h2]
    · simp [h2, List.getElem?_eq_none (Nat.le_of_not_lt h2)]
  · have : ¬ j = p := fun e => h e.symm
    simp [h, this]

/-- A loop that stores `g ii` at index `f ii`, with `f` injective on the
range: the array afterwards. -/
theorem forLoop_set_spec (lo : Nat) (f g : Nat → Nat) (cv : List Nat) (d : Nat) (hi : Nat)
    (h : lo ≤ hi)
    (hf : ∀ a b, lo ≤ a → a < hi → lo ≤ b → b < hi → f a = f b → a = b)
    (hlen : ∀ a, lo ≤ a → a < hi → f a < cv.length) :
    (forLoop lo hi (fun ii c => c.set (f ii) (g ii)) cv).length = cv.length ∧
    (∀ a, lo ≤ a → a < hi →
      (forLoop lo hi (fun ii c => c.set (f ii) (g ii)) cv).getD (f a) d = g a) ∧
    (∀ j, (∀ a, lo ≤ a → a < hi → f a ≠ j) →
      (forLoop lo hi (fun ii c => c.set (f ii) (g ii)) cv).getD j d = cv.getD j d) := by
  induction hi, h using Nat.le_induction with
  | base =>
    rw [forLoop_nil _ _ (le_refl _)]
    exact ⟨rfl, fun a h1 h2 => absurd h1 (by omega), fun _ _ => rfl⟩
  | succ n hn ih =>
    obtain ⟨ih1, ih2, ih3⟩ := ih
      (fun a b ha1 ha2 hb1 hb2 => hf a b ha1 (by omega) hb1 (by omega))
      (fun a ha1 ha2 => hlen a ha1 (by omega))
    rw [forLoop_succ _ _ hn]
    refine ⟨by simp [ih1], ?_, ?_⟩
    · intro a ha1 ha2
      rw [getD_set_eq, ih1]
      by_cases e : a = n
      · subst e
        simp [hlen a ha1 (by omega)]
      · have hne : f a ≠ f n := fun hh => e (hf a n ha1 (by omega) hn (by omega) hh)
        simp only [hne, false_and, if_false]
        exact ih2 a ha1 (by omega)
    · intro j hj
      rw [getD_set_eq]
      have hne : j ≠ f n := fun hh => hj n hn (by omega) hh.symm
      simp only [hne, false_and, if_false]
      exact ih3 j (fun a ha1 ha2 => hj a ha1 (by omega))

/-- The two loops of `R_nc_size_r2c` one after the other: copy `g ii` for
`ii < nr`, then fill. -/
theorem r2c_loops_spec (nc nr : Nat) (hnr : nr ≤ nc) (g : Nat → Nat) (fillval : Nat)
    (cv : List Nat) (hlen : nc ≤ cv.length) (d : Nat) :
    (forLoop nr nc (fun ii c => c.set (nc - 1 - ii) fillval)
      (forLoop 0 nr (fun ii c => c.set (nc - 1 - ii) (g ii)) cv)).length = cv.length ∧
    (∀ j, j < nc →
      (forLoop nr nc (fun ii c => c.set (nc - 1 - ii) fillval)
        (forLoop 0 nr (fun ii c => c.set (nc - 1 - ii) (g ii)) cv)).getD j d
        = if nc - 1 - j < nr then g (nc - 1 - j) else fillval) ∧
    (∀ j, nc ≤ j →
      (forLoop nr nc (fun ii c => c.set (nc - 1 - ii) fillval)
        (forLoop 0 nr (fun ii c => c.set (nc - 1 - ii) (g ii)) cv)).getD j d = cv.getD j d) := by
  obtain ⟨a1, a2, a3⟩ := forLoop_set_spec 0 (fun ii => nc - 1 - ii) g cv d nr (Nat.zero_le _)
    (fun a b _ ha _ hb e => by dsimp only at e; omega) (fun a _ ha => by dsimp only; omega)
  obtain ⟨b1, b2, b3⟩ := forLoop_set_spec nr (fun ii => nc - 1 - ii) (fun _ => fillval)
    (forLoop 0 nr (fun ii c => c.set (nc - 1 - ii) (g ii)) cv) d nc hnr
    (fun a b _ ha _ hb e => by dsimp only at e; omega)
    (fun a _ ha => by dsimp only; rw [a1]; omega)
  refine ⟨by rw [b1, a1], ?_, ?_⟩
  · intro j hj
    by_cases hk : nc - 1 - j < nr
    · rw [if_pos hk, b3 j (fun a ha1 ha2 => by omega)]
      have := a2 (nc - 1 - j) (Nat.zero_le _) hk
      have e : nc - 1 - (nc - 1 - j) = j := by omega
      rw [e] at this
      exact this
    · rw [if_neg hk]
      have := b2 (nc - 1 - j) (by omega) (by omega)
      have e : nc - 1 - (nc - 1 - j) = j := by omega
      rw [e] at this
      exact this
  · intro j hj
    rw [b3 j (fun a ha1 ha2 => by omega), a3 j (fun a ha1 ha2 => by omega)]

theorem forLoop_congr {σ : Type} (lo hi : Nat) (b1 b2 : Nat → σ → σ)
    (h : ∀ ii s, lo ≤ ii → ii < hi → b1 ii s = b2 ii s) (s : σ) :
    forLoop lo hi b1 s = forLoop lo hi b2 s := by
  by_cases hle : lo ≤ hi
  · induction hi, hle using Nat.le_induction with
    | base => rw [forLoop_nil _ _ (le_refl _), forLoop_nil _ _ (le_refl _)]
    | succ n hn ih =>
      rw [forLoop_succ _ _ hn, forLoop_succ _ _ hn,
        ih (fun ii s h1 h2 => h ii s h1 (by omega)), h n _ hn (by omega)]
  · rw [forLoop_nil _ _ (by omega), forLoop_nil _ _ (by omega)]

/-- The unfolding of `R_nc_size_r2c` into its two loops, with the stored value
of the copying loop written as `userEntry`. -/
theorem R_nc_size_r2c_eq (H : Host) (rv : SEXP) (nc fillval : Nat) (cv : List Nat) :
    ∃ nr, nr ≤ nc ∧ (∀ k, k < nc → ¬ k < nr → userEntry H rv fillval k = fillval) ∧
      R_nc_size_r2c H rv nc fillval cv =
        forLoop nr nc (fun ii c => c.set (nc - 1 - ii) fillval)
          (forLoop 0 nr (fun ii c => c.set (nc - 1 - ii) (userEntry H rv fillval ii)) cv) := by
  cases rv with
  | real xs =>
    refine ⟨if xs.length < nc then xs.length else nc, by split <;> omega, ?_, ?_⟩
    · intro k hk hk2
      have : ¬ k < xs.length := by
        intro hh
        apply hk2
        split <;> omega
      simp [userEntry, isReal, xlength, this]
    · simp only [R_nc_size_r2c, isReal, xlength, REAL, if_true]
      congr 1
      apply forLoop_congr
      intro ii s _ h2
      have : ii < xs.length := by
        split at h2 <;> omega
      simp only [userEntry, isReal, xlength, REAL, if_true, this]
      split <;> rfl
  | int xs =>
    refine ⟨if xs.length < nc then xs.length else nc, by split <;> omega, ?_, ?_⟩
    · intro k hk hk2
      have : ¬ k < xs.length := by
        intro hh
        apply hk2
        split <;> omega
      simp [userEntry, isReal, isInteger, xlength, this]
    · simp only [R_nc_size_r2c, isReal, isInteger, xlength, INTEGER, if_true]
      simp only [Bool.false_eq_true, if_false]
      congr 1
      apply forLoop_congr
      intro ii s _ h2
      have : ii < xs.length := by
        split at h2 <;> omega
      simp only [userEntry, isReal, isInteger, xlength, INTEGER, if_true, this,
        Bool.false_eq_true, if_false]
      split <;> rfl
  | null =>
    refine ⟨0, Nat.zero_le _, fun k _ _ => by simp [userEntry, isReal, isInteger], ?_⟩
    simp [R_nc_size_r2c, isReal, isInteger, forLoop_nil]
  | lgl xs =>
    refine ⟨0, Nat.zero_le _, fun k _ _ => by simp [userEntry, isReal, isInteger], ?_⟩
    simp [R_nc_size_r2c, isReal, isInteger, forLoop_nil]
  | str xs =>
    refine ⟨0, Nat.zero_le _, fun k _ _ => by simp [userEntry, isReal, isInteger], ?_⟩
    simp [R_nc_size_r2c, isReal, isInteger, forLoop_nil]
  | raw xs =>
    refine ⟨0, Nat.zero_le _, fun k _ _ => by simp [userEntry, isReal, isInteger], ?_⟩
    simp [R_nc_size_r2c, isReal, isInteger, forLoop_nil]

/-- Entry `j` of the array written by `R_nc_size_r2c` is the converted user
entry at position `nc - 1 - j`; the array keeps its length and its entries
from `nc` on. -/
theorem R_nc_size_r2c_spec (H : Host) (rv : SEXP) (nc fillval : Nat) (cv : List Nat)
    (hlen : nc ≤ cv.length) (d : Nat) :
    (R_nc_size_r2c H rv nc fillval cv).length = cv.length ∧
    (∀ j, j < nc →
      (R_nc_size_r2c H rv nc fillval cv).getD j d = userEntry H rv fillval (nc - 1 - j)) ∧
    (∀ j, nc ≤ j → (R_nc_size_r2c H rv nc fillval cv).getD j d = cv.getD j d) := by
  obtain ⟨nr, hnr, hfill, heq⟩ := R_nc_size_r2c_eq H rv nc fillval cv
  obtain ⟨s1, s2, s3⟩ := r2c_loops_spec nc nr hnr (userEntry H rv fillval) fillval cv hlen d
  rw [heq]
  refine ⟨s1, ?_, s3⟩
  intro j hj
  rw [s2 j hj]
  split
  · rfl
  · rename_i hk
    exact (hfill (nc - 1 - j) (by omega) hk).symm

theorem entryMissing_userEntry (H : Host) (rv : SEXP) (fillval k : Nat)
    (h : entryMissing rv k = true) : userEntry H rv fillval k = fillval := by
  cases rv with
  | int xs =>
    simp only [entryMissing, Bool.or_eq_true, decide_eq_true_eq] at h
    simp only [userEntry, isReal, isInteger, xlength, INTEGER, Bool.false_eq_true, if_false,
      if_true]
    rcases h with h | h
    · simp [Nat.not_lt.mpr h]
    · simp only [h, if_true, ite_self]
  | real xs =>
    simp only [entryMissing, Bool.or_eq_true, decide_eq_true_eq, Bool.not_eq_true'] at h
    simp only [userEntry, isReal, xlength, REAL, if_true]
    rcases h with h | h
    · simp [Nat.not_lt.mpr h]
    · simp only [h, Bool.false_eq_true, if_false, ite_self]
  | null => simp [userEntry, isReal, isInteger]
  | lgl xs => simp [userEntry, isReal, isInteger]
  | str xs => simp [userEntry, isReal, isInteger]
  | raw xs => simp [userEntry, isReal, isInteger]

theorem RDouble.trunc_of_toInt? (x : RDouble) (v : Int) (h : x.toInt? = some v) :
    x.trunc = v ∧ R_FINITE x = true := by
  cases x with
  | nonfinite => simp [RDouble.toInt?] at h
  | finite m e hm =>
    simp only [RDouble.toInt?] at h
    simp only [RDouble.trunc, R_FINITE, and_true]
    by_cases he : 0 ≤ e
    · simp only [he, if_true, Option.some.injEq] at h ⊢
      exact h
    · simp only [he, if_false] at h ⊢
      split at h
      · rename_i hd
        simp only [Option.some.injEq] at h
        rw [Int.tdiv_eq_ediv_of_dvd (Int.dvd_of_emod_eq_zero hd)]
        exact h
      · simp at h

/-- A whole double in the range of `size_t` is never `2 ^ 64 - 1`: it has only
53 significant bits. -/
theorem RDouble.toInt?_ne_NA (x : RDouble) (v : Int) (h : x.toInt? = some v)
    (h0 : 0 ≤ v) : v.toNat ≠ NA_SIZE := by
  cases x with
  | nonfinite => simp [RDouble.toInt?] at h
  | finite m e hm =>
    simp only [RDouble.toInt?] at h
    have hm2 : m < 9007199254740992 := by omega
    by_cases he : 0 ≤ e
    · simp only [he, if_true, Option.some.injEq] at h
      obtain ⟨k, hk⟩ : ∃ k : Nat, e.toNat = k := ⟨_, rfl⟩
      rw [hk] at h
      cases k with
      | zero =>
        simp at h
        simp only [NA_SIZE, SIZE_MOD]
        omega
      | succ k =>
        rw [pow_succ] at h
        simp only [NA_SIZE, SIZE_MOD]
        have : v = 2 * (m * 2 ^ k) := by rw [← h]; ring
        omega
    · simp only [he, if_false] at h
      split at h
      · rename_i hd
        simp only [Option.some.injEq] at h
        have hpos : (0 : Int) < 2 ^ (-e).toNat := by positivity
        have hle : v ≤ m := by
          rw [← h]
          by_cases hm0 : 0 ≤ m
          · exact Int.ediv_le_self _ hm0
          · have : m / 2 ^ (-e).toNat < 0 := Int.ediv_neg' (by omega) hpos
            omega
        simp only [NA_SIZE, SIZE_MOD]
        omega
      · simp at h

theorem entryValue_userEntry (H : Host) (rv : SEXP) (fillval k : Nat) (v : Int)
    (h : entryValue rv k = some v) (h0 : 0 ≤ v) (h1 : v < (SIZE_MOD : Int)) :
    userEntry H rv fillval k = v.toNat := by
  cases rv with
  | int xs =>
    simp only [entryValue] at h
    split at h
    · rename_i hc
      simp only [Option.some.injEq] at h
      have hne : v ≠ NA_INTEGER := h ▸ hc.2
      simp only [userEntry, isReal, isInteger, xlength, INTEGER, Bool.false_eq_true, if_false,
        if_true, hc.1, h, hne, int2size]
      rw [Int.emod_eq_of_lt h0 h1]
    · simp at h
  | real xs =>
    simp only [entryValue] at h
    split at h
    · rename_i hc
      obtain ⟨ht, hf⟩ := RDouble.trunc_of_toInt? _ _ h
      simp only [userEntry, isReal, xlength, REAL, if_true, hc, hf, dbl2size, ht, h0, h1,
        and_self]
    · simp at h
  | null => simp [entryValue] at h
  | lgl xs => simp [entryValue] at h
  | str xs => simp [entryValue] at h
  | raw xs => simp [entryValue] at h

theorem entryValue_ne_NA (rv : SEXP) (k : Nat) (v : Int)
    (h : entryValue rv k = some v) (h0 : 0 ≤ v) : v.toNat ≠ NA_SIZE := by
  cases rv with
  | int xs =>
    simp only [entryValue] at h
    split at h
    · rename_i hc
      simp only [Option.some.injEq] at h
      have hk : k < (xs.map RInt.val).length := by simpa using hc.1
      rw [List.getD_eq_getElem _ _ hk, List.getElem_map] at h
      have hk2 : k < xs.length := hc.1
      have := (xs[k]).hi
      rw [h] at this
      simp only [NA_SIZE, SIZE_MOD]
      omega
    · simp at h
  | real xs =>
    simp only [entryValue] at h
    split at h
    · exact RDouble.toInt?_ne_NA _ _ h h0
    · simp at h
  | null => simp [entryValue] at h
  | lgl xs => simp [entryValue] at h
  | str xs => simp [entryValue] at h
  | raw xs => simp [entryValue] at h

/-! ## Lemmas on `R_nc_slice` -/

/-- The loop `cstart[ii] -= 1` over the first `n` entries. -/
theorem decrement_loop_spec (cs : List Nat) (n : Nat) (hlen : n ≤ cs.length) :
    (forLoop 0 n (fun ii c => c.set ii ((c.getD ii 0 + SIZE_MOD - 1) % SIZE_MOD)) cs).length
      = cs.length ∧
    (∀ j d, j < n →
      (forLoop 0 n (fun ii c => c.set ii ((c.getD ii 0 + SIZE_MOD - 1) % SIZE_MOD)) cs).getD j d
        = (cs.getD j 0 + SIZE_MOD - 1) % SIZE_MOD) ∧
    (∀ j d, n ≤ j →
      (forLoop 0 n (fun ii c => c.set ii ((c.getD ii 0 + SIZE_MOD - 1) % SIZE_MOD)) cs).getD j d
        = cs.getD j d) := by
  induction n with
  | zero =>
    rw [forLoop_nil _ _ (le_refl _)]
    exact ⟨rfl, fun j _ hj => absurd hj (by omega), fun _ _ _ => rfl⟩
  | succ n ih =>
    obtain ⟨i1, i2, i3⟩ := ih (by omega)
    rw [forLoop_succ _ _ (Nat.zero_le _)]
    refine ⟨by rw [List.length_set]; exact i1, ?_, ?_⟩
    · intro j d hj
      rw [getD_set_eq, i1]
      by_cases e : j = n
      · subst e
        have hl : j < cs.length := by omega
        simp only [hl, and_self, if_true]
        rw [i3 j 0 (le_refl _)]
      · simp only [e, false_and, if_false]
        exact i2 j d (by omega)
    · intro j d hj
      rw [getD_set_eq]
      have : j ≠ n := by omega
      simp only [this, false_and, if_false]
      exact i3 j d (by omega)

theorem forLoopRet_cons_none {σ : Type} (body : Nat → σ → Option Int × σ) (a : Nat)
    (rest : List Nat) (s s2 : σ) (h : body a s = (none, s2)) :
    forLoopRet body (a :: rest) s = forLoopRet body rest s2 := by
  simp only [forLoopRet, h]

theorem forLoopRet_cons_some {σ : Type} (body : Nat → σ → Option Int × σ) (a : Nat)
    (rest : List Nat) (s s2 : σ) (st : Int) (h : body a s = (some st, s2)) :
    forLoopRet body (a :: rest) s = (some st, s2) := by
  simp only [forLoopRet, h]

/-- The last loop of `R_nc_slice`, run over distinct indices `is`: what it
returns, what it leaves in `ccount`, and which calls it logs. -/
theorem sliceCount_loop_spec (L : NcMeta) (ncid : Int) (dimids : List Int) (cstart : List Nat)
    (is : List Nat) (hnd : is.Nodup) (calls : List NcCall) (cc : List Nat)
    (his : ∀ i ∈ is, i < cc.length) :
    (forLoopRet (sliceCountBody L ncid dimids cstart) is (calls, cc)).2.2.length = cc.length ∧
    (∀ j d, (j ∉ is ∨ cc.getD j 0 ≠ NA_SIZE) →
      (forLoopRet (sliceCountBody L ncid dimids cstart) is (calls, cc)).2.2.getD j d
        = cc.getD j d) ∧
    (∀ st, (forLoopRet (sliceCountBody L ncid dimids cstart) is (calls, cc)).1 = some st →
      st ≠ NC_NOERR ∧ ∃ j ∈ is, st = (L.nc_inq_dimlen ncid (dimids.getD j 0)).1) ∧
    ((forLoopRet (sliceCountBody L ncid dimids cstart) is (calls, cc)).1 = none →
      ∀ j d, j ∈ is → cc.getD j 0 = NA_SIZE →
        (L.nc_inq_dimlen ncid (dimids.getD j 0)).1 = NC_NOERR ∧
        (forLoopRet (sliceCountBody L ncid dimids cstart) is (calls, cc)).2.2.getD j d
          = ((L.nc_inq_dimlen ncid (dimids.getD j 0)).2 + SIZE_MOD - cstart.getD j 0)
              % SIZE_MOD) ∧
    (∀ c ∈ (forLoopRet (sliceCountBody L ncid dimids cstart) is (calls, cc)).2.1,
      c ∈ calls ∨ ∃ dimid, c = NcCall.inq_dimlen ncid dimid) := by
  induction is generalizing calls cc with
  | nil =>
    exact ⟨rfl, fun _ _ _ => rfl, fun st h => by simp [forLoopRet] at h,
      fun _ j d hj => by simp at hj, fun c hc => Or.inl hc⟩
  | cons a rest ih =>
    have hnd2 : rest.Nodup := (List.nodup_cons.mp hnd).2
    have ha : a ∉ rest := (List.nodup_cons.mp hnd).1
    have hal : a < cc.length := his a (List.mem_cons_self _ _)
    by_cases hna : cc.getD a 0 = NA_SIZE
    · by_cases hq : (L.nc_inq_dimlen ncid (dimids.getD a 0)).1 = NC_NOERR
      · -- the query succeeds and the loop goes on with the entry replaced
        have hbody : sliceCountBody L ncid dimids cstart a (calls, cc) =
            (none, (calls ++ [NcCall.inq_dimlen ncid (dimids.getD a 0)],
              cc.set a (((L.nc_inq_dimlen ncid (dimids.getD a 0)).2 + SIZE_MOD
                - cstart.getD a 0) % SIZE_MOD))) := by
          simp only [sliceCountBody, hna, hq, if_true, ne_eq, not_true_eq_false, if_false]
        rw [forLoopRet_cons_none _ _ _ _ _ hbody]
        obtain ⟨i1, i2, i3, i4, i5⟩ := ih hnd2
          (calls ++ [NcCall.inq_dimlen ncid (dimids.getD a 0)])
          (cc.set a (((L.nc_inq_dimlen ncid (dimids.getD a 0)).2 + SIZE_MOD
                - cstart.getD a 0) % SIZE_MOD))
          (fun i hi => by rw [List.length_set]; exact his i (List.mem_cons_of_mem _ hi))
        refine ⟨by rw [i1, List.length_set], ?_, fun st hst => ⟨(i3 st hst).1,
          (i3 st hst).2.imp (fun j hj => ⟨List.mem_cons_of_mem _ hj.1, hj.2⟩)⟩, ?_, ?_⟩
        · intro j d hj
          have hja : j ≠ a := by
            rcases hj with hj | hj
            · exact fun e => hj (e ▸ List.mem_cons_self _ _)
            · exact fun e => hj (e ▸ hna)
          have hset : ∀ d', (cc.set a (((L.nc_inq_dimlen ncid (dimids.getD a 0)).2 + SIZE_MOD
                - cstart.getD a 0) % SIZE_MOD)).getD j d' = cc.getD j d' := by
            intro d'
            rw [getD_set_eq]
            simp [hja]
          rw [i2 j d ?_, hset]
          rcases hj with hj | hj
          · exact Or.inl (fun hm => hj (List.mem_cons_of_mem _ hm))
          · exact Or.inr (by rw [hset]; exact hj)
        · intro hnone j d hj hjna
          rcases List.mem_cons.mp hj with e | hjr
          · subst e
            refine ⟨hq, ?_⟩
            rw [i2 j d (Or.inl ha), getD_set_eq]
            simp [hal]
          · have hja : j ≠ a := fun e => ha (e ▸ hjr)
            have hset : ∀ d', (cc.set a (((L.nc_inq_dimlen ncid (dimids.getD a 0)).2 + SIZE_MOD
                  - cstart.getD a 0) % SIZE_MOD)).getD j d' = cc.getD j d' := by
              intro d'
              rw [getD_set_eq]
              simp [hja]
            exact i4 hnone j d hjr (by rw [hset]; exact hjna)
        · intro c hc
          rcases i5 c hc with h | h
          · rcases List.mem_append.mp h with h | h
            · exact Or.inl h
            · exact Or.inr ⟨_, List.mem_singleton.mp h⟩
          · exact Or.inr h
      · -- the query fails and the function returns its status
        have hbody : sliceCountBody L ncid dimids cstart a (calls, cc) =
            (some (L.nc_inq_dimlen ncid (dimids.getD a 0)).1,
              (calls ++ [NcCall.inq_dimlen ncid (dimids.getD a 0)], cc)) := by
          simp only [sliceCountBody, hna, hq, if_true, ne_eq, not_false_eq_true]
        rw [forLoopRet_cons_some _ _ _ _ _ _ hbody]
        refine ⟨rfl, fun _ _ _ => rfl, ?_, fun h => by simp at h, ?_⟩
        · intro st hst
          simp only [Option.some.injEq] at hst
          exact ⟨hst ▸ hq, a, List.mem_cons_self _ _, hst.symm⟩
        · intro c hc
          rcases List.mem_append.mp hc with h | h
          · exact Or.inl h
          · exact Or.inr ⟨_, List.mem_singleton.mp h⟩
    · -- the entry is given: nothing happens
      have hbody : sliceCountBody L ncid dimids cstart a (calls, cc) = (none, (calls, cc)) := by
        simp only [sliceCountBody, hna, if_false]
      rw [forLoopRet_cons_none _ _ _ _ _ hbody]
      obtain ⟨i1, i2, i3, i4, i5⟩ := ih hnd2 calls cc
        (fun i hi => his i (List.mem_cons_of_mem _ hi))
      refine ⟨i1, ?_, fun st hst => ⟨(i3 st hst).1,
        (i3 st hst).2.imp (fun j hj => ⟨List.mem_cons_of_mem _ hj.1, hj.2⟩)⟩, ?_, i5⟩
      · intro j d hj
        apply i2
        rcases hj with hj | hj
        · exact Or.inl (fun hm => hj (List.mem_cons_of_mem _ hm))
        · exact Or.inr hj
      · intro hnone j d hj hjna
        rcases List.mem_cons.mp hj with e | hjr
        · exact absurd (e ▸ hjna) hna
        · exact i4 hnone j d hjr hjna

/-- When the variable query succeeds, `R_nc_slice` is its three loops. -/
theorem R_nc_slice_ok_eq (H : Host) (L : NcMeta) (start count : SEXP) (ncid varid : Int)
    (cs0 cc0 : List Nat) (hq : (L.nc_inq_var ncid varid).1 = NC_NOERR) :
    R_nc_slice H L start count ncid varid cs0 cc0 =
      ⟨((forLoopRet (sliceCountBody L ncid (L.nc_inq_var ncid varid).2
            (forLoop 0 (L.nc_inq_var ncid varid).2.length
              (fun ii cs => cs.set ii ((cs.getD ii 0 + SIZE_MOD - 1) % SIZE_MOD))
              (R_nc_size_r2c H start (L.nc_inq_var ncid varid).2.length 1 cs0)))
          (List.range (L.nc_inq_var ncid varid).2.length)
          ([NcCall.inq_var ncid varid],
            R_nc_size_r2c H count (L.nc_inq_var ncid varid).2.length NA_SIZE cc0)).1).getD
          NC_NOERR,
        (forLoopRet (sliceCountBody L ncid (L.nc_inq_var ncid varid).2
            (forLoop 0 (L.nc_inq_var ncid varid).2.length
              (fun ii cs => cs.set ii ((cs.getD ii 0 + SIZE_MOD - 1) % SIZE_MOD))
              (R_nc_size_r2c H start (L.nc_inq_var ncid varid).2.length 1 cs0)))
          (List.range (L.nc_inq_var ncid varid).2.length)
          ([NcCall.inq_var ncid varid],
            R_nc_size_r2c H count (L.nc_inq_var ncid varid).2.length NA_SIZE cc0)).2.1,
        (L.nc_inq_var ncid varid).2.length,
        forLoop 0 (L.nc_inq_var ncid varid).2.length
              (fun ii cs => cs.set ii ((cs.getD ii 0 + SIZE_MOD - 1) % SIZE_MOD))
              (R_nc_size_r2c H start (L.nc_inq_var ncid varid).2.length 1 cs0),
        (forLoopRet (sliceCountBody L ncid (L.nc_inq_var ncid varid).2
            (forLoop 0 (L.nc_inq_var ncid varid).2.length
              (fun ii cs => cs.set ii ((cs.getD ii 0 + SIZE_MOD - 1) % SIZE_MOD))
              (R_nc_size_r2c H start (L.nc_inq_var ncid varid).2.length 1 cs0)))
          (List.range (L.nc_inq_var ncid varid).2.length)
          ([NcCall.inq_var ncid varid],
            R_nc_size_r2c H count (L.nc_inq_var ncid varid).2.length NA_SIZE cc0)).2.2⟩ := by
  simp only [R_nc_slice, hq, ne_eq, not_true_eq_false, if_false]
  split <;> rename_i h <;> rw [h] <;> rfl

/-- What `R_nc_slice` leaves behind when the variable query succeeds and the
arrays are long enough for the rank. -/
theorem R_nc_slice_spec (H : Host) (L : NcMeta) (start count : SEXP) (ncid varid : Int)
    (cs0 cc0 : List Nat) (hq : (L.nc_inq_var ncid varid).1 = NC_NOERR)
    (h1 : (L.nc_inq_var ncid varid).2.length ≤ cs0.length)
    (h2 : (L.nc_inq_var ncid varid).2.length ≤ cc0.length) :
    (R_nc_slice H L start count ncid varid cs0 cc0).ndims = (L.nc_inq_var ncid varid).2.length ∧
    (R_nc_slice H L start count ncid varid cs0 cc0).cstart.length = cs0.length ∧
    (R_nc_slice H L start count ncid varid cs0 cc0).ccount.length = cc0.length ∧
    (∀ i d, i < (L.nc_inq_var ncid varid).2.length →
      (R_nc_slice H L start count ncid varid cs0 cc0).cstart.getD i d =
        (userEntry H start 1 ((L.nc_inq_var ncid varid).2.length - 1 - i) + SIZE_MOD - 1)
          % SIZE_MOD) ∧
    (∀ i d, (L.nc_inq_var ncid varid).2.length ≤ i →
      (R_nc_slice H L start count ncid varid cs0 cc0).cstart.getD i d = cs0.getD i d) ∧
    (∀ i d, (L.nc_inq_var ncid varid).2.length ≤ i →
      (R_nc_slice H L start count ncid varid cs0 cc0).ccount.getD i d = cc0.getD i d) ∧
    (∀ i d, i < (L.nc_inq_var ncid varid).2.length →
      userEntry H count NA_SIZE ((L.nc_inq_var ncid varid).2.length - 1 - i) ≠ NA_SIZE →
      (R_nc_slice H L start count ncid varid cs0 cc0).ccount.getD i d =
        userEntry H count NA_SIZE ((L.nc_inq_var ncid varid).2.length - 1 - i)) ∧
    ((R_nc_slice H L start count ncid varid cs0 cc0).status = NC_NOERR →
      ∀ i d, i < (L.nc_inq_var ncid varid).2.length →
      userEntry H count NA_SIZE ((L.nc_inq_var ncid varid).2.length - 1 - i) = NA_SIZE →
      (L.nc_inq_dimlen ncid ((L.nc_inq_var ncid varid).2.getD i 0)).1 = NC_NOERR ∧
      (R_nc_slice H L start count ncid varid cs0 cc0).ccount.getD i d =
        (dimensionLength L ncid varid i + SIZE_MOD
          - (R_nc_slice H L start count ncid varid cs0 cc0).cstart.getD i 0) % SIZE_MOD) ∧
    (∀ c ∈ (R_nc_slice H L start count ncid varid cs0 cc0).calls,
      c = NcCall.inq_var ncid varid ∨ ∃ dimid, c = NcCall.inq_dimlen ncid dimid) ∧
    ((R_nc_slice H L start count ncid varid cs0 cc0).status ≠ NC_NOERR →
      ∃ j, j < (L.nc_inq_var ncid varid).2.length ∧
        (R_nc_slice H L start count ncid varid cs0 cc0).status =
          (L.nc_inq_dimlen ncid ((L.nc_inq_var ncid varid).2.getD j 0)).1) := by
  rw [R_nc_slice_ok_eq H L start count ncid varid cs0 cc0 hq]
  obtain ⟨a1, a2, a3⟩ := R_nc_size_r2c_spec H start (L.nc_inq_var ncid varid).2.length 1 cs0 h1 0
  obtain ⟨b1, b2, b3⟩ := decrement_loop_spec
    (R_nc_size_r2c H start (L.nc_inq_var ncid varid).2.length 1 cs0)
    (L.nc_inq_var ncid varid).2.length (by rw [a1]; exact h1)
  obtain ⟨c1, _, _⟩ :=
    R_nc_size_r2c_spec H count (L.nc_inq_var ncid varid).2.length NA_SIZE cc0 h2 0
  obtain ⟨e1, e2, e3, e4, e5⟩ := sliceCount_loop_spec L ncid (L.nc_inq_var ncid varid).2
    (forLoop 0 (L.nc_inq_var ncid varid).2.length
      (fun ii cs => cs.set ii ((cs.getD ii 0 + SIZE_MOD - 1) % SIZE_MOD))
      (R_nc_size_r2c H start (L.nc_inq_var ncid varid).2.length 1 cs0))
    (List.range (L.nc_inq_var ncid varid).2.length) (List.nodup_range _)
    [NcCall.inq_var ncid varid]
    (R_nc_size_r2c H count (L.nc_inq_var ncid varid).2.length NA_SIZE cc0)
    (fun i hi => by rw [c1]; exact Nat.lt_of_lt_of_le (List.mem_range.mp hi) h2)
  have cget : ∀ j, j < (L.nc_inq_var ncid varid).2.length →
      (R_nc_size_r2c H count (L.nc_inq_var ncid varid).2.length NA_SIZE cc0).getD j 0
        = userEntry H count NA_SIZE ((L.nc_inq_var ncid varid).2.length - 1 - j) := fun j hj =>
    (R_nc_size_r2c_spec H count (L.nc_inq_var ncid varid).2.length NA_SIZE cc0 h2 0).2.1 j hj
  refine ⟨rfl, ?_, ?_, ?_, ?_, ?_, ?_, ?_, ?_, ?_⟩
  · dsimp only
    rw [b1, a1]
  · dsimp only
    rw [e1, c1]
  · intro i d hi
    dsimp only
    rw [b2 i d hi, a2 i hi]
  · intro i d hi
    dsimp only
    rw [b3 i d hi]
    exact (R_nc_size_r2c_spec H start (L.nc_inq_var ncid varid).2.length 1 cs0 h1 d).2.2 i hi
  · intro i d hi
    dsimp only
    rw [e2 i d (Or.inl (fun hm => absurd (List.mem_range.mp hm) (by omega)))]
    exact (R_nc_size_r2c_spec H count (L.nc_inq_var ncid varid).2.length NA_SIZE cc0 h2 d).2.2 i hi
  · intro i d hi hne
    dsimp only
    rw [e2 i d (Or.inr (by rw [cget i hi]; exact hne))]
    exact (R_nc_size_r2c_spec H count (L.nc_inq_var ncid varid).2.length NA_SIZE cc0 h2 d).2.1 i hi
  · intro hst i d hi hna
    have hnone : (forLoopRet (sliceCountBody L ncid (L.nc_inq_var ncid varid).2
            (forLoop 0 (L.nc_inq_var ncid varid).2.length
              (fun ii cs => cs.set ii ((cs.getD ii 0 + SIZE_MOD - 1) % SIZE_MOD))
              (R_nc_size_r2c H start (L.nc_inq_var ncid varid).2.length 1 cs0)))
          (List.range (L.nc_inq_var ncid varid).2.length)
          ([NcCall.inq_var ncid varid],
            R_nc_size_r2c H count (L.nc_inq_var ncid varid).2.length NA_SIZE cc0)).1 = none := by
      cases hr : (forLoopRet (sliceCountBody L ncid (L.nc_inq_var ncid varid).2
            (forLoop 0 (L.nc_inq_var ncid varid).2.length
              (fun ii cs => cs.set ii ((cs.getD ii 0 + SIZE_MOD - 1) % SIZE_MOD))
              (R_nc_size_r2c H start (L.nc_inq_var ncid varid).2.length 1 cs0)))
          (List.range (L.nc_inq_var ncid varid).2.length)
          ([NcCall.inq_var ncid varid],
            R_nc_size_r2c H count (L.nc_inq_var ncid varid).2.length NA_SIZE cc0)).1 with
      | none => rfl
      | some st =>
        exfalso
        apply (e3 st hr).1
        have hst2 := hst
        simp only [hr, Option.getD_some] at hst2
        exact hst2
    obtain ⟨f1, f2⟩ := e4 hnone i d (List.mem_range.mpr hi) (by rw [cget i hi]; exact hna)
    exact ⟨f1, f2⟩
  · intro c hc
    rcases e5 c hc with h | h
    · exact Or.inl (List.mem_singleton.mp h)
    · exact Or.inr h
  · intro hst
    dsimp only at hst ⊢
    cases hr : (forLoopRet (sliceCountBody L ncid (L.nc_inq_var ncid varid).2
            (forLoop 0 (L.nc_inq_var ncid varid).2.length
              (fun ii cs => cs.set ii ((cs.getD ii 0 + SIZE_MOD - 1) % SIZE_MOD))
              (R_nc_size_r2c H start (L.nc_inq_var ncid varid).2.length 1 cs0)))
          (List.range (L.nc_inq_var ncid varid).2.length)
          ([NcCall.inq_var ncid varid],
            R_nc_size_r2c H count (L.nc_inq_var ncid varid).2.length NA_SIZE cc0)).1 with
    | none =>
      rw [hr] at hst
      exact absurd rfl hst
    | some st =>
      obtain ⟨_, j, hj, hjs⟩ := e3 st hr
      exact ⟨j, List.mem_range.mp hj, by simpa using hjs⟩

/-- When the variable query fails, `R_nc_slice` returns its status at once. -/
theorem R_nc_slice_fail_eq (H : Host) (L : NcMeta) (start count : SEXP) (ncid varid : Int)
    (cs0 cc0 : List Nat) (hq : (L.nc_inq_var ncid varid).1 ≠ NC_NOERR) :
    R_nc_slice H L start count ncid varid cs0 cc0 =
      ⟨(L.nc_inq_var ncid varid).1, [NcCall.inq_var ncid varid],
        (L.nc_inq_var ncid varid).2.length, cs0, cc0⟩ := by
  simp only [R_nc_slice, hq, ne_eq, not_false_eq_true, if_true]

theorem R_nc_slice_ndims (H : Host) (L : NcMeta) (start count : SEXP) (ncid varid : Int)
    (cs0 cc0 : List Nat) :
    (R_nc_slice H L start count ncid varid cs0 cc0).ndims = (L.nc_inq_var ncid varid).2.length := by
  by_cases hq : (L.nc_inq_var ncid varid).1 = NC_NOERR
  · rw [R_nc_slice_ok_eq H L start count ncid varid cs0 cc0 hq]
  · rw [R_nc_slice_fail_eq H L start count ncid varid cs0 cc0 hq]

theorem R_nc_slice_query_ok (H : Host) (L : NcMeta) (start count : SEXP) (ncid varid : Int)
    (cs0 cc0 : List Nat)
    (hst : (R_nc_slice H L start count ncid varid cs0 cc0).status = NC_NOERR) :
    (L.nc_inq_var ncid varid).1 = NC_NOERR := by
  by_contra hq
  rw [R_nc_slice_fail_eq H L start count ncid varid cs0 cc0 hq] at hst
  exact hq hst

theorem userEntry_lt (H : Host) (rv : SEXP) (fillval k : Nat) (hf : fillval < SIZE_MOD) :
    userEntry H rv fillval k < SIZE_MOD := by
  have hd : ∀ x, dbl2size H x < SIZE_MOD := by
    intro x
    unfold dbl2size
    split
    · rename_i h
      have := h.2
      omega
    · exact Nat.mod_lt _ (by decide)
  have hi : ∀ v, int2size v < SIZE_MOD := by
    intro v
    unfold int2size
    have : v % (SIZE_MOD : Int) < (SIZE_MOD : Int) := Int.emod_lt_of_pos _ (by decide)
    have : 0 ≤ v % (SIZE_MOD : Int) := Int.emod_nonneg _ (by decide)
    omega
  unfold userEntry
  repeat' split
  all_goals first | exact hf | exact hd _ | exact hi _

theorem R_nc_slice_status_of_queries_ok (H : Host) (L : NcMeta) (start count : SEXP)
    (ncid varid : Int) (cs0 cc0 : List Nat) (hq : (L.nc_inq_var ncid varid).1 = NC_NOERR)
    (h1 : (L.nc_inq_var ncid varid).2.length ≤ cs0.length)
    (h2 : (L.nc_inq_var ncid varid).2.length ≤ cc0.length)
    (hall : ∀ j, j < (L.nc_inq_var ncid varid).2.length →
      (L.nc_inq_dimlen ncid ((L.nc_inq_var ncid varid).2.getD j 0)).1 = NC_NOERR) :
    (R_nc_slice H L start count ncid varid cs0 cc0).status = NC_NOERR := by
  by_contra hst
  obtain ⟨j, hj, hjs⟩ := (R_nc_slice_spec H L start count ncid varid cs0 cc0 hq h1 h2).2.2.2.2.2.2.2.2.2 hst
  exact hst (hjs.trans (hall j hj))

theorem R_nc_slice_cstart_lt (H : Host) (L : NcMeta) (start count : SEXP)
    (ncid varid : Int) (cs0 cc0 : List Nat) (hq : (L.nc_inq_var ncid varid).1 = NC_NOERR)
    (h1 : (L.nc_inq_var ncid varid).2.length ≤ cs0.length)
    (h2 : (L.nc_inq_var ncid varid).2.length ≤ cc0.length)
    (i : Nat) (hi : i < (L.nc_inq_var ncid varid).2.length) :
    (R_nc_slice H L start count ncid varid cs0 cc0).cstart.getD i 0 < SIZE_MOD := by
  rw [(R_nc_slice_spec H L start count ncid varid cs0 cc0 hq h1 h2).2.2.2.1 i 0 hi]
  exact Nat.mod_lt _ (by decide)

theorem R_nc_slice_ccount_lt (H : Host) (L : NcMeta) (start count : SEXP)
    (ncid varid : Int) (cs0 cc0 : List Nat)
    (hst : (R_nc_slice H L start count ncid varid cs0 cc0).status = NC_NOERR)
    (h1 : (L.nc_inq_var ncid varid).2.length ≤ cs0.length)
    (h2 : (L.nc_inq_var ncid varid).2.length ≤ cc0.length)
    (i : Nat) (hi : i < (L.nc_inq_var ncid varid).2.length) :
    (R_nc_slice H L start count ncid varid cs0 cc0).ccount.getD i 0 < SIZE_MOD := by
  have hq := R_nc_slice_query_ok H L start count ncid varid cs0 cc0 hst
  obtain ⟨_, _, _, _, _, _, s7, s8, _, _⟩ :=
    R_nc_slice_spec H L start count ncid varid cs0 cc0 hq h1 h2
  by_cases hna : userEntry H count NA_SIZE ((L.nc_inq_var ncid varid).2.length - 1 - i) = NA_SIZE
  · rw [(s8 hst i 0 hi hna).2]
    exact Nat.mod_lt _ (by decide)
  · rw [s7 i 0 hi hna]
    exact userEntry_lt H count NA_SIZE _ (by decide)

/-! ## Properties of `R_nc_slice` -/

/-- C1: in a slice that `R_nc_slice` returns with `NC_NOERR` for a variable of
rank `n`, every dimension `i < n` whose count entry is missing (`NA`,
non-finite, or beyond the end of the count vector) has
`ccount[i] = dimensionLength(dimids[i]) - cstart[i]`, whenever the dimension
length is at least `cstart[i]`. -/
theorem R_nc_slice_missing_count_extent (H : Host) (L : NcMeta) (start count : SEXP)
    (ncid varid : Int) (cstart ccount : List Nat) (n i : Nat)
    (hst : (R_nc_slice H L start count ncid varid cstart ccount).status = NC_NOERR)
    (hn : (R_nc_slice H L start count ncid varid cstart ccount).ndims = n)
    (h1 : n ≤ cstart.length) (h2 : n ≤ ccount.length) (hi : i < n)
    (hmiss : entryMissing count (n - 1 - i) = true)
    (hlen : (R_nc_slice H L start count ncid varid cstart ccount).cstart.getD i 0
      ≤ dimensionLength L ncid varid i) :
    (R_nc_slice H L start count ncid varid cstart ccount).ccount.getD i 0 =
      dimensionLength L ncid varid i
        - (R_nc_slice H L start count ncid varid cstart ccount).cstart.getD i 0 := by
  have hq := R_nc_slice_query_ok H L start count ncid varid cstart ccount hst
  rw [R_nc_slice_ndims] at hn
  subst hn
  have hm := entryMissing_userEntry H count NA_SIZE _ hmiss
  rw [((R_nc_slice_spec H L start count ncid varid cstart ccount hq h1 h2).2.2.2.2.2.2.2.1
    hst i 0 hi hm).2]
  have hd : dimensionLength L ncid varid i < SIZE_MOD := L.dimlen_lt _ _
  simp only [SIZE_MOD] at hd ⊢
  omega

/-- The example of C1: dimension length 10 and 1-based start 3, with the count
left out, give offset 2 and extent 8. -/
theorem R_nc_slice_missing_count_extent_witness :
    (R_nc_slice hostZero (oneDimMeta 10 (by decide)) (.int [RInt.ofNat 3 (by decide)]) .null
        0 0 [0] [0]).ccount.getD 0 0
      = dimensionLength (oneDimMeta 10 (by decide)) 0 0 0
        - (R_nc_slice hostZero (oneDimMeta 10 (by decide)) (.int [RInt.ofNat 3 (by decide)])
            .null 0 0 [0] [0]).cstart.getD 0 0 ∧
    (R_nc_slice hostZero (oneDimMeta 10 (by decide)) (.int [RInt.ofNat 3 (by decide)]) .null
        0 0 [0] [0]).cstart = [2] ∧
    (R_nc_slice hostZero (oneDimMeta 10 (by decide)) (.int [RInt.ofNat 3 (by decide)]) .null
        0 0 [0] [0]).ccount = [8] :=
  ⟨R_nc_slice_missing_count_extent hostZero (oneDimMeta 10 (by decide))
      (.int [RInt.ofNat 3 (by decide)]) .null 0 0 [0] [0] 1 0
      (by decide) (by decide) (by decide) (by decide) (by decide) (by decide) (by decide),
    by decide, by decide⟩

/-- C2, as the code has it: for a variable of rank `n` and a storage dimension
`i < n`, `cstart[i] = s[n-1-i] - 1` when position `n-1-i` of the start vector
holds a non-missing whole number `v` with `1 ≤ v < 2 ^ 64`, and `cstart[i] = 0`
when that position is beyond the end of the vector or holds `NA` or a
non-finite value. -/
theorem R_nc_slice_start_offset (H : Host) (L : NcMeta) (start count : SEXP)
    (ncid varid : Int) (cstart ccount : List Nat) (n i : Nat)
    (hq : (L.nc_inq_var ncid varid).1 = NC_NOERR)
    (hn : (L.nc_inq_var ncid varid).2.length = n)
    (h1 : n ≤ cstart.length) (h2 : n ≤ ccount.length) (hi : i < n) :
    (∀ v : Int, entryValue start (n - 1 - i) = some v → 1 ≤ v → v < (SIZE_MOD : Int) →
      (((R_nc_slice H L start count ncid varid cstart ccount).cstart.getD i 0 : Nat) : Int)
        = v - 1) ∧
    (entryMissing start (n - 1 - i) = true →
      (R_nc_slice H L start count ncid varid cstart ccount).cstart.getD i 0 = 0) := by
  subst hn
  have hs := (R_nc_slice_spec H L start count ncid varid cstart ccount hq h1 h2).2.2.2.1 i 0 hi
  constructor
  · intro v hv hv1 hv2
    rw [hs, entryValue_userEntry H start 1 _ v hv (by omega) hv2]
    simp only [SIZE_MOD] at hv2 ⊢
    omega
  · intro hm
    rw [hs, entryMissing_userEntry H start 1 _ hm]
    decide

/-- Two instances of C2 on a variable of rank 1: the start vector `c(4, 9)`
gives offset 3 (the second entry lies beyond the rank), and an empty start
vector gives offset 0. -/
theorem R_nc_slice_start_offset_witness :
    (((R_nc_slice hostZero (oneDimMeta 10 (by decide))
        (.int [RInt.ofNat 4 (by decide), RInt.ofNat 9 (by decide)])
        .null 0 0 [0] [0]).cstart.getD 0 0 : Nat) : Int) = 4 - 1 ∧
    (R_nc_slice hostZero (oneDimMeta 10 (by decide)) .null .null 0 0 [0] [0]).cstart.getD 0 0
      = 0 :=
  ⟨(R_nc_slice_start_offset hostZero (oneDimMeta 10 (by decide))
      (.int [RInt.ofNat 4 (by decide), RInt.ofNat 9 (by decide)]) .null 0 0 [0] [0] 1 0 rfl rfl
      (by decide) (by decide) (by decide)).1 4 (by decide) (by decide) (by decide),
   (R_nc_slice_start_offset hostZero (oneDimMeta 10 (by decide)) .null .null 0 0 [0] [0] 1 0
      rfl rfl (by decide) (by decide) (by decide)).2 (by decide)⟩

/-- C2 fails for a whole number that `size_t` cannot hold: the start entry
`2 ^ 65` (a double) is present, not missing and at least 1, yet on no platform
is `cstart[0]` equal to `2 ^ 65 - 1`. -/
theorem R_nc_slice_start_offset_huge :
    entryValue (.real [twoPow65]) 0 = some (2 ^ 65) ∧
    ¬ ∃ H : Host,
      (((R_nc_slice H (oneDimMeta 10 (by decide)) (.real [twoPow65]) .null 0 0 [0] [0]).cstart.getD
        0 0 : Nat) : Int) = 2 ^ 65 - 1 := by
  refine ⟨by decide, ?_⟩
  rintro ⟨H, h⟩
  have hlt := R_nc_slice_cstart_lt H (oneDimMeta 10 (by decide)) (.real [twoPow65]) .null 0 0
    [0] [0] rfl (by decide) (by decide) 0 (by decide)
  simp only [SIZE_MOD] at hlt
  omega

/-- C3, as the code has it: for a variable of rank `n`, a storage dimension
`i < n` whose count entry `c[n-1-i]` is present and is a whole number `v` with
`0 ≤ v < 2 ^ 64` gets `ccount[i] = v`, whatever the dimension length is and
whatever status the call returns. -/
theorem R_nc_slice_count_copied (H : Host) (L : NcMeta) (start count : SEXP)
    (ncid varid : Int) (cstart ccount : List Nat) (n i : Nat) (v : Int)
    (hq : (L.nc_inq_var ncid varid).1 = NC_NOERR)
    (hn : (L.nc_inq_var ncid varid).2.length = n)
    (h1 : n ≤ cstart.length) (h2 : n ≤ ccount.length) (hi : i < n)
    (hv : entryValue count (n - 1 - i) = some v) (hv0 : 0 ≤ v) (hv1 : v < (SIZE_MOD : Int)) :
    (((R_nc_slice H L start count ncid varid cstart ccount).ccount.getD i 0 : Nat) : Int)
      = v := by
  subst hn
  have hu := entryValue_userEntry H count NA_SIZE _ v hv hv0 hv1
  have hne := entryValue_ne_NA count _ v hv hv0
  rw [(R_nc_slice_spec H L start count ncid varid cstart ccount hq h1 h2).2.2.2.2.2.2.1 i 0 hi
    (by rw [hu]; exact hne), hu]
  omega

/-- An instance of C3: count `c(4)` on a dimension of length 10 gives extent 4,
and count `c(20)` gives extent 20. -/
theorem R_nc_slice_count_copied_witness :
    (((R_nc_slice hostZero (oneDimMeta 10 (by decide)) .null
        (.real [RDouble.ofNat 4 (by decide)]) 0 0 [0] [0]).ccount.getD 0 0 : Nat) : Int) = 4 ∧
    (R_nc_slice hostZero (oneDimMeta 10 (by decide)) .null
        (.int [RInt.ofNat 20 (by decide)]) 0 0 [0] [0]).ccount = [20] :=
  ⟨R_nc_slice_count_copied hostZero (oneDimMeta 10 (by decide)) .null
      (.real [RDouble.ofNat 4 (by decide)]) 0 0 [0] [0] 1 0 4 rfl rfl (by decide) (by decide)
      (by decide) (by decide) (by decide) (by decide),
    by decide⟩

/-- C3 fails for a whole number that `size_t` cannot hold: the count entry
`2 ^ 65` (a double) is present and non-negative, yet on no platform is
`ccount[0]` equal to it. -/
theorem R_nc_slice_count_copied_huge :
    entryValue (.real [twoPow65]) 0 = some (2 ^ 65) ∧
    ¬ ∃ H : Host,
      (((R_nc_slice H (oneDimMeta 10 (by decide)) .null (.real [twoPow65]) 0 0 [0] [0]).ccount.getD
        0 0 : Nat) : Int) = 2 ^ 65 := by
  refine ⟨by decide, ?_⟩
  rintro ⟨H, h⟩
  have hst := R_nc_slice_status_of_queries_ok H (oneDimMeta 10 (by decide)) .null
    (.real [twoPow65]) 0 0 [0] [0] rfl (by decide) (by decide) (fun _ _ => rfl)
  have hlt := R_nc_slice_ccount_lt H (oneDimMeta 10 (by decide)) .null (.real [twoPow65]) 0 0
    [0] [0] hst (by decide) (by decide) 0 (by decide)
  simp only [SIZE_MOD] at hlt
  omega

/-- C4, as the code has it: `R_nc_slice` makes no range check. When the
variable query and the dimension-length queries succeed it returns `NC_NOERR`,
and for a dimension whose count entry is missing and whose length is smaller
than `cstart[i]` it returns the wrapped extent
`ccount[i] = length + 2 ^ 64 - cstart[i]`. -/
theorem R_nc_slice_missing_count_wraps (H : Host) (L : NcMeta) (start count : SEXP)
    (ncid varid : Int) (cstart ccount : List Nat) (n i : Nat)
    (hq : (L.nc_inq_var ncid varid).1 = NC_NOERR)
    (hn : (L.nc_inq_var ncid varid).2.length = n)
    (hall : ∀ j, j < n →
      (L.nc_inq_dimlen ncid ((L.nc_inq_var ncid varid).2.getD j 0)).1 = NC_NOERR)
    (h1 : n ≤ cstart.length) (h2 : n ≤ ccount.length) (hi : i < n)
    (hmiss : entryMissing count (n - 1 - i) = true)
    (hlt : dimensionLength L ncid varid i
      < (R_nc_slice H L start count ncid varid cstart ccount).cstart.getD i 0) :
    (R_nc_slice H L start count ncid varid cstart ccount).status = NC_NOERR ∧
    (R_nc_slice H L start count ncid varid cstart ccount).ccount.getD i 0 =
      dimensionLength L ncid varid i + SIZE_MOD
        - (R_nc_slice H L start count ncid varid cstart ccount).cstart.getD i 0 := by
  subst hn
  have hst := R_nc_slice_status_of_queries_ok H L start count ncid varid cstart ccount hq h1 h2
    hall
  refine ⟨hst, ?_⟩
  have hm := entryMissing_userEntry H count NA_SIZE _ hmiss
  have hc := R_nc_slice_cstart_lt H L start count ncid varid cstart ccount hq h1 h2 i hi
  rw [((R_nc_slice_spec H L start count ncid varid cstart ccount hq h1 h2).2.2.2.2.2.2.2.1
    hst i 0 hi hm).2]
  simp only [SIZE_MOD] at hc ⊢
  omega

/-- An instance of the statement of C4 above: dimension length 2, 1-based start 5,
count left out. -/
theorem R_nc_slice_missing_count_wraps_witness :
    (R_nc_slice hostZero (oneDimMeta 2 (by decide)) (.int [RInt.ofNat 5 (by decide)]) .null
        0 0 [0] [0]).status = NC_NOERR ∧
    (R_nc_slice hostZero (oneDimMeta 2 (by decide)) (.int [RInt.ofNat 5 (by decide)]) .null
        0 0 [0] [0]).ccount.getD 0 0 =
      dimensionLength (oneDimMeta 2 (by decide)) 0 0 0 + SIZE_MOD
        - (R_nc_slice hostZero (oneDimMeta 2 (by decide)) (.int [RInt.ofNat 5 (by decide)])
            .null 0 0 [0] [0]).cstart.getD 0 0 :=
  R_nc_slice_missing_count_wraps hostZero (oneDimMeta 2 (by decide))
    (.int [RInt.ofNat 5 (by decide)]) .null 0 0 [0] [0] 1 0 rfl rfl (fun _ _ => rfl)
    (by decide) (by decide) (by decide) (by decide) (by decide)

/-- C4 fails: for a dimension of length 2, 1-based start 5 (offset 4) and no
count, `R_nc_slice` reports no error and returns the underflowed extent
`2 ^ 64 - 2`. -/
theorem R_nc_slice_underflow_not_detected :
    (R_nc_slice hostZero (oneDimMeta 2 (by decide)) (.int [RInt.ofNat 5 (by decide)]) .null
        0 0 [0] [0]).status = NC_NOERR ∧
    (R_nc_slice hostZero (oneDimMeta 2 (by decide)) (.int [RInt.ofNat 5 (by decide)]) .null
        0 0 [0] [0]).cstart = [4] ∧
    (R_nc_slice hostZero (oneDimMeta 2 (by decide)) (.int [RInt.ofNat 5 (by decide)]) .null
        0 0 [0] [0]).ccount = [18446744073709551614] := by
  decide

/-- C5, as the code has it: in a slice returned with `NC_NOERR`,
`cstart[i] + ccount[i] ≤ dimensionLength(dimids[i])` (with equality) for every
dimension whose count entry is missing and whose length is at least
`cstart[i]`; and `R_nc_slice` reports no range error of its own: a status other
than `NC_NOERR` is the status of a failed dimension-length query. -/
theorem R_nc_slice_range_invariant (H : Host) (L : NcMeta) (start count : SEXP)
    (ncid varid : Int) (cstart ccount : List Nat) (n : Nat)
    (hq : (L.nc_inq_var ncid varid).1 = NC_NOERR)
    (hn : (L.nc_inq_var ncid varid).2.length = n)
    (h1 : n ≤ cstart.length) (h2 : n ≤ ccount.length) :
    ((R_nc_slice H L start count ncid varid cstart ccount).status = NC_NOERR →
      ∀ i, i < n → entryMissing count (n - 1 - i) = true →
        (R_nc_slice H L start count ncid varid cstart ccount).cstart.getD i 0
          ≤ dimensionLength L ncid varid i →
        (R_nc_slice H L start count ncid varid cstart ccount).cstart.getD i 0
          + (R_nc_slice H L start count ncid varid cstart ccount).ccount.getD i 0
          = dimensionLength L ncid varid i) ∧
    ((R_nc_slice H L start count ncid varid cstart ccount).status ≠ NC_NOERR →
      ∃ j, j < n ∧ (R_nc_slice H L start count ncid varid cstart ccount).status =
        (L.nc_inq_dimlen ncid ((L.nc_inq_var ncid varid).2.getD j 0)).1) := by
  subst hn
  obtain ⟨_, _, _, _, _, _, _, s8, _, s10⟩ :=
    R_nc_slice_spec H L start count ncid varid cstart ccount hq h1 h2
  refine ⟨?_, s10⟩
  intro hst i hi hmiss hle
  have hm := entryMissing_userEntry H count NA_SIZE _ hmiss
  rw [(s8 hst i 0 hi hm).2]
  have hd : dimensionLength L ncid varid i < SIZE_MOD := L.dimlen_lt _ _
  simp only [SIZE_MOD] at hd ⊢
  omega

/-- An instance of the statement of C5 above: dimension length 10, start 3, no
count: offset 2 plus extent 8 is the dimension length. -/
theorem R_nc_slice_range_invariant_witness :
    (R_nc_slice hostZero (oneDimMeta 10 (by decide)) (.int [RInt.ofNat 3 (by decide)]) .null
        0 0 [0] [0]).cstart.getD 0 0
      + (R_nc_slice hostZero (oneDimMeta 10 (by decide)) (.int [RInt.ofNat 3 (by decide)]) .null
        0 0 [0] [0]).ccount.getD 0 0
      = dimensionLength (oneDimMeta 10 (by decide)) 0 0 0 :=
  (R_nc_slice_range_invariant hostZero (oneDimMeta 10 (by decide))
    (.int [RInt.ofNat 3 (by decide)]) .null 0 0 [0] [0] 1 rfl rfl (by decide) (by decide)).1
    (by decide) 0 (by decide) (by decide) (by decide)

/-- C5 fails: for a dimension of length 10, start 1 and count 20, `R_nc_slice`
returns `NC_NOERR` with offset 0 and extent 20, which exceed the dimension. -/
theorem R_nc_slice_out_of_range_accepted :
    (R_nc_slice hostZero (oneDimMeta 10 (by decide)) (.int [RInt.ofNat 1 (by decide)])
        (.int [RInt.ofNat 20 (by decide)]) 0 0 [0] [0]).status = NC_NOERR ∧
    dimensionLength (oneDimMeta 10 (by decide)) 0 0 0 = 10 ∧
    (R_nc_slice hostZero (oneDimMeta 10 (by decide)) (.int [RInt.ofNat 1 (by decide)])
        (.int [RInt.ofNat 20 (by decide)]) 0 0 [0] [0]).cstart.getD 0 0
      + (R_nc_slice hostZero (oneDimMeta 10 (by decide)) (.int [RInt.ofNat 1 (by decide)])
        (.int [RInt.ofNat 20 (by decide)]) 0 0 [0] [0]).ccount.getD 0 0 = 20 := by
  decide

/-- C6: for a scalar variable (rank 0) `R_nc_slice` returns `NC_NOERR` with
`ndims = 0`, leaves `cstart` and `ccount` as they were, and its only library
call is the variable query, whatever the start and count vectors are. -/
theorem R_nc_slice_scalar (H : Host) (L : NcMeta) (start count : SEXP)
    (ncid varid : Int) (cstart ccount : List Nat)
    (hq : (L.nc_inq_var ncid varid).1 = NC_NOERR)
    (h0 : (L.nc_inq_var ncid varid).2 = []) :
    R_nc_slice H L start count ncid varid cstart ccount =
      ⟨NC_NOERR, [NcCall.inq_var ncid varid], 0, cstart, ccount⟩ := by
  have hr : ∀ rv fillval cv, R_nc_size_r2c H rv 0 fillval cv = cv := by
    intro rv fillval cv
    obtain ⟨nr, hnr, _, heq⟩ := R_nc_size_r2c_eq H rv 0 fillval cv
    rw [heq, forLoop_nil _ _ hnr, forLoop_nil _ _ (Nat.zero_le _)]
  rw [R_nc_slice_ok_eq H L start count ncid varid cstart ccount hq, h0]
  simp only [List.length_nil, hr, forLoop_nil _ _ (le_refl 0), List.range_zero, forLoopRet,
    Option.getD_none]

/-- An instance of C6: a scalar variable read with start `c(7, 8)` and count
`c(NA, 2)`. -/
theorem R_nc_slice_scalar_witness :
    R_nc_slice hostZero scalarMeta
        (.int [RInt.ofNat 7 (by decide), RInt.ofNat 8 (by decide)])
        (.real [.nonfinite, RDouble.ofNat 2 (by decide)]) 5 6 [11, 12] [13, 14] =
      ⟨NC_NOERR, [NcCall.inq_var 5 6], 0, [11, 12], [13, 14]⟩ :=
  R_nc_slice_scalar hostZero scalarMeta _ _ 5 6 [11, 12] [13, 14] rfl rfl

/-! ## Properties of `R_nc_size_r2c` and `R_nc_length` -/

theorem getD_take_of_lt {α : Type} (xs : List α) (n ii : Nat) (d : α) (h : ii < n) :
    (xs.take n).getD ii d = xs.getD ii d := by
  simp only [List.getD_eq_getElem?_getD, List.getElem?_take_of_lt h]

theorem R_nc_size_r2c_take (H : Host) (rv : SEXP) (nc fillval : Nat) (cv : List Nat) :
    R_nc_size_r2c H rv nc fillval cv = R_nc_size_r2c H (rv.take nc) nc fillval cv := by
  cases rv with
  | real xs =>
    have hnr : (if (xs.take nc).length < nc then (xs.take nc).length else nc)
        = (if xs.length < nc then xs.length else nc) := by
      rw [List.length_take]
      split <;> split <;> omega
    simp only [R_nc_size_r2c, SEXP.take, isReal, xlength, REAL, if_true, hnr]
    congr 1
    apply forLoop_congr
    intro ii s _ h2
    have : ii < nc := by split at h2 <;> omega
    rw [getD_take_of_lt _ _ _ _ this]
  | int xs =>
    have hnr : (if (xs.take nc).length < nc then (xs.take nc).length else nc)
        = (if xs.length < nc then xs.length else nc) := by
      rw [List.length_take]
      split <;> split <;> omega
    simp only [R_nc_size_r2c, SEXP.take, isReal, isInteger, xlength, INTEGER, if_true, hnr,
      Bool.false_eq_true, if_false]
    congr 1
    apply forLoop_congr
    intro ii s _ h2
    have : ii < nc := by split at h2 <;> omega
    rw [List.map_take, getD_take_of_lt _ _ _ _ this]
  | null => rfl
  | lgl xs => simp only [R_nc_size_r2c, SEXP.take, isReal, isInteger, Bool.false_eq_true, if_false]
  | str xs => simp only [R_nc_size_r2c, SEXP.take, isReal, isInteger, Bool.false_eq_true, if_false]
  | raw xs => simp only [R_nc_size_r2c, SEXP.take, isReal, isInteger, Bool.false_eq_true, if_false]

/-- C7: for every rank `n` and every start or count vector `v`, in particular
one longer than `n`, `R_nc_size_r2c` gives the same array as for the first `n`
elements of `v`; hence `R_nc_slice` returns the same status, call log and
arrays when the start and count vectors are cut to the rank of the variable. -/
theorem R_nc_size_r2c_ignores_excess (H : Host) (L : NcMeta) (v start count : SEXP)
    (n fillval : Nat) (cv : List Nat) (ncid varid : Int) (cstart ccount : List Nat) :
    R_nc_size_r2c H v n fillval cv = R_nc_size_r2c H (v.take n) n fillval cv ∧
    R_nc_slice H L start count ncid varid cstart ccount =
      R_nc_slice H L (start.take (L.nc_inq_var ncid varid).2.length)
        (count.take (L.nc_inq_var ncid varid).2.length) ncid varid cstart ccount := by
  refine ⟨R_nc_size_r2c_take H v n fillval cv, ?_⟩
  unfold R_nc_slice
  simp only [← R_nc_size_r2c_take]

theorem extentProduct_succ (n : Nat) (count : List Nat) :
    extentProduct (n + 1) count = extentProduct n count * count.getD n 0 := by
  simp [extentProduct, List.range_succ]

theorem R_nc_length_succ (n : Nat) (count : List Nat) :
    R_nc_length (n + 1) count = (R_nc_length n count * count.getD n 0) % SIZE_MOD := by
  unfold R_nc_length
  rw [forLoop_succ _ _ (Nat.zero_le _)]

theorem R_nc_length_eq_mod (n : Nat) (count : List Nat) :
    R_nc_length n count = extentProduct n count % SIZE_MOD := by
  induction n with
  | zero => rfl
  | succ n ih =>
    rw [R_nc_length_succ, extentProduct_succ, ih, Nat.mod_mul_mod]

theorem extentProduct_eq_zero_iff (n : Nat) (count : List Nat) :
    extentProduct n count = 0 ↔ ∃ i, i < n ∧ count.getD i 0 = 0 := by
  unfold extentProduct
  rw [List.prod_eq_zero_iff]
  simp only [List.mem_map, List.mem_range]

/-- C8, as the code has it: `R_nc_length(ndims, count)` is the product of
`count[0..ndims-1]` reduced modulo `2 ^ 64`, hence the product itself whenever
that is below `2 ^ 64`; it is 1 when `ndims = 0`. -/
theorem R_nc_length_product (ndims : Nat) (count : List Nat) :
    R_nc_length ndims count = extentProduct ndims count % SIZE_MOD ∧
    (extentProduct ndims count < SIZE_MOD → R_nc_length ndims count = extentProduct ndims count) ∧
    R_nc_length 0 count = 1 := by
  refine ⟨R_nc_length_eq_mod ndims count, fun h => ?_, rfl⟩
  rw [R_nc_length_eq_mod, Nat.mod_eq_of_lt h]

/-- An instance of C8: extents 2, 3, 4 give 24 elements. -/
theorem R_nc_length_product_witness :
    R_nc_length 3 [2, 3, 4] = extentProduct 3 [2, 3, 4] ∧ R_nc_length 3 [2, 3, 4] = 24 :=
  ⟨(R_nc_length_product 3 [2, 3, 4]).2.1 (by decide), by decide⟩

/-- C8 fails when the product does not fit in `size_t`: extents `2 ^ 63` and 2
have product `2 ^ 64`, and `R_nc_length` returns 0. -/
theorem R_nc_length_product_overflow :
    extentProduct 2 [9223372036854775808, 2] = 18446744073709551616 ∧
    R_nc_length 2 [9223372036854775808, 2] = 0 := by
  decide

/-- C10, as the code has it: `R_nc_length` is 0 when some extent entry is 0;
and when `R_nc_length` is 0 and the product of the extents is below `2 ^ 64`,
some extent entry is 0. -/
theorem R_nc_length_zero (ndims : Nat) (count : List Nat) :
    ((∃ i, i < ndims ∧ count.getD i 0 = 0) → R_nc_length ndims count = 0) ∧
    (R_nc_length ndims count = 0 → extentProduct ndims count < SIZE_MOD →
      ∃ i, i < ndims ∧ count.getD i 0 = 0) := by
  constructor
  · intro h
    rw [R_nc_length_eq_mod, (extentProduct_eq_zero_iff ndims count).mpr h]
    rfl
  · intro h hlt
    rw [R_nc_length_eq_mod, Nat.mod_eq_of_lt hlt] at h
    exact (extentProduct_eq_zero_iff ndims count).mp h

/-- Two instances of C10: extents 3, 0, 5 give 0 elements, and the 0 elements
of extents 4, 0 come from the second entry. -/
theorem R_nc_length_zero_witness :
    R_nc_length 3 [3, 0, 5] = 0 ∧ ∃ i, i < 2 ∧ [4, 0].getD i 0 = 0 :=
  ⟨(R_nc_length_zero 3 [3, 0, 5]).1 ⟨1, by decide, by decide⟩,
   (R_nc_length_zero 2 [4, 0]).2 (by decide) (by decide)⟩

/-- C10 fails: extents `2 ^ 32` and `2 ^ 32` are both non-zero, yet their
`size_t` product wraps to 0. -/
theorem R_nc_length_zero_by_wrap :
    R_nc_length 2 [4294967296, 4294967296] = 0 ∧
    ¬ ∃ i, i < 2 ∧ [4294967296, 4294967296].getD i 0 = 0 := by
  refine ⟨by decide, ?_⟩
  rintro ⟨i, hi, h⟩
  have : i = 0 ∨ i = 1 := by omega
  rcases this with rfl | rfl <;> simp at h

/-! ## Empty transfers -/

theorem sliceCountBody_calls (L : NcMeta) (ncid : Int) (dimids : List Int) (cstart : List Nat)
    (a : Nat) (st : List NcCall × List Nat) :
    (sliceCountBody L ncid dimids cstart a st).2.1 = st.1 ∨
    (sliceCountBody L ncid dimids cstart a st).2.1
      = st.1 ++ [NcCall.inq_dimlen ncid (dimids.getD a 0)] := by
  unfold sliceCountBody
  dsimp only
  split
  · split
    · exact Or.inr rfl
    · exact Or.inr rfl
  · exact Or.inl rfl

theorem sliceCount_loop_calls (L : NcMeta) (ncid : Int) (dimids : List Int) (cstart : List Nat)
    (is : List Nat) (calls : List NcCall) (cc : List Nat) :
    ∀ c ∈ (forLoopRet (sliceCountBody L ncid dimids cstart) is (calls, cc)).2.1,
      c ∈ calls ∨ ∃ dimid, c = NcCall.inq_dimlen ncid dimid := by
  induction is generalizing calls cc with
  | nil => exact fun c hc => Or.inl hc
  | cons a rest ih =>
    have hcalls := sliceCountBody_calls L ncid dimids cstart a (calls, cc)
    have lift : ∀ c ∈ (sliceCountBody L ncid dimids cstart a (calls, cc)).2.1,
        c ∈ calls ∨ ∃ dimid, c = NcCall.inq_dimlen ncid dimid := by
      intro c hc
      rcases hcalls with h | h
      · rw [h] at hc
        exact Or.inl hc
      · rw [h] at hc
        rcases List.mem_append.mp hc with h | h
        · exact Or.inl h
        · exact Or.inr ⟨_, List.mem_singleton.mp h⟩
    rcases hb : sliceCountBody L ncid dimids cstart a (calls, cc) with ⟨_ | st, calls2, cc2⟩
    · rw [forLoopRet_cons_none _ _ _ _ _ hb]
      intro c hc
      rcases ih calls2 cc2 c hc with h | h
      · exact lift c (by rw [hb]; exact h)
      · exact Or.inr h
    · rw [forLoopRet_cons_some _ _ _ _ _ _ hb]
      intro c hc
      exact lift c (by rw [hb]; exact hc)

/-- The only library calls of `R_nc_slice` are metadata queries. -/
theorem R_nc_slice_calls_not_bulk (H : Host) (L : NcMeta) (start count : SEXP)
    (ncid varid : Int) (cs0 cc0 : List Nat) :
    ∀ c ∈ (R_nc_slice H L start count ncid varid cs0 cc0).calls, c.isBulk = false := by
  intro c hc
  by_cases hq : (L.nc_inq_var ncid varid).1 = NC_NOERR
  · rw [R_nc_slice_ok_eq H L start count ncid varid cs0 cc0 hq] at hc
    rcases sliceCount_loop_calls _ _ _ _ _ _ _ c hc with h | ⟨d, h⟩
    · rw [List.mem_singleton.mp h]
      rfl
    · rw [h]
      rfl
  · rw [R_nc_slice_fail_eq H L start count ncid varid cs0 cc0 hq] at hc
    rw [List.mem_singleton.mp hc]
    rfl

theorem R_nc_var_id_calls_not_bulk (H : Host) (L : NcLib) (var : SEXP) (ncid : Int) :
    ∀ c ∈ (R_nc_var_id H L var ncid).2.2, c.isBulk = false := by
  intro c hc
  unfold R_nc_var_id at hc
  split at hc
  · simp at hc
  · split at hc
    · rw [List.mem_singleton.mp hc]
      rfl
    · simp at hc

/-- With no element to transfer, the `switch` of `R_nc_get_var` calls nothing. -/
theorem R_nc_get_var_switch_calls_empty (L : NcLib) (retlist : RetList) (ncid varid : Int)
    (ndims : Nat) (cstart ccount : List Nat) (xtype rawchar : Int) :
    (R_nc_get_var_switch L retlist ncid varid ndims cstart ccount 0 xtype rawchar).calls = [] := by
  unfold R_nc_get_var_switch
  simp only [gt_iff_lt, Nat.lt_irrefl, if_false]
  repeat' split
  all_goals rfl

theorem R_nc_get_var_calls (H : Host) (L : NcLib) (nc var start count rawchar : SEXP) :
    ∀ c ∈ (R_nc_get_var H L nc var start count rawchar).calls,
      c ∈ (R_nc_var_id H L var (H.asInteger nc)).2.2 ∨
      c ∈ (getVarSlice H L nc var start count).calls ∨
      c = NcCall.inq_vartype (H.asInteger nc) (R_nc_var_id H L var (H.asInteger nc)).2.1 ∨
      c = NcCall.enddef (H.asInteger nc) ∨
      c ∈ (R_nc_get_var_switch L RetList.empty (H.asInteger nc)
        (R_nc_var_id H L var (H.asInteger nc)).2.1
        (getVarSlice H L nc var start count).ndims
        (getVarSlice H L nc var start count).cstart
        (getVarSlice H L nc var start count).ccount
        (getVarArrlen H L nc var start count)
        (L.nc_inq_vartype (H.asInteger nc) (R_nc_var_id H L var (H.asInteger nc)).2.1).2
        (H.asLogical rawchar)).calls := by
  intro c hc
  unfold R_nc_get_var at hc
  simp only [] at hc
  repeat' split at hc
  all_goals
    simp only [List.mem_append, List.mem_singleton] at hc
    simp only [getVarArrlen, getVarSlice]
    tauto

theorem R_nc_status_spec (L : NcLib) (retlist : RetList) (status force : Int) :
    (R_nc_status L retlist status force).2 = (if force ≠ 0 ∨ status ≠ NC_NOERR then 1 else 0) ∧
    ((force ≠ 0 ∨ status ≠ NC_NOERR) →
      (R_nc_status L retlist status force).1.status = some status) ∧
    (¬ (force ≠ 0 ∨ status ≠ NC_NOERR) → (R_nc_status L retlist status force).1 = retlist) := by
  unfold R_nc_status
  by_cases h : force ≠ 0 ∨ status ≠ NC_NOERR
  · simp only [h, if_true]
    refine ⟨?_, fun _ => ?_, fun hn => absurd trivial hn⟩
    · split
      · rfl
      · split <;> rfl
    · split
      · rfl
      · split <;> rfl
  · rw [if_neg h, if_neg h]
    exact ⟨rfl, fun hh => absurd hh h, fun _ => rfl⟩

theorem RNCCHECK_status (L : NcLib) (retlist out : RetList) (status : Int)
    (h : RNCCHECK L retlist status = some out) : out.status = some status := by
  obtain ⟨s1, s2, _⟩ := R_nc_status_spec L retlist status 0
  unfold RNCCHECK at h
  by_cases hs : status = NC_NOERR
  · rw [s1] at h
    simp [hs] at h
  · rw [s1] at h
    simp only [hs, ne_eq, not_true_eq_false, not_false_eq_true, or_true, if_true,
      one_ne_zero, Option.some.injEq] at h
    rw [← h]
    exact s2 (Or.inr hs)

theorem RNCCHECK_none (L : NcLib) (retlist : RetList) (status : Int)
    (h : RNCCHECK L retlist status = none) : status = NC_NOERR := by
  obtain ⟨s1, _, _⟩ := R_nc_status_spec L retlist status 0
  unfold RNCCHECK at h
  by_contra hne
  rw [s1] at h
  simp [hne] at h

theorem RNCRETURN_status (L : NcLib) (retlist : RetList) (status : Int) :
    (RNCRETURN L retlist status).status = some status :=
  (R_nc_status_spec L retlist status 1).2.1 (Or.inl one_ne_zero)

/-- C9, as the code has it: whenever the total element count is 0, none of
`R_nc_get_var` (whatever the element type and mode), `R_nc_put_vara_double`
and `R_nc_put_vara_text` calls a bulk transfer function of the library
(`nc_get_vara_*`, `nc_put_vara_*`); the write operations then return the status
of `R_nc_enddef`, which is `NC_NOERR` when entering data mode succeeds. -/
theorem bulk_transfer_skipped_when_empty (H : Host) (L : NcLib)
    (nc var start count rawchar : SEXP) (ncid varid pstart pcount ndims prawchar data : SEXP) :
    (getVarArrlen H L nc var start count = 0 →
      ∀ c ∈ (R_nc_get_var H L nc var start count rawchar).calls, c.isBulk = false) ∧
    ((putDoubleDims pstart pcount ndims).varsize = 0 →
      (∀ c ∈ (R_nc_put_vara_double L ncid varid pstart pcount ndims data).calls,
        c.isBulk = false) ∧
      (R_nc_put_vara_double L ncid varid pstart pcount ndims data).ret.status
        = some (R_nc_enddef L ((INTEGER ncid).getD 0 0)) ∧
      (R_nc_enddef L ((INTEGER ncid).getD 0 0) = NC_NOERR →
        (R_nc_put_vara_double L ncid varid pstart pcount ndims data).ret.status
          = some NC_NOERR)) ∧
    ((putTextDims pstart pcount ndims).varsize = 0 →
      (∀ c ∈ (R_nc_put_vara_text L ncid varid pstart pcount ndims prawchar data).calls,
        c.isBulk = false) ∧
      (R_nc_put_vara_text L ncid varid pstart pcount ndims prawchar data).ret.status
        = some (R_nc_enddef L ((INTEGER ncid).getD 0 0)) ∧
      (R_nc_enddef L ((INTEGER ncid).getD 0 0) = NC_NOERR →
        (R_nc_put_vara_text L ncid varid pstart pcount ndims prawchar data).ret.status
          = some NC_NOERR)) := by
  refine ⟨?_, ?_, ?_⟩
  · intro h0 c hc
    rcases R_nc_get_var_calls H L nc var start count rawchar c hc with h | h | h | h | h
    · exact R_nc_var_id_calls_not_bulk H L var _ c h
    · exact R_nc_slice_calls_not_bulk H L.toNcMeta start count _ _ _ _ c h
    · rw [h]; rfl
    · rw [h]; rfl
    · rw [h0, R_nc_get_var_switch_calls_empty] at h
      simp at h
  · intro h0
    have key : (∀ c ∈ (R_nc_put_vara_double L ncid varid pstart pcount ndims data).calls,
        c.isBulk = false) ∧
      (R_nc_put_vara_double L ncid varid pstart pcount ndims data).ret.status
        = some (R_nc_enddef L ((INTEGER ncid).getD 0 0)) := by
      unfold R_nc_put_vara_double
      simp only [h0, gt_iff_lt, Nat.lt_irrefl, if_false]
      split
      · rename_i out hout
        refine ⟨?_, RNCCHECK_status _ _ _ _ hout⟩
        intro c hc
        rw [List.mem_singleton.mp hc]
        rfl
      · rename_i hnone
        refine ⟨?_, ?_⟩
        · intro c hc
          rw [List.mem_singleton.mp hc]
          rfl
        · rw [RNCRETURN_status, RNCCHECK_none _ _ _ hnone]
    exact ⟨key.1, key.2, fun he => by rw [key.2, he]⟩
  · intro h0
    have key : (∀ c ∈ (R_nc_put_vara_text L ncid varid pstart pcount ndims prawchar data).calls,
        c.isBulk = false) ∧
      (R_nc_put_vara_text L ncid varid pstart pcount ndims prawchar data).ret.status
        = some (R_nc_enddef L ((INTEGER ncid).getD 0 0)) := by
      unfold R_nc_put_vara_text
      simp only [h0, gt_iff_lt, Nat.lt_irrefl, if_false]
      split
      · rename_i out hout
        refine ⟨?_, RNCCHECK_status _ _ _ _ hout⟩
        intro c hc
        rw [List.mem_singleton.mp hc]
        rfl
      · rename_i hnone
        refine ⟨?_, ?_⟩
        · intro c hc
          rw [List.mem_singleton.mp hc]
          rfl
        · rw [RNCRETURN_status, RNCCHECK_none _ _ _ hnone]
    exact ⟨key.1, key.2, fun he => by rw [key.2, he]⟩

/-- Instances of the statement of C9 above: a read of the character variable of
`charLib` with count `c(0, 2)`, a numeric write and a text write with count
`c(0)`, all of zero elements, make no bulk call, and both writes return
`NC_NOERR`. -/
theorem bulk_transfer_skipped_when_empty_witness :
    (∀ c ∈ (R_nc_get_var hostZero charLib .null (intScalar 0 (by decide)) .null
        (.int [RInt.ofNat 0 (by decide), RInt.ofNat 2 (by decide)]) .null).calls,
      c.isBulk = false) ∧
    (R_nc_get_var hostZero charLib .null (intScalar 0 (by decide)) .null
        (.int [RInt.ofNat 0 (by decide), RInt.ofNat 2 (by decide)]) .null).ret.status
      = some NC_NOERR ∧
    (R_nc_put_vara_double charLib (intScalar 0 (by decide)) (intScalar 0 (by decide))
        (intScalar 0 (by decide)) (intScalar 0 (by decide)) (intScalar 1 (by decide))
        (.real [])).ret.status = some NC_NOERR ∧
    (R_nc_put_vara_text charLib (intScalar 0 (by decide)) (intScalar 0 (by decide))
        (intScalar 0 (by decide)) (intScalar 0 (by decide)) (intScalar 1 (by decide))
        (intScalar 0 (by decide)) (.str [])).ret.status = some NC_NOERR :=
  ⟨(bulk_transfer_skipped_when_empty hostZero charLib .null (intScalar 0 (by decide)) .null
      (.int [RInt.ofNat 0 (by decide), RInt.ofNat 2 (by decide)]) .null
      .null .null .null .null .null .null .null).1 (by decide),
   by decide,
   ((bulk_transfer_skipped_when_empty hostZero charLib .null .null .null .null .null
      (intScalar 0 (by decide)) (intScalar 0 (by decide))
      (intScalar 0 (by decide)) (intScalar 0 (by decide)) (intScalar 1 (by decide))
      .null (.real [])).2.1 (by decide)).2.2 (by decide),
   ((bulk_transfer_skipped_when_empty hostZero charLib .null .null .null .null .null
      (intScalar 0 (by decide)) (intScalar 0 (by decide))
      (intScalar 0 (by decide)) (intScalar 0 (by decide)) (intScalar 1 (by decide))
      (intScalar 0 (by decide)) (.str [])).2.2 (by decide)).2.2 (by decide)⟩

/-- C9 fails in its last part: a numeric write and a text write of zero
elements (count `c(0)`) to a dataset identifier that is not open return
`NC_EBADID`, the status of the failed `R_nc_enddef`, and not `NC_NOERR`. -/
theorem empty_write_returns_enddef_error :
    (putDoubleDims (intScalar 0 (by decide)) (intScalar 0 (by decide))
      (intScalar 1 (by decide))).varsize = 0 ∧
    (R_nc_put_vara_double closedLib (intScalar 0 (by decide)) (intScalar 0 (by decide))
        (intScalar 0 (by decide)) (intScalar 0 (by decide)) (intScalar 1 (by decide))
        (.real [])).ret.status = some NC_EBADID ∧
    (putTextDims (intScalar 0 (by decide)) (intScalar 0 (by decide))
      (intScalar 1 (by decide))).varsize = 0 ∧
    (R_nc_put_vara_text closedLib (intScalar 0 (by decide)) (intScalar 0 (by decide))
        (intScalar 0 (by decide)) (intScalar 0 (by decide)) (intScalar 1 (by decide))
        (intScalar 0 (by decide)) (.str [])).ret.status = some NC_EBADID := by
  decide

/-! ## Lemmas on `R_nc_get_var` -/

theorem RNCCHECK_some_iff (L : NcLib) (retlist : RetList) (status : Int) :
    (status ≠ NC_NOERR → RNCCHECK L retlist status = some (R_nc_status L retlist status 0).1) ∧
    (status = NC_NOERR → RNCCHECK L retlist status = none) := by
  obtain ⟨s1, _, _⟩ := R_nc_status_spec L retlist status 0
  unfold RNCCHECK
  rw [s1]
  constructor
  · intro h
    simp [h]
  · intro h
    simp [h]

/-- The result list that `RNCCHECK` returns holds the failing status, the
message for it, and the data as it was. -/
theorem RNCCHECK_out (L : NcLib) (retlist out : RetList) (status : Int)
    (h : RNCCHECK L retlist status = some out) :
    status ≠ NC_NOERR ∧ out.status = some status ∧ out.data = retlist.data ∧
      out.dim = retlist.dim := by
  have hne : status ≠ NC_NOERR := by
    intro he
    rw [(RNCCHECK_some_iff L retlist status).2 he] at h
    simp at h
  rw [(RNCCHECK_some_iff L retlist status).1 hne] at h
  simp only [Option.some.injEq] at h
  subst h
  refine ⟨hne, (R_nc_status_spec L retlist status 0).2.1 (Or.inr hne), ?_, ?_⟩
  · unfold R_nc_status
    repeat' split
    all_goals rfl
  · unfold R_nc_status
    repeat' split
    all_goals rfl

theorem RNCRETURN_data (L : NcLib) (retlist : RetList) (status : Int) :
    (RNCRETURN L retlist status).data = retlist.data ∧
    (RNCRETURN L retlist status).dim = retlist.dim := by
  unfold RNCRETURN R_nc_status
  constructor
  · repeat' split
    all_goals rfl
  · repeat' split
    all_goals rfl

/-- When its first steps succeed, `R_nc_get_var` is its `switch` followed by
the dimension attribute. -/
theorem R_nc_get_var_of_reaches (H : Host) (L : NcLib) (nc var start count rawchar : SEXP)
    (h : getVarReaches H L nc var start count) :
    (R_nc_get_var H L nc var start count rawchar).ret =
      match (getVarSwitch H L nc var start count rawchar).returned with
      | some out => out
      | none =>
        RNCRETURN L
          (if (getVarSwitch H L nc var start count rawchar).rank > 0 then
            { (getVarSwitch H L nc var start count rawchar).retlist with
              dim := some (dimAttr (getVarSwitch H L nc var start count rawchar).rank
                (getVarSlice H L nc var start count).ccount) }
          else (getVarSwitch H L nc var start count rawchar).retlist) NC_NOERR := by
  obtain ⟨h1, h2, h3, h4⟩ := h
  unfold getVarSlice at h2
  unfold getVarVarid at h3
  unfold R_nc_get_var
  simp only [(RNCCHECK_some_iff L _ _).2 h1, (RNCCHECK_some_iff L _ _).2 h2,
    (RNCCHECK_some_iff L _ _).2 h3, (RNCCHECK_some_iff L _ _).2 h4]
  unfold getVarSwitch getVarArrlen getVarSlice getVarXtype getVarVarid dimAttr
  split <;> rename_i hr <;> simp only [hr]

theorem checked_read {α : Type} (L : NcLib) (retlist : RetList) (st : Int)
    (k1 : RetList → α) (k2 : α) :
    (match RNCCHECK L retlist st with
      | some out => k1 out
      | none => k2) = if st = NC_NOERR then k2 else k1 (R_nc_status L retlist st 0).1 := by
  by_cases h : st = NC_NOERR
  · rw [(RNCCHECK_some_iff L retlist st).2 h, if_pos h]
  · rw [(RNCCHECK_some_iff L retlist st).1 h, if_neg h]

theorem R_nc_get_var_switch_returned (L : NcLib) (retlist : RetList) (ncid varid : Int)
    (ndims : Nat) (cstart ccount : List Nat) (arrlen : Nat) (xtype rawchar : Int)
    (out : RetList)
    (h : (R_nc_get_var_switch L retlist ncid varid ndims cstart ccount arrlen xtype
      rawchar).returned = some out) :
    ∃ st, st ≠ NC_NOERR ∧ out.status = some st := by
  unfold R_nc_get_var_switch at h
  simp only [checked_read] at h
  repeat' split at h
  all_goals first
    | (simp only [Option.some.injEq] at h
       subst h
       have hc : ¬ _ = NC_NOERR := ‹¬ _ = NC_NOERR›
       exact ⟨_, hc, (R_nc_status_spec _ _ _ 0).2.1 (Or.inr hc)⟩)
    | (simp only [Option.some.injEq] at h
       subst h
       exact ⟨NC_EBADTYPE, by decide, RNCRETURN_status _ _ _⟩)
    | simp at h


/-- When one of its first steps fails, `R_nc_get_var` returns an error status
and no data. -/
theorem R_nc_get_var_of_not_reaches (H : Host) (L : NcLib) (nc var start count rawchar : SEXP)
    (h : ¬ getVarReaches H L nc var start count) :
    (∃ st, st ≠ NC_NOERR ∧ (R_nc_get_var H L nc var start count rawchar).ret.status = some st) ∧
    (R_nc_get_var H L nc var start count rawchar).ret.data = .null ∧
    (R_nc_get_var H L nc var start count rawchar).ret.dim = none := by
  unfold getVarReaches getVarSlice getVarVarid at h
  unfold R_nc_get_var
  dsimp only
  by_cases h1 : (R_nc_var_id H L var (H.asInteger nc)).1 = NC_NOERR
  · rw [(RNCCHECK_some_iff L _ _).2 h1]
    by_cases h2 : (R_nc_slice H L.toNcMeta start count (H.asInteger nc)
        (R_nc_var_id H L var (H.asInteger nc)).2.1 (List.replicate MAX_NC_DIMS 0)
        (List.replicate MAX_NC_DIMS 0)).status = NC_NOERR
    · rw [(RNCCHECK_some_iff L _ _).2 h2]
      by_cases h3 : (L.nc_inq_vartype (H.asInteger nc)
          (R_nc_var_id H L var (H.asInteger nc)).2.1).1 = NC_NOERR
      · rw [(RNCCHECK_some_iff L _ _).2 h3]
        have h4 : R_nc_enddef L (H.asInteger nc) ≠ NC_NOERR := fun h4 => h ⟨h1, h2, h3, h4⟩
        have hc := (RNCCHECK_some_iff L RetList.empty _).1 h4
        rw [hc]
        have ho := RNCCHECK_out _ _ _ _ hc
        exact ⟨⟨_, ho.1, ho.2.1⟩, ho.2.2.1, ho.2.2.2⟩
      · have hc := (RNCCHECK_some_iff L RetList.empty _).1 h3
        rw [hc]
        have ho := RNCCHECK_out _ _ _ _ hc
        exact ⟨⟨_, ho.1, ho.2.1⟩, ho.2.2.1, ho.2.2.2⟩
    · have hc := (RNCCHECK_some_iff L RetList.empty _).1 h2
      rw [hc]
      have ho := RNCCHECK_out _ _ _ _ hc
      exact ⟨⟨_, ho.1, ho.2.1⟩, ho.2.2.1, ho.2.2.2⟩
  · have hc := (RNCCHECK_some_iff L RetList.empty _).1 h1
    rw [hc]
    have ho := RNCCHECK_out _ _ _ _ hc
    exact ⟨⟨_, ho.1, ho.2.1⟩, ho.2.2.1, ho.2.2.2⟩

/-- A call of `R_nc_get_var` that returns `NC_NOERR` went through all its
steps: its first steps succeeded, nothing was returned from inside the
`switch`, and the result is the list of the `switch` with the dimension
attribute and the status. -/
theorem R_nc_get_var_of_success (H : Host) (L : NcLib) (nc var start count rawchar : SEXP)
    (h : (R_nc_get_var H L nc var start count rawchar).ret.status = some NC_NOERR) :
    getVarReaches H L nc var start count ∧
    (getVarSwitch H L nc var start count rawchar).returned = none ∧
    (R_nc_get_var H L nc var start count rawchar).ret.data
      = (getVarSwitch H L nc var start count rawchar).retlist.data ∧
    (R_nc_get_var H L nc var start count rawchar).ret.dim
      = (if (getVarSwitch H L nc var start count rawchar).rank > 0 then
          some (dimAttr (getVarSwitch H L nc var start count rawchar).rank
            (getVarSlice H L nc var start count).ccount)
        else (getVarSwitch H L nc var start count rawchar).retlist.dim) := by
  have hr : getVarReaches H L nc var start count := by
    by_contra hn
    obtain ⟨⟨st, hst, he⟩, _⟩ := R_nc_get_var_of_not_reaches H L nc var start count rawchar hn
    rw [he] at h
    exact hst (Option.some.inj h)
  have heq := R_nc_get_var_of_reaches H L nc var start count rawchar hr
  cases hsw : (getVarSwitch H L nc var start count rawchar).returned with
  | some out =>
    exfalso
    rw [hsw] at heq
    obtain ⟨st, hst, he⟩ := R_nc_get_var_switch_returned _ _ _ _ _ _ _ _ _ _ out hsw
    rw [heq] at h
    dsimp only at h
    rw [he] at h
    exact hst (Option.some.inj h)
  | none =>
    rw [hsw] at heq
    dsimp only at heq
    refine ⟨hr, rfl, ?_, ?_⟩
    · rw [heq, (RNCRETURN_data _ _ _).1]
      split <;> rfl
    · rw [heq, (RNCRETURN_data _ _ _).2]
      split <;> rfl

/-- A loop that stores `g ii` at index `ii` of a list of any element type. -/
theorem forLoop_store_spec {α : Type} (g : Nat → α) (xs : List α) (n : Nat)
    (hn : n ≤ xs.length) :
    (forLoop 0 n (fun ii s => s.set ii (g ii)) xs).length = xs.length ∧
    (∀ k, k < n → (forLoop 0 n (fun ii s => s.set ii (g ii)) xs)[k]? = some (g k)) ∧
    (∀ k, n ≤ k → (forLoop 0 n (fun ii s => s.set ii (g ii)) xs)[k]? = xs[k]?) := by
  induction n with
  | zero =>
    rw [forLoop_nil _ _ (le_refl _)]
    exact ⟨rfl, fun k hk => absurd hk (by omega), fun _ _ => rfl⟩
  | succ n ih =>
    obtain ⟨i1, i2, i3⟩ := ih (by omega)
    rw [forLoop_succ _ _ (Nat.zero_le _)]
    refine ⟨by rw [List.length_set]; exact i1, ?_, ?_⟩
    · intro k hk
      rw [List.getElem?_set]
      by_cases e : n = k
      · subst e
        simp only [if_true]
        rw [if_pos (by rw [i1]; omega)]
      · rw [if_neg e]
        exact i2 k (by omega)
    · intro k hk
      rw [List.getElem?_set, if_neg (by omega)]
      exact i3 k (by omega)

theorem fillBuf_length {α : Type} (n : Nat) (src : List α) (d : α) :
    (fillBuf n src d).length = n := by
  simp [fillBuf]

theorem fillBuf_getD {α : Type} (n : Nat) (src : List α) (d : α) (k : Nat) (hk : k < n) :
    (fillBuf n src d).getD k d = src.getD k d := by
  simp [fillBuf, List.getD_eq_getElem?_getD, List.getElem?_map, List.getElem?_range hk]

theorem extractStrings_spec (charbuf : List Nat) (strcnt strlen : Nat) :
    (extractStrings charbuf strcnt strlen).length = strcnt ∧
    ∀ k, k < strcnt → (extractStrings charbuf strcnt strlen).getD k [] =
      (charbuf.drop ((k * strlen) % SIZE_MOD)).take
        (strnlen (charbuf.drop ((k * strlen) % SIZE_MOD)) strlen) := by
  obtain ⟨s1, s2, _⟩ := forLoop_store_spec
    (fun ii => (charbuf.drop ((ii * strlen) % SIZE_MOD)).take
        (strnlen (charbuf.drop ((ii * strlen) % SIZE_MOD)) strlen))
    (List.replicate strcnt []) strcnt (by simp)
  unfold extractStrings
  refine ⟨by rw [s1]; simp, ?_⟩
  intro k hk
  rw [List.getD_eq_getElem?_getD, s2 k hk]
  rfl

theorem dimAttr_spec (rank : Nat) (ccount : List Nat) :
    (dimAttr rank ccount).length = rank ∧
    ∀ j, j < rank → (dimAttr rank ccount).getD j 0 = size2int (ccount.getD (rank - 1 - j) 0) := by
  obtain ⟨s1, s2, _⟩ := forLoop_store_spec
    (fun ii => size2int (ccount.getD (rank - 1 - ii) 0)) (List.replicate rank 0) rank (by simp)
  unfold dimAttr
  refine ⟨by rw [s1]; simp, ?_⟩
  intro j hj
  rw [List.getD_eq_getElem?_getD, s2 j hj]
  rfl

/-- Cutting a list at `strnlen` is cutting its first `n` bytes at the first
zero byte. -/
theorem take_strnlen (l : List Nat) (n : Nat) :
    l.take (strnlen l n) = cutAtZero (l.take n) := by
  induction l generalizing n with
  | nil =>
    cases n with
    | zero => rfl
    | succ n => rfl
  | cons c cs ih =>
    cases n with
    | zero => rfl
    | succ n =>
      by_cases hc : c = 0
      · simp [strnlen, cutAtZero, hc]
      · simp only [strnlen, hc, if_false, List.take_succ_cons, cutAtZero]
        rw [List.takeWhile_cons_of_pos (by simpa using hc)]
        congr 1
        exact ih n

/-- The `switch` of `R_nc_get_var` only sets the data element of the list. -/
theorem R_nc_get_var_switch_frame (L : NcLib) (retlist : RetList) (ncid varid : Int)
    (ndims : Nat) (cstart ccount : List Nat) (arrlen : Nat) (xtype rawchar : Int) :
    (R_nc_get_var_switch L retlist ncid varid ndims cstart ccount arrlen xtype
      rawchar).retlist.dim = retlist.dim ∧
    (R_nc_get_var_switch L retlist ncid varid ndims cstart ccount arrlen xtype
      rawchar).retlist.status = retlist.status := by
  unfold R_nc_get_var_switch
  simp only [checked_read]
  constructor
  · repeat' split
    all_goals rfl
  · repeat' split
    all_goals rfl

/-- The `switch` of `R_nc_get_var` for character data in raw mode. -/
theorem R_nc_get_var_switch_raw (L : NcLib) (retlist : RetList) (ncid varid : Int)
    (ndims : Nat) (cstart ccount : List Nat) (arrlen : Nat) (xtype rawchar : Int)
    (hx : xtype = NC_CHAR) (hr : rawchar ≠ 0) :
    (R_nc_get_var_switch L retlist ncid varid ndims cstart ccount arrlen xtype rawchar).rank
      = ndims ∧
    ∃ xs, (R_nc_get_var_switch L retlist ncid varid ndims cstart ccount arrlen xtype
        rawchar).retlist.data = .raw xs ∧ xs.length = arrlen ∧
      ((R_nc_get_var_switch L retlist ncid varid ndims cstart ccount arrlen xtype
        rawchar).returned = none →
        xs = fillBuf arrlen (L.nc_get_vara_text ncid varid cstart ccount).2 0) := by
  unfold R_nc_get_var_switch
  simp only [hx, hr, if_true, checked_read, ne_eq, not_false_eq_true]
  by_cases ha : arrlen > 0
  · simp only [ha, if_true]
    split
    · exact ⟨rfl, _, rfl, fillBuf_length _ _ _, fun _ => rfl⟩
    · exact ⟨rfl, _, rfl, List.length_replicate _ _, fun h => by simp at h⟩
  · rw [if_neg ha]
    have h0 : arrlen = 0 := by omega
    refine ⟨rfl, _, rfl, List.length_replicate _ _, fun _ => ?_⟩
    subst h0
    rfl

/-- The `switch` of `R_nc_get_var` for character data in string mode. -/
theorem R_nc_get_var_switch_str (L : NcLib) (retlist : RetList) (ncid varid : Int)
    (ndims : Nat) (cstart ccount : List Nat) (arrlen : Nat) (xtype rawchar : Int)
    (hx : xtype = NC_CHAR) (hr : rawchar = 0) :
    (R_nc_get_var_switch L retlist ncid varid ndims cstart ccount arrlen xtype rawchar).rank
      = stringRank ndims ∧
    ∃ xs, (R_nc_get_var_switch L retlist ncid varid ndims cstart ccount arrlen xtype
        rawchar).retlist.data = .str xs ∧ xs.length = stringCount ndims ccount ∧
      (arrlen = 0 → xs = List.replicate (stringCount ndims ccount) [] ∧
        (R_nc_get_var_switch L retlist ncid varid ndims cstart ccount arrlen xtype
          rawchar).returned = none) ∧
      ((R_nc_get_var_switch L retlist ncid varid ndims cstart ccount arrlen xtype
        rawchar).returned = none → 0 < arrlen →
        xs = extractStrings (fillBuf arrlen (L.nc_get_vara_text ncid varid cstart ccount).2 0)
          (stringCount ndims ccount) (stringWidth ndims ccount)) := by
  unfold R_nc_get_var_switch
  simp only [hx, hr, if_true, checked_read, ne_eq, not_true_eq_false, if_false]
  by_cases ha : arrlen > 0
  · simp only [ha, if_true]
    split
    · exact ⟨rfl, _, rfl, (extractStrings_spec _ _ _).1, fun h0 => absurd h0 (by omega),
        fun _ _ => rfl⟩
    · exact ⟨rfl, _, rfl, List.length_replicate _ _, fun h0 => absurd h0 (by omega),
        fun h => by simp at h⟩
  · rw [if_neg ha]
    exact ⟨rfl, _, rfl, List.length_replicate _ _, fun _ => ⟨rfl, rfl⟩,
      fun _ h => absurd h ha⟩

/-- The `switch` of `R_nc_get_var` for variable-length strings. -/
theorem R_nc_get_var_switch_vstr (L : NcLib) (retlist : RetList) (ncid varid : Int)
    (ndims : Nat) (cstart ccount : List Nat) (arrlen : Nat) (xtype rawchar : Int)
    (hx : xtype = NC_STRING) :
    (R_nc_get_var_switch L retlist ncid varid ndims cstart ccount arrlen xtype rawchar).rank
      = ndims ∧
    ∃ xs, (R_nc_get_var_switch L retlist ncid varid ndims cstart ccount arrlen xtype
        rawchar).retlist.data = .str xs ∧ xs.length = arrlen := by
  have hne : ¬ NC_STRING = NC_CHAR := by decide
  unfold R_nc_get_var_switch
  simp only [hx, hne, if_true, if_false, checked_read]
  have hl : (forLoop 0 arrlen (fun ii strs => strs.set ii
      (cstr ((fillBuf arrlen (L.nc_get_vara_string ncid varid cstart ccount).2 []).getD ii [])))
      (List.replicate arrlen [])).length = arrlen := by
    rw [(forLoop_store_spec _ _ arrlen (by simp)).1]
    simp
  repeat' split
  all_goals first
    | exact ⟨rfl, _, rfl, hl⟩
    | exact ⟨rfl, _, rfl, List.length_replicate _ _⟩

/-- The `switch` of `R_nc_get_var` for the numeric types. -/
theorem R_nc_get_var_switch_num (L : NcLib) (retlist : RetList) (ncid varid : Int)
    (ndims : Nat) (cstart ccount : List Nat) (arrlen : Nat) (xtype rawchar : Int)
    (hx : isNumericType xtype) :
    (R_nc_get_var_switch L retlist ncid varid ndims cstart ccount arrlen xtype rawchar).rank
      = ndims ∧
    ∃ xs, (R_nc_get_var_switch L retlist ncid varid ndims cstart ccount arrlen xtype
        rawchar).retlist.data = .real xs ∧ xs.length = arrlen := by
  have h1 : ¬ xtype = NC_CHAR := by
    rintro rfl
    revert hx
    decide
  have h2 : ¬ xtype = NC_STRING := by
    rintro rfl
    revert hx
    decide
  unfold isNumericType at hx
  unfold R_nc_get_var_switch
  simp only [h1, h2, hx, if_true, if_false, checked_read]
  repeat' split
  all_goals first
    | exact ⟨rfl, _, rfl, fillBuf_length _ _ _⟩
    | exact ⟨rfl, _, rfl, List.length_replicate _ _⟩

/-- The `switch` of `R_nc_get_var` for any other type. -/
theorem R_nc_get_var_switch_other (L : NcLib) (retlist : RetList) (ncid varid : Int)
    (ndims : Nat) (cstart ccount : List Nat) (arrlen : Nat) (xtype rawchar : Int)
    (h1 : xtype ≠ NC_CHAR) (h2 : xtype ≠ NC_STRING) (h3 : ¬ isNumericType xtype) :
    R_nc_get_var_switch L retlist ncid varid ndims cstart ccount arrlen xtype rawchar =
      ⟨some (RNCRETURN L retlist NC_EBADTYPE), retlist, ndims, []⟩ := by
  unfold isNumericType at h3
  unfold R_nc_get_var_switch
  simp only [h1, h2, h3, if_false]

theorem R_nc_get_var_switch_returned_map (L : NcLib) (retlist : RetList) (ncid varid : Int)
    (ndims : Nat) (cstart ccount : List Nat) (arrlen : Nat) (xtype rawchar : Int) :
    (R_nc_get_var_switch L retlist ncid varid ndims cstart ccount arrlen xtype
        rawchar).returned.map (fun o => (o.data, o.dim)) =
      (R_nc_get_var_switch L retlist ncid varid ndims cstart ccount arrlen xtype
        rawchar).returned.map (fun _ =>
          ((R_nc_get_var_switch L retlist ncid varid ndims cstart ccount arrlen xtype
            rawchar).retlist.data, retlist.dim)) := by
  have hs : ∀ rl st, (R_nc_status L rl st 0).1.data = rl.data ∧
      (R_nc_status L rl st 0).1.dim = rl.dim := by
    intro rl st
    unfold R_nc_status
    constructor
    · repeat' split
      all_goals rfl
    · repeat' split
      all_goals rfl
  unfold R_nc_get_var_switch
  simp only [checked_read]
  repeat' split
  all_goals first
    | rfl
    | simp only [Option.map_some', (hs _ _).1, (hs _ _).2]

/-- A list returned from inside the `switch` carries the data allocated so
far. -/
theorem R_nc_get_var_switch_returned_data (L : NcLib) (retlist : RetList) (ncid varid : Int)
    (ndims : Nat) (cstart ccount : List Nat) (arrlen : Nat) (xtype rawchar : Int)
    (out : RetList)
    (h : (R_nc_get_var_switch L retlist ncid varid ndims cstart ccount arrlen xtype
      rawchar).returned = some out) :
    out.data = (R_nc_get_var_switch L retlist ncid varid ndims cstart ccount arrlen xtype
      rawchar).retlist.data ∧ out.dim = retlist.dim := by
  have hm := R_nc_get_var_switch_returned_map L retlist ncid varid ndims cstart ccount arrlen
    xtype rawchar
  rw [h] at hm
  simp only [Option.map_some', Option.some.injEq, Prod.mk.injEq] at hm
  exact hm

/-- When its first steps succeed, the data that `R_nc_get_var` returns is the
data element that its `switch` set, whether or not the bulk read failed. -/
theorem R_nc_get_var_data_of_reaches (H : Host) (L : NcLib) (nc var start count rawchar : SEXP)
    (h : getVarReaches H L nc var start count) :
    (R_nc_get_var H L nc var start count rawchar).ret.data =
      (getVarSwitch H L nc var start count rawchar).retlist.data := by
  rw [R_nc_get_var_of_reaches H L nc var start count rawchar h]
  split
  · rename_i out hout
    exact (R_nc_get_var_switch_returned_data _ _ _ _ _ _ _ _ _ _ out hout).1
  · rw [(RNCRETURN_data _ _ _).1]
    split <;> rfl

/-- C11, as the code has it: whenever the total element count of the resolved
slice is 0, `R_nc_get_var` returns a data vector of length 0 for every element
type and mode except fixed-width character data read in string mode; in string
mode a successful call returns `strcnt` empty strings, `strcnt` being the
product of all extents but the last. -/
theorem R_nc_get_var_empty_slice (H : Host) (L : NcLib) (nc var start count rawchar : SEXP)
    (h0 : getVarArrlen H L nc var start count = 0) :
    (¬ (getVarXtype H L nc var = NC_CHAR ∧ H.asLogical rawchar = 0) →
      xlength (R_nc_get_var H L nc var start count rawchar).ret.data = 0) ∧
    (getVarXtype H L nc var = NC_CHAR → H.asLogical rawchar = 0 →
      (R_nc_get_var H L nc var start count rawchar).ret.status = some NC_NOERR →
      (R_nc_get_var H L nc var start count rawchar).ret.data =
        .str (List.replicate (stringCount (getVarSlice H L nc var start count).ndims
          (getVarSlice H L nc var start count).ccount) [])) := by
  constructor
  · intro hmode
    by_cases hr : getVarReaches H L nc var start count
    · rw [R_nc_get_var_data_of_reaches H L nc var start count rawchar hr]
      unfold getVarSwitch
      rw [h0]
      by_cases hc : getVarXtype H L nc var = NC_CHAR
      · have hraw : H.asLogical rawchar ≠ 0 := fun e => hmode ⟨hc, e⟩
        obtain ⟨_, xs, hd, hl, _⟩ := R_nc_get_var_switch_raw L RetList.empty (H.asInteger nc)
          (getVarVarid H L nc var) (getVarSlice H L nc var start count).ndims
          (getVarSlice H L nc var start count).cstart (getVarSlice H L nc var start count).ccount
          0 _ _ hc hraw
        rw [hd]
        exact hl
      · by_cases hs : getVarXtype H L nc var = NC_STRING
        · obtain ⟨_, xs, hd, hl⟩ := R_nc_get_var_switch_vstr L RetList.empty (H.asInteger nc)
            (getVarVarid H L nc var) (getVarSlice H L nc var start count).ndims
            (getVarSlice H L nc var start count).cstart
            (getVarSlice H L nc var start count).ccount 0 _ (H.asLogical rawchar) hs
          rw [hd]
          exact hl
        · by_cases hn : isNumericType (getVarXtype H L nc var)
          · obtain ⟨_, xs, hd, hl⟩ := R_nc_get_var_switch_num L RetList.empty (H.asInteger nc)
              (getVarVarid H L nc var) (getVarSlice H L nc var start count).ndims
              (getVarSlice H L nc var start count).cstart
              (getVarSlice H L nc var start count).ccount 0 _ (H.asLogical rawchar) hn
            rw [hd]
            exact hl
          · rw [R_nc_get_var_switch_other L RetList.empty _ _ _ _ _ _ _ _ hc hs hn]
            rfl
    · rw [(R_nc_get_var_of_not_reaches H L nc var start count rawchar hr).2.1]
      rfl
  · intro hc hraw hst
    obtain ⟨hr, _, hdata, _⟩ := R_nc_get_var_of_success H L nc var start count rawchar hst
    rw [hdata]
    unfold getVarSwitch
    obtain ⟨_, xs, hd, _, hz, _⟩ := R_nc_get_var_switch_str L RetList.empty (H.asInteger nc)
      (getVarVarid H L nc var) (getVarSlice H L nc var start count).ndims
      (getVarSlice H L nc var start count).cstart (getVarSlice H L nc var start count).ccount
      (getVarArrlen H L nc var start count) _ _ hc hraw
    rw [hd, (hz h0).1]

/-- Instances of the statement of C11 above on the character variable of
`charLib` with count `c(0, 2)`: read raw the data has length 0, read in string
mode it is two empty strings. -/
theorem R_nc_get_var_empty_slice_witness :
    xlength (R_nc_get_var hostRaw charLib .null (intScalar 0 (by decide)) .null
        (.int [RInt.ofNat 0 (by decide), RInt.ofNat 2 (by decide)]) .null).ret.data = 0 ∧
    (R_nc_get_var hostZero charLib .null (intScalar 0 (by decide)) .null
        (.int [RInt.ofNat 0 (by decide), RInt.ofNat 2 (by decide)]) .null).ret.data =
      .str (List.replicate (stringCount
        (getVarSlice hostZero charLib .null (intScalar 0 (by decide)) .null
          (.int [RInt.ofNat 0 (by decide), RInt.ofNat 2 (by decide)])).ndims
        (getVarSlice hostZero charLib .null (intScalar 0 (by decide)) .null
          (.int [RInt.ofNat 0 (by decide), RInt.ofNat 2 (by decide)])).ccount) []) :=
  ⟨(R_nc_get_var_empty_slice hostRaw charLib .null (intScalar 0 (by decide)) .null
      (.int [RInt.ofNat 0 (by decide), RInt.ofNat 2 (by decide)]) .null (by decide)).1
      (by decide),
   (R_nc_get_var_empty_slice hostZero charLib .null (intScalar 0 (by decide)) .null
      (.int [RInt.ofNat 0 (by decide), RInt.ofNat 2 (by decide)]) .null (by decide)).2
      (by decide) (by decide) (by decide)⟩

/-- C11 fails in string mode: with count `c(0, 2)` (string width 0, two
strings) the slice has 0 elements, the call succeeds, and the data vector has
length 2. -/
theorem R_nc_get_var_empty_slice_two_strings :
    getVarArrlen hostZero charLib .null (intScalar 0 (by decide)) .null
        (.int [RInt.ofNat 0 (by decide), RInt.ofNat 2 (by decide)]) = 0 ∧
    (R_nc_get_var hostZero charLib .null (intScalar 0 (by decide)) .null
        (.int [RInt.ofNat 0 (by decide), RInt.ofNat 2 (by decide)]) .null).ret.status
      = some NC_NOERR ∧
    (R_nc_get_var hostZero charLib .null (intScalar 0 (by decide)) .null
        (.int [RInt.ofNat 0 (by decide), RInt.ofNat 2 (by decide)]) .null).ret.data
      = .str [[], []] ∧
    xlength (R_nc_get_var hostZero charLib .null (intScalar 0 (by decide)) .null
        (.int [RInt.ofNat 0 (by decide), RInt.ofNat 2 (by decide)]) .null).ret.data = 2 := by
  decide

theorem cutAtZero_of_no_zero (w : List Nat) (h : ∀ c ∈ w, c ≠ 0) : cutAtZero w = w := by
  unfold cutAtZero
  rw [List.takeWhile_eq_self_iff]
  intro c hc
  simpa using h c hc

theorem stringCount_le (ndims : Nat) (ccount : List Nat) (h : 1 ≤ ndims) :
    stringCount ndims ccount = extentProduct (ndims - 1) ccount % SIZE_MOD ∧
    stringWidth ndims ccount = ccount.getD (ndims - 1) 0 ∧
    extentProduct ndims ccount
      = extentProduct (ndims - 1) ccount * ccount.getD (ndims - 1) 0 := by
  have hpos : ndims > 0 := h
  refine ⟨?_, ?_, ?_⟩
  · unfold stringCount
    rw [if_pos hpos, R_nc_length_eq_mod]
  · unfold stringWidth
    rw [if_pos hpos]
  · obtain ⟨m, rfl⟩ : ∃ m, ndims = m + 1 := ⟨ndims - 1, by omega⟩
    rw [extentProduct_succ]
    rfl

/-- Without wrap-around, string `k` starts at byte `k * strlen`. -/
theorem string_offset_lt (ndims : Nat) (ccount : List Nat) (h : 1 ≤ ndims)
    (hfit : extentProduct ndims ccount < SIZE_MOD) (k : Nat)
    (hk : k < stringCount ndims ccount) :
    (k * stringWidth ndims ccount) % SIZE_MOD = k * stringWidth ndims ccount := by
  obtain ⟨h1, h2, h3⟩ := stringCount_le ndims ccount h
  apply Nat.mod_eq_of_lt
  rw [h2]
  by_cases hw : ccount.getD (ndims - 1) 0 = 0
  · rw [hw, Nat.mul_zero]
    exact Nat.two_pow_pos 64
  · have hk2 : k < extentProduct (ndims - 1) ccount := by
      rw [h1] at hk
      exact Nat.lt_of_lt_of_le hk (Nat.mod_le _ _)
    have : k * ccount.getD (ndims - 1) 0
        ≤ extentProduct (ndims - 1) ccount * ccount.getD (ndims - 1) 0 :=
      Nat.mul_le_mul_right _ (Nat.le_of_lt hk2)
    rw [h3] at hfit
    omega

/-- C12: in string mode, for a variable of rank at least 1 and a non-empty
slice whose element count does not wrap, string `k` of a successful
`R_nc_get_var` call, for every `k` below the string count, is the window of
`strlen` bytes of the flat buffer that starts at `k * strlen`, cut before its
first zero byte; it is the whole window when the window holds no zero byte. -/
theorem R_nc_get_var_string_window (H : Host) (L : NcLib) (nc var start count rawchar : SEXP)
    (k : Nat)
    (hst : (R_nc_get_var H L nc var start count rawchar).ret.status = some NC_NOERR)
    (hx : getVarXtype H L nc var = NC_CHAR) (hraw : H.asLogical rawchar = 0)
    (hrank : 1 ≤ (getVarSlice H L nc var start count).ndims)
    (hne : 0 < getVarArrlen H L nc var start count)
    (hfit : extentProduct (getVarSlice H L nc var start count).ndims
      (getVarSlice H L nc var start count).ccount < SIZE_MOD)
    (hk : k < stringCount (getVarSlice H L nc var start count).ndims
      (getVarSlice H L nc var start count).ccount) :
    ∃ strs, (R_nc_get_var H L nc var start count rawchar).ret.data = .str strs ∧
      strs.length = stringCount (getVarSlice H L nc var start count).ndims
        (getVarSlice H L nc var start count).ccount ∧
      strs.getD k [] = cutAtZero (stringWindow (getVarBuffer H L nc var start count)
        (stringWidth (getVarSlice H L nc var start count).ndims
          (getVarSlice H L nc var start count).ccount) k) ∧
      ((∀ c ∈ stringWindow (getVarBuffer H L nc var start count)
          (stringWidth (getVarSlice H L nc var start count).ndims
            (getVarSlice H L nc var start count).ccount) k, c ≠ 0) →
        strs.getD k [] = stringWindow (getVarBuffer H L nc var start count)
          (stringWidth (getVarSlice H L nc var start count).ndims
            (getVarSlice H L nc var start count).ccount) k) := by
  obtain ⟨_, hret, hdata, _⟩ := R_nc_get_var_of_success H L nc var start count rawchar hst
  unfold getVarSwitch at hret hdata
  obtain ⟨_, xs, hd, hl, _, hx2⟩ := R_nc_get_var_switch_str L RetList.empty (H.asInteger nc)
    (getVarVarid H L nc var) (getVarSlice H L nc var start count).ndims
    (getVarSlice H L nc var start count).cstart (getVarSlice H L nc var start count).ccount
    (getVarArrlen H L nc var start count) _ _ hx hraw
  have hxs := hx2 hret hne
  have hkey : xs.getD k [] = cutAtZero (stringWindow (getVarBuffer H L nc var start count)
      (stringWidth (getVarSlice H L nc var start count).ndims
        (getVarSlice H L nc var start count).ccount) k) := by
    rw [hxs, (extractStrings_spec _ _ _).2 k hk, take_strnlen,
      string_offset_lt _ _ hrank hfit k hk]
    rfl
  refine ⟨xs, by rw [hdata, hd], hl, hkey, fun hno => ?_⟩
  rw [hkey, cutAtZero_of_no_zero _ hno]

/-- The example of C12: extents `[2, 3]` over the buffer `"ab\0cd\0"` give the
strings `"ab"` and `"cd"`. -/
theorem R_nc_get_var_string_window_witness :
    (∃ strs, (R_nc_get_var hostZero charLib .null (intScalar 0 (by decide)) .null .null
        .null).ret.data = .str strs ∧
      strs.length = stringCount
        (getVarSlice hostZero charLib .null (intScalar 0 (by decide)) .null .null).ndims
        (getVarSlice hostZero charLib .null (intScalar 0 (by decide)) .null .null).ccount ∧
      strs.getD 1 [] = cutAtZero (stringWindow
        (getVarBuffer hostZero charLib .null (intScalar 0 (by decide)) .null .null)
        (stringWidth
          (getVarSlice hostZero charLib .null (intScalar 0 (by decide)) .null .null).ndims
          (getVarSlice hostZero charLib .null (intScalar 0 (by decide)) .null .null).ccount) 1) ∧
      ((∀ c ∈ stringWindow
          (getVarBuffer hostZero charLib .null (intScalar 0 (by decide)) .null .null)
          (stringWidth
            (getVarSlice hostZero charLib .null (intScalar 0 (by decide)) .null .null).ndims
            (getVarSlice hostZero charLib .null (intScalar 0 (by decide)) .null .null).ccount) 1,
          c ≠ 0) →
        strs.getD 1 [] = stringWindow
          (getVarBuffer hostZero charLib .null (intScalar 0 (by decide)) .null .null)
          (stringWidth
            (getVarSlice hostZero charLib .null (intScalar 0 (by decide)) .null .null).ndims
            (getVarSlice hostZero charLib .null (intScalar 0 (by decide)) .null .null).ccount)
          1)) ∧
    (getVarSlice hostZero charLib .null (intScalar 0 (by decide)) .null .null).ccount.take 2
      = [2, 3] ∧
    getVarBuffer hostZero charLib .null (intScalar 0 (by decide)) .null .null
      = [97, 98, 0, 99, 100, 0] ∧
    (R_nc_get_var hostZero charLib .null (intScalar 0 (by decide)) .null .null .null).ret.data
      = .str [[97, 98], [99, 100]] :=
  ⟨R_nc_get_var_string_window hostZero charLib .null (intScalar 0 (by decide)) .null .null
      .null 1 (by decide) (by decide) (by decide) (by decide) (by decide) (by decide)
      (by decide),
    by decide, by decide, by decide⟩

/-- C13, as the code has it: in string mode with rank `n ≥ 1`, `R_nc_get_var`
returns `strcnt` strings, with string width `strlen = ccount[n-1]` and string
count `strcnt` the product of `ccount[0..n-2]` reduced modulo `2 ^ 64`, so that
`strcnt * strlen` reduced modulo `2 ^ 64` is the total element count; when the
product of all extents is below `2 ^ 64`, `strcnt * strlen` equals the total
element count, and `strcnt = totalElements / strlen` whenever `strlen > 0`. -/
theorem R_nc_get_var_string_sizes (H : Host) (L : NcLib) (nc var start count rawchar : SEXP)
    (hr : getVarReaches H L nc var start count)
    (hx : getVarXtype H L nc var = NC_CHAR) (hraw : H.asLogical rawchar = 0)
    (hrank : 1 ≤ (getVarSlice H L nc var start count).ndims) :
    (∃ strs, (R_nc_get_var H L nc var start count rawchar).ret.data = .str strs ∧
      strs.length = stringCount (getVarSlice H L nc var start count).ndims
        (getVarSlice H L nc var start count).ccount) ∧
    stringWidth (getVarSlice H L nc var start count).ndims
        (getVarSlice H L nc var start count).ccount
      = (getVarSlice H L nc var start count).ccount.getD
          ((getVarSlice H L nc var start count).ndims - 1) 0 ∧
    stringCount (getVarSlice H L nc var start count).ndims
        (getVarSlice H L nc var start count).ccount
      = extentProduct ((getVarSlice H L nc var start count).ndims - 1)
          (getVarSlice H L nc var start count).ccount % SIZE_MOD ∧
    (stringCount (getVarSlice H L nc var start count).ndims
        (getVarSlice H L nc var start count).ccount
      * stringWidth (getVarSlice H L nc var start count).ndims
        (getVarSlice H L nc var start count).ccount) % SIZE_MOD
      = getVarArrlen H L nc var start count ∧
    (extentProduct (getVarSlice H L nc var start count).ndims
        (getVarSlice H L nc var start count).ccount < SIZE_MOD →
      stringCount (getVarSlice H L nc var start count).ndims
          (getVarSlice H L nc var start count).ccount
        * stringWidth (getVarSlice H L nc var start count).ndims
          (getVarSlice H L nc var start count).ccount
        = getVarArrlen H L nc var start count ∧
      (0 < stringWidth (getVarSlice H L nc var start count).ndims
          (getVarSlice H L nc var start count).ccount →
        stringCount (getVarSlice H L nc var start count).ndims
            (getVarSlice H L nc var start count).ccount
          = getVarArrlen H L nc var start count
            / stringWidth (getVarSlice H L nc var start count).ndims
              (getVarSlice H L nc var start count).ccount)) := by
  obtain ⟨h1, h2, h3⟩ := stringCount_le (getVarSlice H L nc var start count).ndims
    (getVarSlice H L nc var start count).ccount hrank
  have harr : getVarArrlen H L nc var start count
      = extentProduct (getVarSlice H L nc var start count).ndims
          (getVarSlice H L nc var start count).ccount % SIZE_MOD := by
    unfold getVarArrlen
    rw [R_nc_length_eq_mod]
  refine ⟨?_, h2, h1, ?_, ?_⟩
  · rw [R_nc_get_var_data_of_reaches H L nc var start count rawchar hr]
    unfold getVarSwitch
    obtain ⟨_, xs, hd, hl, _⟩ := R_nc_get_var_switch_str L RetList.empty (H.asInteger nc)
      (getVarVarid H L nc var) (getVarSlice H L nc var start count).ndims
      (getVarSlice H L nc var start count).cstart (getVarSlice H L nc var start count).ccount
      (getVarArrlen H L nc var start count) _ _ hx hraw
    exact ⟨xs, hd, hl⟩
  · rw [harr, h3, h1, h2, Nat.mod_mul_mod]
  · intro hfit
    have hmul : stringCount (getVarSlice H L nc var start count).ndims
          (getVarSlice H L nc var start count).ccount
        * stringWidth (getVarSlice H L nc var start count).ndims
          (getVarSlice H L nc var start count).ccount
        = getVarArrlen H L nc var start count := by
      rw [harr, Nat.mod_eq_of_lt hfit, h3, h1, h2]
      by_cases hw : (getVarSlice H L nc var start count).ccount.getD
          ((getVarSlice H L nc var start count).ndims - 1) 0 = 0
      · rw [hw, Nat.mul_zero, Nat.mul_zero]
      · have hle : extentProduct ((getVarSlice H L nc var start count).ndims - 1)
            (getVarSlice H L nc var start count).ccount
            ≤ extentProduct ((getVarSlice H L nc var start count).ndims - 1)
              (getVarSlice H L nc var start count).ccount
              * (getVarSlice H L nc var start count).ccount.getD
                ((getVarSlice H L nc var start count).ndims - 1) 0 :=
          Nat.le_mul_of_pos_right _ (Nat.pos_of_ne_zero hw)
        rw [h3] at hfit
        rw [Nat.mod_eq_of_lt (Nat.lt_of_le_of_lt hle hfit)]
    refine ⟨hmul, fun hpos => ?_⟩
    rw [← hmul, Nat.mul_div_cancel _ hpos]

/-- The sizes of C13 on the character variable of `charLib` read whole: two
strings of width 3 for 6 elements. -/
theorem R_nc_get_var_string_sizes_witness :
    stringCount
        (getVarSlice hostZero charLib .null (intScalar 0 (by decide)) .null .null).ndims
        (getVarSlice hostZero charLib .null (intScalar 0 (by decide)) .null .null).ccount
      * stringWidth
        (getVarSlice hostZero charLib .null (intScalar 0 (by decide)) .null .null).ndims
        (getVarSlice hostZero charLib .null (intScalar 0 (by decide)) .null .null).ccount
      = getVarArrlen hostZero charLib .null (intScalar 0 (by decide)) .null .null ∧
    stringCount
        (getVarSlice hostZero charLib .null (intScalar 0 (by decide)) .null .null).ndims
        (getVarSlice hostZero charLib .null (intScalar 0 (by decide)) .null .null).ccount = 2 ∧
    stringWidth
        (getVarSlice hostZero charLib .null (intScalar 0 (by decide)) .null .null).ndims
        (getVarSlice hostZero charLib .null (intScalar 0 (by decide)) .null .null).ccount = 3 ∧
    getVarArrlen hostZero charLib .null (intScalar 0 (by decide)) .null .null = 6 :=
  ⟨((R_nc_get_var_string_sizes hostZero charLib .null (intScalar 0 (by decide)) .null .null
      .null (by decide) (by decide) (by decide) (by decide)).2.2.2.2 (by decide)).1,
    by decide, by decide, by decide⟩

/-- C13 fails when the element count wraps: with count `c(2 ^ 32 + 1, 2 ^ 32)`
the string width is `2 ^ 32 + 1` and the string count `2 ^ 32`, but the total
element count is `2 ^ 32`: it is not their product, and the string count is
not the total divided by the width. -/
theorem R_nc_get_var_string_sizes_wrap :
    getVarReaches hostZero charLib .null (intScalar 0 (by decide)) .null wrapCount ∧
    stringWidth
        (getVarSlice hostZero charLib .null (intScalar 0 (by decide)) .null wrapCount).ndims
        (getVarSlice hostZero charLib .null (intScalar 0 (by decide)) .null wrapCount).ccount
      = 4294967297 ∧
    stringCount
        (getVarSlice hostZero charLib .null (intScalar 0 (by decide)) .null wrapCount).ndims
        (getVarSlice hostZero charLib .null (intScalar 0 (by decide)) .null wrapCount).ccount
      * stringWidth
        (getVarSlice hostZero charLib .null (intScalar 0 (by decide)) .null wrapCount).ndims
        (getVarSlice hostZero charLib .null (intScalar 0 (by decide)) .null wrapCount).ccount
      ≠ getVarArrlen hostZero charLib .null (intScalar 0 (by decide)) .null wrapCount ∧
    stringCount
        (getVarSlice hostZero charLib .null (intScalar 0 (by decide)) .null wrapCount).ndims
        (getVarSlice hostZero charLib .null (intScalar 0 (by decide)) .null wrapCount).ccount
      ≠ getVarArrlen hostZero charLib .null (intScalar 0 (by decide)) .null wrapCount
        / stringWidth
          (getVarSlice hostZero charLib .null (intScalar 0 (by decide)) .null wrapCount).ndims
          (getVarSlice hostZero charLib .null (intScalar 0 (by decide)) .null wrapCount).ccount := by
  decide

theorem list_eq_singleton {α : Type} (xs : List α) (d x : α) (hl : xs.length = 1)
    (h0 : xs.getD 0 d = x) : xs = [x] := by
  match xs, hl with
  | [y], _ =>
    simp only [List.getD_cons_zero] at h0
    rw [h0]

/-- C14, as the code has it: for a scalar (rank 0) fixed-width character
variable read in string mode, a successful `R_nc_get_var` call returns exactly
one string: the stored byte when it is not zero, and the empty string when the
stored byte is zero. -/
theorem R_nc_get_var_scalar_char (H : Host) (L : NcLib) (nc var start count rawchar : SEXP)
    (hst : (R_nc_get_var H L nc var start count rawchar).ret.status = some NC_NOERR)
    (hx : getVarXtype H L nc var = NC_CHAR) (hraw : H.asLogical rawchar = 0)
    (hrank : (getVarSlice H L nc var start count).ndims = 0) :
    getVarArrlen H L nc var start count = 1 ∧
    ((getVarBuffer H L nc var start count).getD 0 0 ≠ 0 →
      (R_nc_get_var H L nc var start count rawchar).ret.data
        = .str [[(getVarBuffer H L nc var start count).getD 0 0]]) ∧
    ((getVarBuffer H L nc var start count).getD 0 0 = 0 →
      (R_nc_get_var H L nc var start count rawchar).ret.data = .str [[]]) := by
  have harr : getVarArrlen H L nc var start count = 1 := by
    unfold getVarArrlen
    rw [hrank]
    rfl
  obtain ⟨_, hret, hdata, _⟩ := R_nc_get_var_of_success H L nc var start count rawchar hst
  unfold getVarSwitch at hret hdata
  obtain ⟨_, xs, hd, hl, _, hx2⟩ := R_nc_get_var_switch_str L RetList.empty (H.asInteger nc)
    (getVarVarid H L nc var) (getVarSlice H L nc var start count).ndims
    (getVarSlice H L nc var start count).cstart (getVarSlice H L nc var start count).ccount
    (getVarArrlen H L nc var start count) _ _ hx hraw
  have hxs := hx2 hret (by rw [harr]; exact Nat.one_pos)
  have hcnt : stringCount (getVarSlice H L nc var start count).ndims
      (getVarSlice H L nc var start count).ccount = 1 := by
    rw [hrank]
    rfl
  have hwid : stringWidth (getVarSlice H L nc var start count).ndims
      (getVarSlice H L nc var start count).ccount = 1 := by
    rw [hrank]
    rfl
  have hbuf : getVarBuffer H L nc var start count
      = [(getVarBuffer H L nc var start count).getD 0 0] :=
    list_eq_singleton _ 0 _ (by unfold getVarBuffer; rw [fillBuf_length, harr]) rfl
  have hkey : xs = [cutAtZero [(getVarBuffer H L nc var start count).getD 0 0]] := by
    apply list_eq_singleton xs [] _ (by rw [hl, hcnt])
    rw [hxs, hcnt, hwid, (extractStrings_spec _ 1 1).2 0 Nat.one_pos, take_strnlen]
    have : fillBuf (getVarArrlen H L nc var start count)
        (L.nc_get_vara_text (H.asInteger nc) (getVarVarid H L nc var)
          (getVarSlice H L nc var start count).cstart
          (getVarSlice H L nc var start count).ccount).2 0
        = getVarBuffer H L nc var start count := rfl
    rw [this, hbuf]
    rfl
  refine ⟨harr, fun hb => ?_, fun hb => ?_⟩
  · rw [hdata, hd, hkey, cutAtZero_of_no_zero _ (fun c hc => by
      rw [List.mem_singleton] at hc
      rw [hc]
      exact hb)]
  · rw [hdata, hd, hkey, hb]
    rfl

/-- Instances of the statement of C14 above: a scalar character variable
holding `"a"` is read as the string `"a"`, one holding the zero byte as the
empty string. -/
theorem R_nc_get_var_scalar_char_witness :
    (R_nc_get_var hostZero (scalarCharLib 97) .null (intScalar 0 (by decide)) .null .null
        .null).ret.data
      = .str [[(getVarBuffer hostZero (scalarCharLib 97) .null (intScalar 0 (by decide)) .null
          .null).getD 0 0]] ∧
    (R_nc_get_var hostZero (scalarCharLib 97) .null (intScalar 0 (by decide)) .null .null
        .null).ret.data = .str [[97]] ∧
    (R_nc_get_var hostZero (scalarCharLib 0) .null (intScalar 0 (by decide)) .null .null
        .null).ret.data = .str [[]] :=
  ⟨(R_nc_get_var_scalar_char hostZero (scalarCharLib 97) .null (intScalar 0 (by decide)) .null
      .null .null (by decide) (by decide) (by decide) (by decide)).2.1 (by decide),
    by decide,
    (R_nc_get_var_scalar_char hostZero (scalarCharLib 0) .null (intScalar 0 (by decide)) .null
      .null .null (by decide) (by decide) (by decide) (by decide)).2.2 (by decide)⟩

/-- C14 fails for the zero byte: a scalar character variable that holds the
byte 0 is read, successfully and in string mode, as one string of length 0. -/
theorem R_nc_get_var_scalar_char_zero :
    (getVarSlice hostZero (scalarCharLib 0) .null (intScalar 0 (by decide)) .null .null).ndims
      = 0 ∧
    (R_nc_get_var hostZero (scalarCharLib 0) .null (intScalar 0 (by decide)) .null .null
        .null).ret.status = some NC_NOERR ∧
    (STRINGS (R_nc_get_var hostZero (scalarCharLib 0) .null (intScalar 0 (by decide)) .null
        .null .null).ret.data).map List.length = [0] := by
  decide

theorem size2int_of_lt (c : Nat) (h : c < 2147483648) : size2int c = (c : Int) := by
  unfold size2int INT_MOD
  have h1 : c % 2 ^ 32 = c := Nat.mod_eq_of_lt (by omega)
  rw [h1, if_pos (by omega)]

/-- The output rank of a successful `R_nc_get_var` call. -/
theorem R_nc_get_var_rank_of_success (H : Host) (L : NcLib)
    (nc var start count rawchar : SEXP)
    (hst : (R_nc_get_var H L nc var start count rawchar).ret.status = some NC_NOERR) :
    (¬ (getVarXtype H L nc var = NC_CHAR ∧ H.asLogical rawchar = 0) →
      (getVarSwitch H L nc var start count rawchar).rank
        = (getVarSlice H L nc var start count).ndims) ∧
    (getVarXtype H L nc var = NC_CHAR → H.asLogical rawchar = 0 →
      (getVarSwitch H L nc var start count rawchar).rank
        = stringRank (getVarSlice H L nc var start count).ndims) := by
  obtain ⟨_, hret, _, _⟩ := R_nc_get_var_of_success H L nc var start count rawchar hst
  unfold getVarSwitch at hret ⊢
  constructor
  · intro hmode
    by_cases hc : getVarXtype H L nc var = NC_CHAR
    · have hraw : H.asLogical rawchar ≠ 0 := fun e => hmode ⟨hc, e⟩
      exact (R_nc_get_var_switch_raw L RetList.empty _ _ _ _ _ _ _ _ hc hraw).1
    · by_cases hs : getVarXtype H L nc var = NC_STRING
      · exact (R_nc_get_var_switch_vstr L RetList.empty _ _ _ _ _ _ _ _ hs).1
      · by_cases hn : isNumericType (getVarXtype H L nc var)
        · exact (R_nc_get_var_switch_num L RetList.empty _ _ _ _ _ _ _ _ hn).1
        · rw [R_nc_get_var_switch_other L RetList.empty _ _ _ _ _ _ _ _ hc hs hn] at hret
          simp at hret
  · intro hc hraw
    exact (R_nc_get_var_switch_str L RetList.empty _ _ _ _ _ _ _ _ hc hraw).1

/-- The dimension attribute of a successful `R_nc_get_var` call, from the
output rank. -/
theorem R_nc_get_var_dim_of_success (H : Host) (L : NcLib)
    (nc var start count rawchar : SEXP)
    (hst : (R_nc_get_var H L nc var start count rawchar).ret.status = some NC_NOERR) :
    ((getVarSwitch H L nc var start count rawchar).rank = 0 →
      (R_nc_get_var H L nc var start count rawchar).ret.dim = none) ∧
    (0 < (getVarSwitch H L nc var start count rawchar).rank →
      (R_nc_get_var H L nc var start count rawchar).ret.dim
        = some (dimAttr (getVarSwitch H L nc var start count rawchar).rank
          (getVarSlice H L nc var start count).ccount)) := by
  obtain ⟨_, _, _, hdim⟩ := R_nc_get_var_of_success H L nc var start count rawchar hst
  constructor
  · intro h0
    rw [hdim, if_neg (by omega)]
    unfold getVarSwitch
    rw [(R_nc_get_var_switch_frame _ _ _ _ _ _ _ _ _ _).1]
    rfl
  · intro hpos
    rw [hdim, if_pos hpos]

/-- C15, as the code has it: the `dim` attribute that a successful
`R_nc_get_var` call attaches lists the slice extents, converted to `int`, in
reversed storage order. For numeric, `NC_STRING` and raw-character results of
rank `n ≥ 1`, `dim` has `n` entries with `dim[j] = (int) ccount[n-1-j]`; for
string-mode character results of rank `n ≥ 2` it has `n - 1` entries with
`dim[j] = (int) ccount[n-2-j]`; no attribute is attached when the output rank
is 0. The conversion keeps every extent below `2 ^ 31`. -/
theorem R_nc_get_var_dim_attribute (H : Host) (L : NcLib)
    (nc var start count rawchar : SEXP)
    (hst : (R_nc_get_var H L nc var start count rawchar).ret.status = some NC_NOERR) :
    (¬ (getVarXtype H L nc var = NC_CHAR ∧ H.asLogical rawchar = 0) →
      ((getVarSlice H L nc var start count).ndims = 0 →
        (R_nc_get_var H L nc var start count rawchar).ret.dim = none) ∧
      (1 ≤ (getVarSlice H L nc var start count).ndims →
        ∃ d, (R_nc_get_var H L nc var start count rawchar).ret.dim = some d ∧
          d.length = (getVarSlice H L nc var start count).ndims ∧
          ∀ j, j < (getVarSlice H L nc var start count).ndims →
            d.getD j 0 = size2int ((getVarSlice H L nc var start count).ccount.getD
              ((getVarSlice H L nc var start count).ndims - 1 - j) 0))) ∧
    (getVarXtype H L nc var = NC_CHAR → H.asLogical rawchar = 0 →
      ((getVarSlice H L nc var start count).ndims ≤ 1 →
        (R_nc_get_var H L nc var start count rawchar).ret.dim = none) ∧
      (2 ≤ (getVarSlice H L nc var start count).ndims →
        ∃ d, (R_nc_get_var H L nc var start count rawchar).ret.dim = some d ∧
          d.length = (getVarSlice H L nc var start count).ndims - 1 ∧
          ∀ j, j < (getVarSlice H L nc var start count).ndims - 1 →
            d.getD j 0 = size2int ((getVarSlice H L nc var start count).ccount.getD
              ((getVarSlice H L nc var start count).ndims - 2 - j) 0))) ∧
    (∀ c : Nat, c < 2147483648 → size2int c = (c : Int)) := by
  obtain ⟨r1, r2⟩ := R_nc_get_var_rank_of_success H L nc var start count rawchar hst
  obtain ⟨d1, d2⟩ := R_nc_get_var_dim_of_success H L nc var start count rawchar hst
  refine ⟨fun hmode => ⟨fun h0 => ?_, fun h1 => ?_⟩,
    fun hc hraw => ⟨fun h0 => ?_, fun h2 => ?_⟩, size2int_of_lt⟩
  · exact d1 (by rw [r1 hmode]; exact h0)
  · refine ⟨_, d2 (by rw [r1 hmode]; exact h1), ?_, ?_⟩
    · rw [r1 hmode]
      exact (dimAttr_spec _ _).1
    · intro j hj
      rw [r1 hmode]
      exact (dimAttr_spec _ _).2 j hj
  · apply d1
    rw [r2 hc hraw]
    unfold stringRank
    split <;> omega
  · have hr : stringRank (getVarSlice H L nc var start count).ndims
        = (getVarSlice H L nc var start count).ndims - 1 := by
      unfold stringRank
      rw [if_pos (by omega)]
    refine ⟨_, d2 (by rw [r2 hc hraw, hr]; omega), ?_, ?_⟩
    · rw [r2 hc hraw, hr]
      exact (dimAttr_spec _ _).1
    · intro j hj
      rw [r2 hc hraw, hr, (dimAttr_spec _ _).2 j hj]
      have e : (getVarSlice H L nc var start count).ndims - 1 - 1 - j
          = (getVarSlice H L nc var start count).ndims - 2 - j := by omega
      rw [e]

/-- Instances of the statement of C15 above on the character variable of
`charLib`, of extents 2 and 3: read raw the attribute is `c(3, 2)`, read in
string mode it is `c(2)`. -/
theorem R_nc_get_var_dim_attribute_witness :
    (∃ d, (R_nc_get_var hostRaw charLib .null (intScalar 0 (by decide)) .null .null
        .null).ret.dim = some d ∧
      d.length = (getVarSlice hostRaw charLib .null (intScalar 0 (by decide)) .null .null).ndims ∧
      ∀ j, j < (getVarSlice hostRaw charLib .null (intScalar 0 (by decide)) .null .null).ndims →
        d.getD j 0 = size2int
          ((getVarSlice hostRaw charLib .null (intScalar 0 (by decide)) .null .null).ccount.getD
            ((getVarSlice hostRaw charLib .null (intScalar 0 (by decide)) .null .null).ndims
              - 1 - j) 0)) ∧
    (R_nc_get_var hostRaw charLib .null (intScalar 0 (by decide)) .null .null .null).ret.dim
      = some [3, 2] ∧
    (R_nc_get_var hostZero charLib .null (intScalar 0 (by decide)) .null .null .null).ret.dim
      = some [2] :=
  ⟨((R_nc_get_var_dim_attribute hostRaw charLib .null (intScalar 0 (by decide)) .null .null
      .null (by decide)).1 (by decide)).2 (by decide),
    by decide, by decide⟩

/-- C15 fails for an extent of `2 ^ 31` or more: read raw with count
`c(2 ^ 32 + 5, 0)`, the call succeeds on an empty slice whose extents in
storage order are 0 and `2 ^ 32 + 5`, and the attribute is `c(5, 0)`. -/
theorem R_nc_get_var_dim_attribute_wraps :
    (R_nc_get_var hostRaw charLib .null (intScalar 0 (by decide)) .null wideEmptyCount
        .null).ret.status = some NC_NOERR ∧
    (getVarSlice hostRaw charLib .null (intScalar 0 (by decide)) .null wideEmptyCount).ccount.take 2
      = [0, 4294967301] ∧
    (R_nc_get_var hostRaw charLib .null (intScalar 0 (by decide)) .null wideEmptyCount
        .null).ret.dim = some [5, 0] := by
  decide

/-- C18, as the code has it: when the steps of `R_nc_get_var` before its
`switch` succeed (variable lookup, `R_nc_slice`, type query, `R_nc_enddef`),
then for every element type code that is not one of the twelve built-in codes
the call fails with `NC_EBADTYPE`, makes no bulk read and returns no data; and
for each of the ten numeric codes it returns a vector of doubles of length
`totalElements`. -/
theorem R_nc_get_var_type_dispatch (H : Host) (L : NcLib)
    (nc var start count rawchar : SEXP)
    (hr : getVarReaches H L nc var start count) :
    (getVarXtype H L nc var ≠ NC_CHAR → getVarXtype H L nc var ≠ NC_STRING →
      ¬ isNumericType (getVarXtype H L nc var) →
      (R_nc_get_var H L nc var start count rawchar).ret.status = some NC_EBADTYPE ∧
      (R_nc_get_var H L nc var start count rawchar).ret.data = .null ∧
      ∀ c ∈ (R_nc_get_var H L nc var start count rawchar).calls, c.isBulk = false) ∧
    (isNumericType (getVarXtype H L nc var) →
      ∃ xs, (R_nc_get_var H L nc var start count rawchar).ret.data = .real xs ∧
        xs.length = getVarArrlen H L nc var start count) := by
  constructor
  · intro hc hs hn
    have hsw : getVarSwitch H L nc var start count rawchar
        = ⟨some (RNCRETURN L RetList.empty NC_EBADTYPE), RetList.empty,
            (getVarSlice H L nc var start count).ndims, []⟩ := by
      unfold getVarSwitch
      exact R_nc_get_var_switch_other L RetList.empty _ _ _ _ _ _ _ _ hc hs hn
    refine ⟨?_, ?_, ?_⟩
    · rw [R_nc_get_var_of_reaches H L nc var start count rawchar hr, hsw]
      exact RNCRETURN_status _ _ _
    · rw [R_nc_get_var_data_of_reaches H L nc var start count rawchar hr, hsw]
      rfl
    · intro c hcall
      rcases R_nc_get_var_calls H L nc var start count rawchar c hcall with h | h | h | h | h
      · exact R_nc_var_id_calls_not_bulk H L var _ c h
      · exact R_nc_slice_calls_not_bulk H L.toNcMeta start count _ _ _ _ c h
      · rw [h]; rfl
      · rw [h]; rfl
      · have hsw2 := hsw
        unfold getVarSwitch getVarXtype getVarVarid at hsw2
        rw [hsw2] at h
        simp at h
  · intro hn
    rw [R_nc_get_var_data_of_reaches H L nc var start count rawchar hr]
    unfold getVarSwitch
    obtain ⟨_, xs, hd, hl⟩ := R_nc_get_var_switch_num L RetList.empty (H.asInteger nc)
      (getVarVarid H L nc var) (getVarSlice H L nc var start count).ndims
      (getVarSlice H L nc var start count).cstart (getVarSlice H L nc var start count).ccount
      (getVarArrlen H L nc var start count) _ (H.asLogical rawchar) hn
    exact ⟨xs, hd, hl⟩

/-- Instances of the statement of C18 above: a scalar variable of a
user-defined type is refused with `NC_EBADTYPE` and no data, and a scalar
variable of type `NC_DOUBLE` is read as one double. -/
theorem R_nc_get_var_type_dispatch_witness :
    ((R_nc_get_var hostZero (typedLib NC_FIRSTUSERTYPEID NC_NOERR) .null
        (intScalar 0 (by decide)) .null .null .null).ret.status = some NC_EBADTYPE ∧
      (R_nc_get_var hostZero (typedLib NC_FIRSTUSERTYPEID NC_NOERR) .null
        (intScalar 0 (by decide)) .null .null .null).ret.data = .null ∧
      ∀ c ∈ (R_nc_get_var hostZero (typedLib NC_FIRSTUSERTYPEID NC_NOERR) .null
        (intScalar 0 (by decide)) .null .null .null).calls, c.isBulk = false) ∧
    (∃ xs, (R_nc_get_var hostZero (typedLib NC_DOUBLE NC_NOERR) .null
        (intScalar 0 (by decide)) .null .null .null).ret.data = .real xs ∧
      xs.length = getVarArrlen hostZero (typedLib NC_DOUBLE NC_NOERR) .null
        (intScalar 0 (by decide)) .null .null) ∧
    getVarArrlen hostZero (typedLib NC_DOUBLE NC_NOERR) .null
        (intScalar 0 (by decide)) .null .null = 1 :=
  ⟨(R_nc_get_var_type_dispatch hostZero (typedLib NC_FIRSTUSERTYPEID NC_NOERR) .null
      (intScalar 0 (by decide)) .null .null .null (by decide)).1
      (by decide) (by decide) (by decide),
   (R_nc_get_var_type_dispatch hostZero (typedLib NC_DOUBLE NC_NOERR) .null
      (intScalar 0 (by decide)) .null .null .null (by decide)).2 (by decide),
   by decide⟩

/-- C18 fails when an earlier step fails: for a variable of a user-defined
type in a dataset whose `nc_enddef` fails with `NC_EVARSIZE`, the call returns
`NC_EVARSIZE` and not `NC_EBADTYPE`; and for a variable of type `NC_DOUBLE` in
that dataset it returns no vector of doubles. -/
theorem R_nc_get_var_type_dispatch_enddef_fails :
    getVarXtype hostZero (typedLib NC_FIRSTUSERTYPEID NC_EVARSIZE) .null
        (intScalar 0 (by decide)) = NC_FIRSTUSERTYPEID ∧
    (R_nc_get_var hostZero (typedLib NC_FIRSTUSERTYPEID NC_EVARSIZE) .null
        (intScalar 0 (by decide)) .null .null .null).ret.status = some NC_EVARSIZE ∧
    (R_nc_get_var hostZero (typedLib NC_DOUBLE NC_EVARSIZE) .null
        (intScalar 0 (by decide)) .null .null .null).ret.data = .null := by
  decide

theorem sliceCountBody_cases (L : NcMeta) (ncid : Int) (dimids : List Int) (cstart : List Nat)
    (a : Nat) (st : List NcCall × List Nat) :
    (sliceCountBody L ncid dimids cstart a st).1 = none ∧
        (sliceCountBody L ncid dimids cstart a st).2.1 = st.1 ∨
    (∃ q, queryStatus L q = NC_NOERR ∧
        (sliceCountBody L ncid dimids cstart a st).1 = none ∧
        (sliceCountBody L ncid dimids cstart a st).2.1 = st.1 ++ [q]) ∨
    (∃ q s, queryStatus L q = s ∧ s ≠ NC_NOERR ∧
        (sliceCountBody L ncid dimids cstart a st).1 = some s ∧
        (sliceCountBody L ncid dimids cstart a st).2.1 = st.1 ++ [q]) := by
  unfold sliceCountBody
  dsimp only
  split
  · split
    · rename_i h
      exact Or.inr (Or.inr ⟨NcCall.inq_dimlen ncid (dimids.getD a 0), _, rfl, h, rfl, rfl⟩)
    · rename_i h
      exact Or.inr (Or.inl ⟨NcCall.inq_dimlen ncid (dimids.getD a 0),
        not_not.mp h, rfl, rfl⟩)
  · exact Or.inl ⟨rfl, rfl⟩

/-- The log of the last loop of `R_nc_slice`: queries that succeeded, followed
by the failing one when the loop left the function. -/
theorem sliceCount_loop_log (L : NcMeta) (ncid : Int) (dimids : List Int) (cstart : List Nat)
    (is : List Nat) (calls : List NcCall) (cc : List Nat) :
    ∃ extra, (forLoopRet (sliceCountBody L ncid dimids cstart) is (calls, cc)).2.1
        = calls ++ extra ∧
      ((forLoopRet (sliceCountBody L ncid dimids cstart) is (calls, cc)).1 = none →
        ∀ c ∈ extra, queryStatus L c = NC_NOERR) ∧
      (∀ s, (forLoopRet (sliceCountBody L ncid dimids cstart) is (calls, cc)).1 = some s →
        s ≠ NC_NOERR ∧ ∃ pre q, extra = pre ++ [q] ∧ queryStatus L q = s ∧
          ∀ c ∈ pre, queryStatus L c = NC_NOERR) := by
  induction is generalizing calls cc with
  | nil =>
    exact ⟨[], by simp [forLoopRet], fun _ c hc => by simp at hc,
      fun s h => by simp [forLoopRet] at h⟩
  | cons a rest ih =>
    rcases hb : sliceCountBody L ncid dimids cstart a (calls, cc) with ⟨o, calls2, cc2⟩
    have hcases := sliceCountBody_cases L ncid dimids cstart a (calls, cc)
    rw [hb] at hcases
    dsimp only at hcases
    rcases hcases with ⟨h1, h2⟩ | ⟨q, hq, h1, h2⟩ | ⟨q, s, hq, hs, h1, h2⟩
    · subst h1 h2
      rw [forLoopRet_cons_none _ _ _ _ _ hb]
      exact ih _ cc2
    · subst h1 h2
      rw [forLoopRet_cons_none _ _ _ _ _ hb]
      obtain ⟨extra, e1, e2, e3⟩ := ih (calls ++ [q]) cc2
      refine ⟨q :: extra, by rw [e1]; simp, ?_, ?_⟩
      · intro hn c hc
        rcases List.mem_cons.mp hc with rfl | hc
        · exact hq
        · exact e2 hn c hc
      · intro s hs
        obtain ⟨hne, pre, q2, hp, hq2, hall⟩ := e3 s hs
        refine ⟨hne, q :: pre, q2, by rw [hp]; rfl, hq2, ?_⟩
        intro c hc
        rcases List.mem_cons.mp hc with rfl | hc
        · exact hq
        · exact hall c hc
    · subst h1 h2
      rw [forLoopRet_cons_some _ _ _ _ _ _ hb]
      refine ⟨[q], rfl, fun h => by simp at h, ?_⟩
      intro s2 hs2
      simp only [Option.some.injEq] at hs2
      subst hs2
      exact ⟨hs, [], q, rfl, hq, fun c hc => by simp at hc⟩

/-- C19: `R_nc_slice` returns `NC_NOERR` if and only if every library query it
makes succeeds, the variable query first and then the dimension-length
queries; otherwise the query it made last is the first that failed, it
returns the status of that query unchanged, and it made no query after it. -/
theorem R_nc_slice_status_iff (H : Host) (L : NcMeta) (start count : SEXP)
    (ncid varid : Int) (cstart ccount : List Nat) :
    (R_nc_slice H L start count ncid varid cstart ccount).calls.head?
      = some (NcCall.inq_var ncid varid) ∧
    ((R_nc_slice H L start count ncid varid cstart ccount).status = NC_NOERR ↔
      ∀ c ∈ (R_nc_slice H L start count ncid varid cstart ccount).calls,
        queryStatus L c = NC_NOERR) ∧
    ((R_nc_slice H L start count ncid varid cstart ccount).status ≠ NC_NOERR →
      ∃ pre q, (R_nc_slice H L start count ncid varid cstart ccount).calls = pre ++ [q] ∧
        queryStatus L q = (R_nc_slice H L start count ncid varid cstart ccount).status ∧
        ∀ c ∈ pre, queryStatus L c = NC_NOERR) := by
  by_cases hq : (L.nc_inq_var ncid varid).1 = NC_NOERR
  · rw [R_nc_slice_ok_eq H L start count ncid varid cstart ccount hq]
    obtain ⟨extra, e1, e2, e3⟩ := sliceCount_loop_log L ncid (L.nc_inq_var ncid varid).2
      (forLoop 0 (L.nc_inq_var ncid varid).2.length
        (fun ii cs => cs.set ii ((cs.getD ii 0 + SIZE_MOD - 1) % SIZE_MOD))
        (R_nc_size_r2c H start (L.nc_inq_var ncid varid).2.length 1 cstart))
      (List.range (L.nc_inq_var ncid varid).2.length) [NcCall.inq_var ncid varid]
      (R_nc_size_r2c H count (L.nc_inq_var ncid varid).2.length NA_SIZE ccount)
    dsimp only
    rw [e1]
    cases hr : (forLoopRet (sliceCountBody L ncid (L.nc_inq_var ncid varid).2
        (forLoop 0 (L.nc_inq_var ncid varid).2.length
          (fun ii cs => cs.set ii ((cs.getD ii 0 + SIZE_MOD - 1) % SIZE_MOD))
          (R_nc_size_r2c H start (L.nc_inq_var ncid varid).2.length 1 cstart)))
        (List.range (L.nc_inq_var ncid varid).2.length)
        ([NcCall.inq_var ncid varid],
          R_nc_size_r2c H count (L.nc_inq_var ncid varid).2.length NA_SIZE ccount)).1 with
    | none =>
      refine ⟨rfl, ⟨fun _ c hc => ?_, fun _ => rfl⟩, fun h => absurd rfl h⟩
      rcases List.mem_append.mp hc with h | h
      · rw [List.mem_singleton.mp h]
        exact hq
      · exact e2 hr c h
    | some s =>
      obtain ⟨hne, pre, q, hp, hqs, hall⟩ := e3 s hr
      refine ⟨rfl, ⟨fun h => absurd h hne, fun h => ?_⟩, fun _ => ?_⟩
      · exfalso
        apply hne
        rw [← hqs]
        apply h
        rw [hp]
        simp
      · refine ⟨NcCall.inq_var ncid varid :: pre, q, by rw [hp]; rfl, hqs, ?_⟩
        intro c hc
        rcases List.mem_cons.mp hc with rfl | hc
        · exact hq
        · exact hall c hc
  · rw [R_nc_slice_fail_eq H L start count ncid varid cstart ccount hq]
    refine ⟨rfl, ⟨fun h => absurd h hq, fun h => ?_⟩, fun _ => ⟨[], _, rfl, rfl, ?_⟩⟩
    · exact absurd (h _ (List.mem_singleton.mpr rfl)) hq
    · intro c hc
      simp at hc

/-- An instance of C19 on a variable of three dimensions whose second length
query fails: with no count given, `R_nc_slice` returns that status after the
variable query and two length queries, and does not query the third
dimension. -/
theorem R_nc_slice_status_iff_witness :
    (R_nc_slice hostZero brokenDimMeta .null .null 0 0 [0, 0, 0] [0, 0, 0]).status = -46 ∧
    (R_nc_slice hostZero brokenDimMeta .null .null 0 0 [0, 0, 0] [0, 0, 0]).calls
      = [NcCall.inq_var 0 0, NcCall.inq_dimlen 0 0, NcCall.inq_dimlen 0 1] ∧
    ∃ pre q, (R_nc_slice hostZero brokenDimMeta .null .null 0 0 [0, 0, 0] [0, 0, 0]).calls
        = pre ++ [q] ∧
      queryStatus brokenDimMeta q
        = (R_nc_slice hostZero brokenDimMeta .null .null 0 0 [0, 0, 0] [0, 0, 0]).status ∧
      ∀ c ∈ pre, queryStatus brokenDimMeta c = NC_NOERR :=
  ⟨by decide, by decide,
    (R_nc_slice_status_iff hostZero brokenDimMeta .null .null 0 0 [0, 0, 0] [0, 0, 0]).2.2
      (by decide)⟩

/-- C20: `R_nc_status` returns true, and stores in the result list, if and
only if `force` is non-zero or `status` differs from `NC_NOERR`; otherwise it
returns false and the list as it was. When it stores, the status goes to
element 0, the data element is left alone, and a message goes to element 1
exactly when `status` differs from `NC_NOERR`: the text for `E_UNSUPPORTED`,
or else the text of `nc_strerror`. -/
theorem R_nc_status_effect (L : NcLib) (retlist : RetList) (status force : Int) :
    ((R_nc_status L retlist status force).2 ≠ 0 ↔ (force ≠ 0 ∨ status ≠ NC_NOERR)) ∧
    (¬ (force ≠ 0 ∨ status ≠ NC_NOERR) →
      R_nc_status L retlist status force = (retlist, 0)) ∧
    ((force ≠ 0 ∨ status ≠ NC_NOERR) →
      (R_nc_status L retlist status force).2 = 1 ∧
      (R_nc_status L retlist status force).1.status = some status ∧
      (R_nc_status L retlist status force).1.data = retlist.data ∧
      (R_nc_status L retlist status force).1.dim = retlist.dim ∧
      (status = NC_NOERR → (R_nc_status L retlist status force).1.errmsg = retlist.errmsg) ∧
      (status = E_UNSUPPORTED → (R_nc_status L retlist status force).1.errmsg
        = some "Operation requires RNetCDF built with newer netcdf library") ∧
      (status ≠ NC_NOERR → status ≠ E_UNSUPPORTED →
        (R_nc_status L retlist status force).1.errmsg = some (L.nc_strerror status))) := by
  by_cases h : force ≠ 0 ∨ status ≠ NC_NOERR
  · refine ⟨⟨fun _ => h, fun _ => ?_⟩, fun hn => absurd h hn, fun _ => ?_⟩
    · rw [(R_nc_status_spec L retlist status force).1, if_pos h]
      exact one_ne_zero
    · unfold R_nc_status
      rw [if_pos h]
      by_cases hu : status = E_UNSUPPORTED
      · have hne : status ≠ NC_NOERR := by
          rw [hu]
          decide
        rw [if_pos hu]
        exact ⟨rfl, rfl, rfl, rfl, fun e => absurd e hne, fun _ => rfl,
          fun _ e => absurd hu e⟩
      · rw [if_neg hu]
        by_cases hs : status = NC_NOERR
        · rw [if_neg (not_not.mpr hs)]
          exact ⟨rfl, rfl, rfl, rfl, fun _ => rfl, fun e => absurd e hu,
            fun e => absurd hs e⟩
        · rw [if_pos hs]
          exact ⟨rfl, rfl, rfl, rfl, fun e => absurd e hs, fun e => absurd e hu,
            fun _ _ => rfl⟩
  · refine ⟨⟨fun hr => ?_, fun hh => absurd hh h⟩, fun _ => ?_, fun hh => absurd hh h⟩
    · rw [(R_nc_status_spec L retlist status force).1, if_neg h] at hr
      exact absurd rfl hr
    · unfold R_nc_status
      rw [if_neg h]

/-- Instances of C20: without `force` a success leaves the list alone and
returns false; a failure stores the status and the library's message; with
`force` a success stores the status and no message. -/
theorem R_nc_status_effect_witness :
    R_nc_status charLib RetList.empty NC_NOERR 0 = (RetList.empty, 0) ∧
    R_nc_status charLib RetList.empty NC_EBADID 0
      = (⟨some NC_EBADID, some "error", .null, none⟩, 1) ∧
    R_nc_status charLib RetList.empty NC_NOERR 1 = (⟨some NC_NOERR, none, .null, none⟩, 1) :=
  ⟨(R_nc_status_effect charLib RetList.empty NC_NOERR 0).2.1 (by decide), by decide,
    by decide⟩

/-! ## Lemmas on `R_nc_put_vara_text` -/

theorem cstr_of_no_zero (s : List Nat) (h : ∀ c ∈ s, c ≠ 0) : cstr s = s :=
  cutAtZero_of_no_zero s h

theorem strncpy_length (src : List Nat) (n : Nat) : (strncpy src n).length = n := by
  unfold strncpy
  rw [List.length_append, List.length_take, List.length_replicate]
  omega

/-- What `strncpy` stores: the string cut to `n` bytes, or the string padded
with zero bytes. -/
theorem strncpy_spec (src : List Nat) (n : Nat) :
    (n ≤ (cstr src).length → strncpy src n = (cstr src).take n) ∧
    ((cstr src).length < n →
      strncpy src n = cstr src ++ List.replicate (n - (cstr src).length) 0) := by
  unfold strncpy
  constructor
  · intro h
    rw [Nat.sub_eq_zero_of_le h]
    simp
  · intro h
    rw [List.take_of_length_le (Nat.le_of_lt h)]

/-- Storing `bytes` at offset `off` of a buffer that has room for them. -/
theorem writeAt_spec (buf : List Nat) (off : Nat) (bytes : List Nat) (d : Nat)
    (hroom : off + bytes.length ≤ buf.length) :
    (writeAt buf off bytes).length = buf.length ∧
    (∀ k, k < bytes.length → (writeAt buf off bytes).getD (off + k) d = bytes.getD k 0) ∧
    (∀ j, (j < off ∨ off + bytes.length ≤ j) →
      (writeAt buf off bytes).getD j d = buf.getD j d) := by
  obtain ⟨s1, s2, s3⟩ := forLoop_set_spec 0 (fun k => off + k) (fun k => bytes.getD k 0) buf d
    bytes.length (Nat.zero_le _)
    (fun a b _ _ _ _ e => by dsimp only at e; omega)
    (fun a _ ha => by dsimp only; omega)
  unfold writeAt
  refine ⟨s1, fun k hk => s2 k (Nat.zero_le _) hk, fun j hj => s3 j ?_⟩
  intro a _ ha
  omega

/-- The buffer that `R_nc_put_vara_text` builds in string mode, after the
strings `0 .. m-1` have been copied: window `i` holds what `strncpy` stores
for string `i`. -/
theorem putText_loop_spec (strs : List (List Nat)) (n w : Nat) (hfit : n * w < SIZE_MOD)
    (m : Nat) (hm : m ≤ n) :
    (forLoop 0 m (fun i buf => writeAt buf ((i * w) % SIZE_MOD) (strncpy (strs.getD i []) w))
      (List.replicate (n * w) 0)).length = n * w ∧
    ∀ i k, i < m → k < w →
      (forLoop 0 m (fun i buf => writeAt buf ((i * w) % SIZE_MOD) (strncpy (strs.getD i []) w))
        (List.replicate (n * w) 0)).getD (i * w + k) 0 = (strncpy (strs.getD i []) w).getD k 0 := by
  induction m with
  | zero =>
    rw [forLoop_nil _ _ (le_refl _)]
    exact ⟨List.length_replicate _ _, fun i k hi _ => absurd hi (by omega)⟩
  | succ m ih =>
    obtain ⟨i1, i2⟩ := ih (by omega)
    rw [forLoop_succ _ _ (Nat.zero_le _)]
    have hmw : (m + 1) * w ≤ n * w := Nat.mul_le_mul_right _ hm
    have hmw2 : (m + 1) * w = m * w + w := by ring
    have hoff : (m * w) % SIZE_MOD = m * w := Nat.mod_eq_of_lt (by omega)
    rw [hoff]
    obtain ⟨w1, w2, w3⟩ := writeAt_spec
      (forLoop 0 m (fun i buf => writeAt buf ((i * w) % SIZE_MOD) (strncpy (strs.getD i []) w))
        (List.replicate (n * w) 0)) (m * w) (strncpy (strs.getD m []) w) 0
      (by rw [strncpy_length, i1]; omega)
    refine ⟨by rw [w1, i1], ?_⟩
    intro i k hi hk
    by_cases e : i = m
    · subst e
      exact w2 k (by rw [strncpy_length]; exact hk)
    · have hlt : i < m := by omega
      have : (i + 1) * w ≤ m * w := Nat.mul_le_mul_right _ hlt
      have h2 : (i + 1) * w = i * w + w := by ring
      rw [w3 (i * w + k) (Or.inl (by omega))]
      exact i2 i k hlt hk

/-- A list is determined by its length and its entries. -/
theorem list_ext_getD (xs ys : List Nat) (hl : xs.length = ys.length)
    (h : ∀ j, j < xs.length → xs.getD j 0 = ys.getD j 0) : xs = ys := by
  apply List.ext_getElem hl
  intro j h1 h2
  have := h j h1
  rw [List.getD_eq_getElem _ _ h1, List.getD_eq_getElem _ _ h2] at this
  exact this

/-- Window `i` of a buffer of `n` windows of width `w`. -/
theorem stringWindow_spec (buf : List Nat) (n w i : Nat) (hl : buf.length = n * w)
    (hi : i < n) :
    (stringWindow buf w i).length = w ∧
    ∀ k, k < w → (stringWindow buf w i).getD k 0 = buf.getD (i * w + k) 0 := by
  have hmw : (i + 1) * w ≤ n * w := Nat.mul_le_mul_right _ hi
  have hmw2 : (i + 1) * w = i * w + w := by ring
  unfold stringWindow
  constructor
  · rw [List.length_take, List.length_drop, hl]
    omega
  · intro k hk
    simp only [List.getD_eq_getElem?_getD, List.getElem?_take_of_lt hk, List.getElem?_drop]

theorem forLoop_pair (n : Nat) (f g : Nat → Nat) (a b : List Nat) :
    forLoop 0 n (fun i (d : List Nat × List Nat) => (d.1.set i (f i), d.2.set i (g i))) (a, b)
      = (forLoop 0 n (fun i s => s.set i (f i)) a, forLoop 0 n (fun i s => s.set i (g i)) b) := by
  induction n with
  | zero => simp only [forLoop_nil _ _ (le_refl 0)]
  | succ n ih =>
    rw [forLoop_succ _ _ (Nat.zero_le _), forLoop_succ _ _ (Nat.zero_le _),
      forLoop_succ _ _ (Nat.zero_le _), ih]

theorem putTextDims_varsize (start count ndims : SEXP) :
    (putTextDims start count ndims).varsize
      = ((putTextDims start count ndims).tx_num * (putTextDims start count ndims).tx_len)
        % SIZE_MOD := rfl

theorem map_int2size_getD (xs : List Int) (i : Nat) :
    (xs.map int2size).getD i 0 = int2size (xs.getD i 0) := by
  simp only [List.getD_eq_getElem?_getD, List.getElem?_map]
  cases xs[i]? <;> rfl

/-- The sizes that `R_nc_put_vara_text` computes for `n ≥ 1` dimensions. -/
theorem putTextDims_spec (start count ndims : SEXP) (n : Nat)
    (hn : (INTEGER ndims).getD 0 0 = (n : Int)) (h1 : 1 ≤ n) (h2 : n ≤ MAX_NC_DIMS) :
    (putTextDims start count ndims).tx_len = int2size ((INTEGER count).getD (n - 1) 0) ∧
    (putTextDims start count ndims).tx_num
      = R_nc_length (n - 1) ((INTEGER count).map int2size) ∧
    (∀ i, i < n → (putTextDims start count ndims).s_count.getD i 0
      = int2size ((INTEGER count).getD i 0)) ∧
    (∀ i, i < n → (putTextDims start count ndims).s_start.getD i 0
      = int2size ((INTEGER start).getD i 0)) := by
  have hpos : (n : Int) > 0 := by omega
  have e1 : ((n : Int)).toNat = n := Int.toNat_ofNat n
  have e2 : ((n : Int) - 1).toNat = n - 1 := by omega
  have hlen : n ≤ (List.replicate MAX_NC_DIMS 0).length := by
    rw [List.length_replicate]
    exact h2
  obtain ⟨_, c2, _⟩ := forLoop_store_spec (fun i => int2size ((INTEGER count).getD i 0))
    (List.replicate MAX_NC_DIMS 0) n hlen
  obtain ⟨_, s2, _⟩ := forLoop_store_spec (fun i => int2size ((INTEGER start).getD i 0))
    (List.replicate MAX_NC_DIMS 0) n hlen
  have hc : ∀ i, i < n → (forLoop 0 n (fun i s => s.set i (int2size ((INTEGER count).getD i 0)))
      (List.replicate MAX_NC_DIMS 0)).getD i 0 = int2size ((INTEGER count).getD i 0) := by
    intro i hi
    rw [List.getD_eq_getElem?_getD, c2 i hi]
    rfl
  have hs : ∀ i, i < n → (forLoop 0 n (fun i s => s.set i (int2size ((INTEGER start).getD i 0)))
      (List.replicate MAX_NC_DIMS 0)).getD i 0 = int2size ((INTEGER start).getD i 0) := by
    intro i hi
    rw [List.getD_eq_getElem?_getD, s2 i hi]
    rfl
  unfold putTextDims
  simp only [hn, hpos, if_true, e1, e2, forLoop_pair]
  refine ⟨hc (n - 1) (by omega), ?_, hc, hs⟩
  unfold R_nc_length
  apply forLoop_congr
  intro ii t _ hii
  rw [hc ii (by omega), map_int2size_getD]

/-- C16, as the code has it: in string (non-raw) mode, when `tx_num * tx_len`
is below `2 ^ 64`, `R_nc_put_vara_text` builds a buffer of `tx_num * tx_len`
bytes in which, for every `i < tx_num`, the bytes `[i*tx_len, (i+1)*tx_len)`
are the first `tx_len` bytes of input string `i` when it has at least `tx_len`
bytes, and otherwise the whole string followed by zero bytes up to width
`tx_len`; for `n ≥ 1` dimensions `tx_len` is the last count entry converted to
`size_t` and `tx_num` the product of the others reduced modulo `2 ^ 64`. -/
theorem R_nc_put_vara_text_buffer (start count ndims rawchar data : SEXP) (i : Nat)
    (hraw : ¬ (INTEGER rawchar).getD 0 0 > 0)
    (hfit : (putTextDims start count ndims).tx_num * (putTextDims start count ndims).tx_len
      < SIZE_MOD)
    (hi : i < (putTextDims start count ndims).tx_num) :
    (putTextBuffer (putTextDims start count ndims) rawchar data).length
      = (putTextDims start count ndims).tx_num * (putTextDims start count ndims).tx_len ∧
    ((putTextDims start count ndims).tx_len ≤ (cstr ((STRINGS data).getD i [])).length →
      stringWindow (putTextBuffer (putTextDims start count ndims) rawchar data)
          (putTextDims start count ndims).tx_len i
        = (cstr ((STRINGS data).getD i [])).take (putTextDims start count ndims).tx_len) ∧
    ((cstr ((STRINGS data).getD i [])).length < (putTextDims start count ndims).tx_len →
      stringWindow (putTextBuffer (putTextDims start count ndims) rawchar data)
          (putTextDims start count ndims).tx_len i
        = cstr ((STRINGS data).getD i []) ++ List.replicate
          ((putTextDims start count ndims).tx_len - (cstr ((STRINGS data).getD i [])).length) 0) ∧
    ((∀ c ∈ (STRINGS data).getD i [], c ≠ 0) →
      cstr ((STRINGS data).getD i []) = (STRINGS data).getD i []) ∧
    (∀ n : Nat, (INTEGER ndims).getD 0 0 = (n : Int) → 1 ≤ n → n ≤ MAX_NC_DIMS →
      (putTextDims start count ndims).tx_len = int2size ((INTEGER count).getD (n - 1) 0) ∧
      (putTextDims start count ndims).tx_num
        = extentProduct (n - 1) ((INTEGER count).map int2size) % SIZE_MOD) := by
  obtain ⟨l1, l2⟩ := putText_loop_spec (STRINGS data) (putTextDims start count ndims).tx_num
    (putTextDims start count ndims).tx_len hfit (putTextDims start count ndims).tx_num
    (le_refl _)
  have hbuf : putTextBuffer (putTextDims start count ndims) rawchar data
      = forLoop 0 (putTextDims start count ndims).tx_num (fun i buf =>
          writeAt buf ((i * (putTextDims start count ndims).tx_len) % SIZE_MOD)
            (strncpy ((STRINGS data).getD i []) (putTextDims start count ndims).tx_len))
          (List.replicate ((putTextDims start count ndims).tx_num
            * (putTextDims start count ndims).tx_len) 0) := by
    unfold putTextBuffer
    rw [if_neg hraw, putTextDims_varsize, Nat.mod_eq_of_lt hfit]
  have hwin : stringWindow (putTextBuffer (putTextDims start count ndims) rawchar data)
      (putTextDims start count ndims).tx_len i
      = strncpy ((STRINGS data).getD i []) (putTextDims start count ndims).tx_len := by
    obtain ⟨w1, w2⟩ := stringWindow_spec
      (putTextBuffer (putTextDims start count ndims) rawchar data)
      (putTextDims start count ndims).tx_num (putTextDims start count ndims).tx_len i
      (by rw [hbuf]; exact l1) hi
    apply list_ext_getD _ _ (by rw [w1, strncpy_length])
    intro k hk
    rw [w1] at hk
    rw [w2 k hk, hbuf]
    exact l2 i k hi hk
  refine ⟨by rw [hbuf]; exact l1, fun h => ?_, fun h => ?_, cstr_of_no_zero _, ?_⟩
  · rw [hwin]
    exact (strncpy_spec _ _).1 h
  · rw [hwin]
    exact (strncpy_spec _ _).2 h
  · intro n hn h1 h2
    obtain ⟨p1, p2, _, _⟩ := putTextDims_spec start count ndims n hn h1 h2
    exact ⟨p1, by rw [p2, R_nc_length_eq_mod]⟩

/-- Instances of C16 with count `c(2, 3)` (two strings of width 3): `"abcde"`
is cut to `"abc"` and `"x"` is padded to `"x\0\0"`. -/
theorem R_nc_put_vara_text_buffer_witness :
    stringWindow (putTextBuffer (putTextDims .null
          (.int [RInt.ofNat 2 (by decide), RInt.ofNat 3 (by decide)]) (intScalar 2 (by decide)))
          (intScalar 0 (by decide)) (.str [[97, 98, 99, 100, 101], [120]])) 3 0
      = (cstr [97, 98, 99, 100, 101]).take 3 ∧
    stringWindow (putTextBuffer (putTextDims .null
          (.int [RInt.ofNat 2 (by decide), RInt.ofNat 3 (by decide)]) (intScalar 2 (by decide)))
          (intScalar 0 (by decide)) (.str [[97, 98, 99, 100, 101], [120]])) 3 1
      = cstr [120] ++ List.replicate (3 - 1) 0 ∧
    putTextBuffer (putTextDims .null
          (.int [RInt.ofNat 2 (by decide), RInt.ofNat 3 (by decide)]) (intScalar 2 (by decide)))
          (intScalar 0 (by decide)) (.str [[97, 98, 99, 100, 101], [120]])
      = [97, 98, 99, 120, 0, 0] :=
  ⟨(R_nc_put_vara_text_buffer .null
      (.int [RInt.ofNat 2 (by decide), RInt.ofNat 3 (by decide)]) (intScalar 2 (by decide))
      (intScalar 0 (by decide)) (.str [[97, 98, 99, 100, 101], [120]]) 0
      (by decide) (by decide) (by decide)).2.1 (by decide),
   (R_nc_put_vara_text_buffer .null
      (.int [RInt.ofNat 2 (by decide), RInt.ofNat 3 (by decide)]) (intScalar 2 (by decide))
      (intScalar 0 (by decide)) (.str [[97, 98, 99, 100, 101], [120]]) 1
      (by decide) (by decide) (by decide)).2.2.1 (by decide),
   by decide⟩

/-- C16 fails in what it says of `tx_num`: with four dimensions and counts
`2 ^ 22`, `2 ^ 22`, `2 ^ 22` and 1, the product of the first three is `2 ^ 66`,
but `tx_num` is 0 and the buffer is empty. -/
theorem R_nc_put_vara_text_tx_num_wraps :
    extentProduct 3 ((INTEGER cubeCount).map int2size) = 73786976294838206464 ∧
    (putTextDims .null cubeCount (intScalar 4 (by decide))).tx_len = 1 ∧
    (putTextDims .null cubeCount (intScalar 4 (by decide))).tx_num = 0 ∧
    putTextBuffer (putTextDims .null cubeCount (intScalar 4 (by decide)))
      (intScalar 0 (by decide)) (.str [[97]]) = [] := by
  decide

theorem cutAtZero_no_zero (w : List Nat) : ∀ c ∈ cutAtZero w, c ≠ 0 := by
  intro c hc
  unfold cutAtZero at hc
  simpa using List.mem_takeWhile_imp hc

theorem cutAtZero_length_le (w : List Nat) : (cutAtZero w).length ≤ w.length := by
  unfold cutAtZero
  exact (List.takeWhile_sublist _).length_le

/-- What `strncpy` stores for a string that was cut from a window of its
width: the string, padded with zero bytes. -/
theorem strncpy_cutAtZero (win : List Nat) (w : Nat) (hl : win.length = w) :
    strncpy (cutAtZero win) w
      = cutAtZero win ++ List.replicate (w - (cutAtZero win).length) 0 := by
  unfold strncpy
  rw [cstr_of_no_zero _ (cutAtZero_no_zero win),
    List.take_of_length_le (by rw [← hl]; exact cutAtZero_length_le win)]

/-- The buffer that `R_nc_put_vara_text` builds in string mode, window by
window. -/
theorem putTextBuffer_windows (d : PutTextDims) (rawchar data : SEXP)
    (hraw : ¬ (INTEGER rawchar).getD 0 0 > 0)
    (hv : d.varsize = d.tx_num * d.tx_len) (hfit : d.tx_num * d.tx_len < SIZE_MOD) :
    (putTextBuffer d rawchar data).length = d.tx_num * d.tx_len ∧
    ∀ i, i < d.tx_num → stringWindow (putTextBuffer d rawchar data) d.tx_len i
      = strncpy ((STRINGS data).getD i []) d.tx_len := by
  obtain ⟨l1, l2⟩ := putText_loop_spec (STRINGS data) d.tx_num d.tx_len hfit d.tx_num
    (le_refl _)
  have hbuf : putTextBuffer d rawchar data
      = forLoop 0 d.tx_num (fun i buf =>
          writeAt buf ((i * d.tx_len) % SIZE_MOD) (strncpy ((STRINGS data).getD i []) d.tx_len))
          (List.replicate (d.tx_num * d.tx_len) 0) := by
    unfold putTextBuffer
    rw [if_neg hraw, hv]
  refine ⟨by rw [hbuf]; exact l1, ?_⟩
  intro i hi
  obtain ⟨w1, w2⟩ := stringWindow_spec (putTextBuffer d rawchar data) d.tx_num d.tx_len i
    (by rw [hbuf]; exact l1) hi
  apply list_ext_getD _ _ (by rw [w1, strncpy_length])
  intro k hk
  rw [w1] at hk
  rw [w2 k hk, hbuf]
  exact l2 i k hi hk

/-- Without wrap-around, the strings of width `strlen` fill the slice. -/
theorem string_sizes_fit (ndims : Nat) (ccount : List Nat)
    (hfit : extentProduct ndims ccount < SIZE_MOD) :
    stringCount ndims ccount * stringWidth ndims ccount = R_nc_length ndims ccount := by
  rw [R_nc_length_eq_mod, Nat.mod_eq_of_lt hfit]
  by_cases h0 : ndims = 0
  · subst h0
    rfl
  · obtain ⟨h1, h2, h3⟩ := stringCount_le ndims ccount (by omega)
    rw [h1, h2, h3]
    by_cases hw : ccount.getD (ndims - 1) 0 = 0
    · rw [hw, Nat.mul_zero, Nat.mul_zero]
    · rw [Nat.mod_eq_of_lt]
      rw [h3] at hfit
      have hpos : 0 < ccount.getD (ndims - 1) 0 := by omega
      exact Nat.lt_of_le_of_lt (Nat.le_mul_of_pos_right _ hpos) hfit

/-- Two buffers of `n` windows of width `w` with the same windows are equal. -/
theorem eq_of_windows (a b : List Nat) (n w : Nat) (ha : a.length = n * w)
    (hb : b.length = n * w)
    (h : ∀ k, k < n → stringWindow a w k = stringWindow b w k) : a = b := by
  apply list_ext_getD a b (ha.trans hb.symm)
  intro j hj
  rw [ha] at hj
  have hw : 0 < w := by
    rcases Nat.eq_zero_or_pos w with e | e
    · rw [e, Nat.mul_zero] at hj
      omega
    · exact e
  have hk : j / w < n := (Nat.div_lt_iff_lt_mul hw).2 hj
  have hr : j % w < w := Nat.mod_lt _ hw
  have hj2 : j / w * w + j % w = j := by
    rw [Nat.mul_comm]
    exact Nat.div_add_mod j w
  rw [← hj2, ← (stringWindow_spec a n w (j / w) ha hk).2 _ hr,
    ← (stringWindow_spec b n w (j / w) hb hk).2 _ hr, h _ hk]

/-- The string sizes of `R_nc_put_vara_text` when it is given the extents of
a slice of `n` dimensions as integers. -/
theorem putTextDims_sizes (start count ndims : SEXP) (n : Nat) (cc : List Nat)
    (hn : (INTEGER ndims).getD 0 0 = (n : Int)) (h2 : n ≤ MAX_NC_DIMS)
    (hc : ∀ i, i < n → int2size ((INTEGER count).getD i 0) = cc.getD i 0) :
    (putTextDims start count ndims).tx_len = stringWidth n cc ∧
    (putTextDims start count ndims).tx_num = stringCount n cc := by
  by_cases h0 : n = 0
  · subst h0
    have hn2 : (INTEGER ndims).getD 0 0 = 0 := hn
    unfold putTextDims stringWidth stringCount
    simp only [hn2, gt_iff_lt, lt_self_iff_false, if_false]
    exact ⟨trivial, trivial⟩
  · obtain ⟨p1, p2, _, _⟩ := putTextDims_spec start count ndims n hn (by omega) h2
    have hpos : n > 0 := by omega
    unfold stringWidth stringCount
    rw [if_pos hpos, if_pos hpos, p1, p2]
    refine ⟨hc _ (by omega), ?_⟩
    unfold R_nc_length
    apply forLoop_congr
    intro ii t _ hii
    rw [map_int2size_getD, hc ii (by omega)]

/-- The data that the `switch` of `R_nc_get_var` leaves for a numeric type
when the read succeeded. -/
theorem R_nc_get_var_switch_num_data (L : NcLib) (retlist : RetList) (ncid varid : Int)
    (ndims : Nat) (cstart ccount : List Nat) (arrlen : Nat) (xtype rawchar : Int)
    (hx : isNumericType xtype)
    (hret : (R_nc_get_var_switch L retlist ncid varid ndims cstart ccount arrlen xtype
      rawchar).returned = none) :
    (R_nc_get_var_switch L retlist ncid varid ndims cstart ccount arrlen xtype
      rawchar).retlist.data
      = .real (fillBuf arrlen (L.nc_get_vara_double ncid varid cstart ccount).2 .nonfinite) := by
  have h1 : ¬ xtype = NC_CHAR := by
    rintro rfl
    revert hx
    decide
  have h2 : ¬ xtype = NC_STRING := by
    rintro rfl
    revert hx
    decide
  unfold isNumericType at hx
  revert hret
  unfold R_nc_get_var_switch
  simp only [h1, h2, hx, if_true, if_false, checked_read]
  by_cases ha : arrlen > 0
  · simp only [ha, if_true]
    split
    · intro _
      rfl
    · intro h
      simp at h
  · rw [if_neg ha]
    have h0 : arrlen = 0 := by omega
    subst h0
    intro _
    rfl

/-- The first loop of `R_nc_put_vara_double` after `m` rounds: the two arrays
and the running product. -/
theorem putDoubleDims_loop (start count : SEXP) (m : Nat) (hm : m ≤ MAX_NC_DIMS) :
    forLoop 0 m (fun i (d : PutDims) =>
      (⟨d.s_start.set i (int2size ((INTEGER start).getD i 0)),
        d.s_count.set i (int2size ((INTEGER count).getD i 0)),
        (d.varsize * (d.s_count.set i (int2size ((INTEGER count).getD i 0))).getD i 0)
          % SIZE_MOD⟩ : PutDims))
      ⟨List.replicate MAX_NC_DIMS 0, List.replicate MAX_NC_DIMS 0, 1⟩
    = ⟨forLoop 0 m (fun i s => s.set i (int2size ((INTEGER start).getD i 0)))
          (List.replicate MAX_NC_DIMS 0),
        forLoop 0 m (fun i s => s.set i (int2size ((INTEGER count).getD i 0)))
          (List.replicate MAX_NC_DIMS 0),
        R_nc_length m ((INTEGER count).map int2size)⟩ := by
  induction m with
  | zero =>
    simp only [forLoop_nil _ _ (le_refl 0)]
    rfl
  | succ m ih =>
    rw [forLoop_succ _ _ (Nat.zero_le _), ih (by omega), forLoop_succ _ _ (Nat.zero_le _),
      forLoop_succ _ _ (Nat.zero_le _), R_nc_length_succ, map_int2size_getD]
    have hl : (forLoop 0 m (fun i s => s.set i (int2size ((INTEGER count).getD i 0)))
        (List.replicate MAX_NC_DIMS 0)).length = MAX_NC_DIMS := by
      rw [(forLoop_store_spec (fun i => int2size ((INTEGER count).getD i 0))
        (List.replicate MAX_NC_DIMS 0) m (by rw [List.length_replicate]; omega)).1,
        List.length_replicate]
    have hg : ((forLoop 0 m (fun i s => s.set i (int2size ((INTEGER count).getD i 0)))
        (List.replicate MAX_NC_DIMS 0)).set m (int2size ((INTEGER count).getD m 0))).getD m 0
        = int2size ((INTEGER count).getD m 0) := by
      rw [List.getD_eq_getElem?_getD, List.getElem?_set, if_pos rfl, if_pos (by rw [hl]; omega)]
      rfl
    dsimp only
    rw [hg]

/-- The sizes that `R_nc_put_vara_double` computes for `n` dimensions. -/
theorem putDoubleDims_spec (start count ndims : SEXP) (n : Nat)
    (hn : (INTEGER ndims).getD 0 0 = (n : Int)) (h2 : n ≤ MAX_NC_DIMS) :
    (∀ i, i < n → (putDoubleDims start count ndims).s_start.getD i 0
      = int2size ((INTEGER start).getD i 0)) ∧
    (∀ i, i < n → (putDoubleDims start count ndims).s_count.getD i 0
      = int2size ((INTEGER count).getD i 0)) ∧
    (putDoubleDims start count ndims).varsize
      = R_nc_length n ((INTEGER count).map int2size) := by
  have e1 : ((n : Int)).toNat = n := Int.toNat_ofNat n
  have hlen : n ≤ (List.replicate MAX_NC_DIMS (0 : Nat)).length := by
    rw [List.length_replicate]
    exact h2
  obtain ⟨_, c2, _⟩ := forLoop_store_spec (fun i => int2size ((INTEGER count).getD i 0))
    (List.replicate MAX_NC_DIMS 0) n hlen
  obtain ⟨_, s2, _⟩ := forLoop_store_spec (fun i => int2size ((INTEGER start).getD i 0))
    (List.replicate MAX_NC_DIMS 0) n hlen
  unfold putDoubleDims
  rw [hn, e1]
  have hloop := putDoubleDims_loop start count n h2
  dsimp only at hloop ⊢
  rw [hloop]
  refine ⟨fun i hi => ?_, fun i hi => ?_, rfl⟩
  · show (forLoop 0 n (fun i s => s.set i (int2size ((INTEGER start).getD i 0)))
      (List.replicate MAX_NC_DIMS 0)).getD i 0 = _
    rw [List.getD_eq_getElem?_getD, s2 i hi]
    rfl
  · show (forLoop 0 n (fun i s => s.set i (int2size ((INTEGER count).getD i 0)))
      (List.replicate MAX_NC_DIMS 0)).getD i 0 = _
    rw [List.getD_eq_getElem?_getD, c2 i hi]
    rfl

/-- The library calls and the status of `R_nc_put_vara_double` when entering
data mode succeeds and there is something to write: `nc_enddef`, then one
`nc_put_vara_double` that is handed `REAL (data)`, whose status is returned. -/
theorem R_nc_put_vara_double_writes (L : NcLib) (ncid varid start count ndims data : SEXP)
    (hend : R_nc_enddef L ((INTEGER ncid).getD 0 0) = NC_NOERR)
    (hv : 0 < (putDoubleDims start count ndims).varsize) :
    (R_nc_put_vara_double L ncid varid start count ndims data).calls
      = [NcCall.enddef ((INTEGER ncid).getD 0 0),
          NcCall.put_vara_double ((INTEGER ncid).getD 0 0) ((INTEGER varid).getD 0 0)
            (putDoubleDims start count ndims).s_start (putDoubleDims start count ndims).s_count
            (REAL data)] ∧
    (R_nc_put_vara_double L ncid varid start count ndims data).ret.status
      = some (L.nc_put_vara_double ((INTEGER ncid).getD 0 0) ((INTEGER varid).getD 0 0)
          (putDoubleDims start count ndims).s_start (putDoubleDims start count ndims).s_count
          (REAL data)) := by
  have hv2 : (putDoubleDims start count ndims).varsize > 0 := hv
  unfold R_nc_put_vara_double
  simp only [(RNCCHECK_some_iff L _ _).2 hend, hv2, if_true]
  split
  · rename_i out hout
    exact ⟨rfl, RNCCHECK_status _ _ _ _ hout⟩
  · rename_i hnone
    refine ⟨rfl, ?_⟩
    rw [RNCRETURN_status, RNCCHECK_none _ _ _ hnone]

/-- The library calls and the status of `R_nc_put_vara_text` when entering
data mode succeeds and there is something to write: `nc_enddef`, then one
`nc_put_vara_text` that is handed the buffer built, whose status is
returned. -/
theorem R_nc_put_vara_text_writes (L : NcLib)
    (ncid varid start count ndims rawchar data : SEXP)
    (hend : R_nc_enddef L ((INTEGER ncid).getD 0 0) = NC_NOERR)
    (hv : 0 < (putTextDims start count ndims).varsize) :
    (R_nc_put_vara_text L ncid varid start count ndims rawchar data).calls
      = [NcCall.enddef ((INTEGER ncid).getD 0 0),
          NcCall.put_vara_text ((INTEGER ncid).getD 0 0) ((INTEGER varid).getD 0 0)
            (putTextDims start count ndims).s_start (putTextDims start count ndims).s_count
            (putTextBuffer (putTextDims start count ndims) rawchar data)] ∧
    (R_nc_put_vara_text L ncid varid start count ndims rawchar data).ret.status
      = some (L.nc_put_vara_text ((INTEGER ncid).getD 0 0) ((INTEGER varid).getD 0 0)
          (putTextDims start count ndims).s_start (putTextDims start count ndims).s_count
          (putTextBuffer (putTextDims start count ndims) rawchar data)) := by
  have hv2 : (putTextDims start count ndims).varsize > 0 := hv
  unfold R_nc_put_vara_text
  simp only [(RNCCHECK_some_iff L _ _).2 hend, hv2, if_true]
  split
  · rename_i out hout
    exact ⟨rfl, RNCCHECK_status _ _ _ _ hout⟩
  · rename_i hnone
    refine ⟨rfl, ?_⟩
    rw [RNCRETURN_status, RNCCHECK_none _ _ _ hnone]

/-- The string count times the string width, in `size_t` arithmetic, is the
total element count. -/
theorem string_sizes_mod (ndims : Nat) (ccount : List Nat) :
    (stringCount ndims ccount * stringWidth ndims ccount) % SIZE_MOD
      = R_nc_length ndims ccount := by
  by_cases h0 : ndims = 0
  · subst h0
    rfl
  · obtain ⟨m, rfl⟩ : ∃ m, ndims = m + 1 := ⟨ndims - 1, by omega⟩
    unfold stringCount stringWidth
    rw [if_pos (by omega), if_pos (by omega), R_nc_length_succ]
    rfl

/-- The arrays and the size that `R_nc_put_vara_text` computes when it is
given the slice of a read as integers. -/
theorem putTextDims_same_slice (start count ndims : SEXP) (n : Nat) (cs cc : List Nat)
    (hn : (INTEGER ndims).getD 0 0 = (n : Int)) (h2 : n ≤ MAX_NC_DIMS)
    (hs : ∀ i, i < n → int2size ((INTEGER start).getD i 0) = cs.getD i 0)
    (hc : ∀ i, i < n → int2size ((INTEGER count).getD i 0) = cc.getD i 0) :
    (∀ i, i < n → (putTextDims start count ndims).s_start.getD i 0 = cs.getD i 0) ∧
    (∀ i, i < n → (putTextDims start count ndims).s_count.getD i 0 = cc.getD i 0) ∧
    (putTextDims start count ndims).varsize = R_nc_length n cc := by
  obtain ⟨z1, z2⟩ := putTextDims_sizes start count ndims n cc hn h2 hc
  have hvs : (putTextDims start count ndims).varsize = R_nc_length n cc := by
    rw [putTextDims_varsize, z1, z2, Nat.mul_comm, Nat.mul_comm (stringWidth n cc),
      string_sizes_mod]
  by_cases h0 : n = 0
  · subst h0
    exact ⟨fun i hi => absurd hi (by omega), fun i hi => absurd hi (by omega), hvs⟩
  · obtain ⟨_, _, p3, p4⟩ := putTextDims_spec start count ndims n hn (by omega) h2
    exact ⟨fun i hi => by rw [p4 i hi, hs i hi], fun i hi => by rw [p3 i hi, hc i hi], hvs⟩

/-- The arrays and the size that `R_nc_put_vara_double` computes when it is
given the slice of a read as integers. -/
theorem putDoubleDims_same_slice (start count ndims : SEXP) (n : Nat) (cs cc : List Nat)
    (hn : (INTEGER ndims).getD 0 0 = (n : Int)) (h2 : n ≤ MAX_NC_DIMS)
    (hs : ∀ i, i < n → int2size ((INTEGER start).getD i 0) = cs.getD i 0)
    (hc : ∀ i, i < n → int2size ((INTEGER count).getD i 0) = cc.getD i 0) :
    (∀ i, i < n → (putDoubleDims start count ndims).s_start.getD i 0 = cs.getD i 0) ∧
    (∀ i, i < n → (putDoubleDims start count ndims).s_count.getD i 0 = cc.getD i 0) ∧
    (putDoubleDims start count ndims).varsize = R_nc_length n cc := by
  obtain ⟨p1, p2, p3⟩ := putDoubleDims_spec start count ndims n hn h2
  refine ⟨fun i hi => by rw [p1 i hi, hs i hi], fun i hi => by rw [p2 i hi, hc i hi], ?_⟩
  rw [p3]
  unfold R_nc_length
  apply forLoop_congr
  intro ii t _ hii
  rw [map_int2size_getD, hc ii hii]

/-- C17, as the code has it: after a successful read of a non-empty slice,
writing the data just read back with the same dataset, variable and slice
makes exactly two library calls, `nc_enddef` and one bulk write with the start
and count of the read. For numeric data `R_nc_put_vara_double` hands
`nc_put_vara_double` exactly the doubles that the read delivered; for raw
character data `R_nc_put_vara_text` hands `nc_put_vara_text` exactly the bytes
read. For a fixed-width character variable read in string mode, without
wrap-around, window `k` of the buffer handed to `nc_put_vara_text` is window
`k` of the buffer read cut before its first zero byte and padded with zero
bytes, so the two buffers are equal exactly when every window of the buffer
read has only zero bytes after its first zero byte. -/
theorem R_nc_get_put_round_trip (H : Host) (L : NcLib) (nc var start count rawchar : SEXP)
    (pncid pvarid pstart pcount pndims prawchar : SEXP)
    (hst : (R_nc_get_var H L nc var start count rawchar).ret.status = some NC_NOERR)
    (hne : 0 < getVarArrlen H L nc var start count)
    (hid : (INTEGER pncid).getD 0 0 = H.asInteger nc)
    (hvid : (INTEGER pvarid).getD 0 0 = getVarVarid H L nc var)
    (hpn : (INTEGER pndims).getD 0 0 = ((getVarSlice H L nc var start count).ndims : Int))
    (hmax : (getVarSlice H L nc var start count).ndims ≤ MAX_NC_DIMS)
    (hps : ∀ i, i < (getVarSlice H L nc var start count).ndims →
      int2size ((INTEGER pstart).getD i 0)
        = (getVarSlice H L nc var start count).cstart.getD i 0)
    (hpc : ∀ i, i < (getVarSlice H L nc var start count).ndims →
      int2size ((INTEGER pcount).getD i 0)
        = (getVarSlice H L nc var start count).ccount.getD i 0) :
    (isNumericType (getVarXtype H L nc var) →
      (R_nc_put_vara_double L pncid pvarid pstart pcount pndims
          (R_nc_get_var H L nc var start count rawchar).ret.data).calls
        = [NcCall.enddef (H.asInteger nc),
            NcCall.put_vara_double (H.asInteger nc) (getVarVarid H L nc var)
              (putDoubleDims pstart pcount pndims).s_start
              (putDoubleDims pstart pcount pndims).s_count
              (fillBuf (getVarArrlen H L nc var start count)
                (L.nc_get_vara_double (H.asInteger nc) (getVarVarid H L nc var)
                  (getVarSlice H L nc var start count).cstart
                  (getVarSlice H L nc var start count).ccount).2 .nonfinite)] ∧
      (∀ i, i < (getVarSlice H L nc var start count).ndims →
        (putDoubleDims pstart pcount pndims).s_start.getD i 0
          = (getVarSlice H L nc var start count).cstart.getD i 0 ∧
        (putDoubleDims pstart pcount pndims).s_count.getD i 0
          = (getVarSlice H L nc var start count).ccount.getD i 0)) ∧
    (getVarXtype H L nc var = NC_CHAR →
      (R_nc_put_vara_text L pncid pvarid pstart pcount pndims prawchar
          (R_nc_get_var H L nc var start count rawchar).ret.data).calls
        = [NcCall.enddef (H.asInteger nc),
            NcCall.put_vara_text (H.asInteger nc) (getVarVarid H L nc var)
              (putTextDims pstart pcount pndims).s_start
              (putTextDims pstart pcount pndims).s_count
              (putTextBuffer (putTextDims pstart pcount pndims) prawchar
                (R_nc_get_var H L nc var start count rawchar).ret.data)] ∧
      (∀ i, i < (getVarSlice H L nc var start count).ndims →
        (putTextDims pstart pcount pndims).s_start.getD i 0
          = (getVarSlice H L nc var start count).cstart.getD i 0 ∧
        (putTextDims pstart pcount pndims).s_count.getD i 0
          = (getVarSlice H L nc var start count).ccount.getD i 0)) ∧
    (getVarXtype H L nc var = NC_CHAR → H.asLogical rawchar ≠ 0 →
      (INTEGER prawchar).getD 0 0 > 0 →
      putTextBuffer (putTextDims pstart pcount pndims) prawchar
          (R_nc_get_var H L nc var start count rawchar).ret.data
        = getVarBuffer H L nc var start count) ∧
    (getVarXtype H L nc var = NC_CHAR → H.asLogical rawchar = 0 →
      ¬ (INTEGER prawchar).getD 0 0 > 0 →
      extentProduct (getVarSlice H L nc var start count).ndims
        (getVarSlice H L nc var start count).ccount < SIZE_MOD →
      (∀ k, k < stringCount (getVarSlice H L nc var start count).ndims
          (getVarSlice H L nc var start count).ccount →
        stringWindow (putTextBuffer (putTextDims pstart pcount pndims) prawchar
            (R_nc_get_var H L nc var start count rawchar).ret.data)
          (stringWidth (getVarSlice H L nc var start count).ndims
            (getVarSlice H L nc var start count).ccount) k
        = cutAtZero (stringWindow (getVarBuffer H L nc var start count)
            (stringWidth (getVarSlice H L nc var start count).ndims
              (getVarSlice H L nc var start count).ccount) k)
          ++ List.replicate
            (stringWidth (getVarSlice H L nc var start count).ndims
                (getVarSlice H L nc var start count).ccount
              - (cutAtZero (stringWindow (getVarBuffer H L nc var start count)
                  (stringWidth (getVarSlice H L nc var start count).ndims
                    (getVarSlice H L nc var start count).ccount) k)).length) 0) ∧
      (putTextBuffer (putTextDims pstart pcount pndims) prawchar
          (R_nc_get_var H L nc var start count rawchar).ret.data
        = getVarBuffer H L nc var start count ↔
        ∀ k, k < stringCount (getVarSlice H L nc var start count).ndims
            (getVarSlice H L nc var start count).ccount →
          stringWindow (getVarBuffer H L nc var start count)
            (stringWidth (getVarSlice H L nc var start count).ndims
              (getVarSlice H L nc var start count).ccount) k
          = cutAtZero (stringWindow (getVarBuffer H L nc var start count)
              (stringWidth (getVarSlice H L nc var start count).ndims
                (getVarSlice H L nc var start count).ccount) k)
            ++ List.replicate
              (stringWidth (getVarSlice H L nc var start count).ndims
                  (getVarSlice H L nc var start count).ccount
                - (cutAtZero (stringWindow (getVarBuffer H L nc var start count)
                    (stringWidth (getVarSlice H L nc var start count).ndims
                      (getVarSlice H L nc var start count).ccount) k)).length) 0)) := by
  obtain ⟨hreach, hret, hdata, _⟩ :=
    R_nc_get_var_of_success H L nc var start count rawchar hst
  unfold getVarSwitch at hret hdata
  have hend : R_nc_enddef L ((INTEGER pncid).getD 0 0) = NC_NOERR := by
    rw [hid]
    exact hreach.2.2.2
  refine ⟨fun hx => ?_, fun hx => ?_, fun hx hraw hpraw => ?_, fun hx hraw hpraw hfit => ?_⟩
  · have hd := R_nc_get_var_switch_num_data L RetList.empty (H.asInteger nc)
      (getVarVarid H L nc var) (getVarSlice H L nc var start count).ndims
      (getVarSlice H L nc var start count).cstart (getVarSlice H L nc var start count).ccount
      (getVarArrlen H L nc var start count) _ _ hx hret
    have hreal : REAL (R_nc_get_var H L nc var start count rawchar).ret.data
        = fillBuf (getVarArrlen H L nc var start count)
          (L.nc_get_vara_double (H.asInteger nc) (getVarVarid H L nc var)
            (getVarSlice H L nc var start count).cstart
            (getVarSlice H L nc var start count).ccount).2 .nonfinite := by
      rw [hdata, hd]
      rfl
    obtain ⟨q1, q2, q3⟩ := putDoubleDims_same_slice pstart pcount pndims _ _ _ hpn hmax hps hpc
    have hv : 0 < (putDoubleDims pstart pcount pndims).varsize := by
      rw [q3]
      exact hne
    have hw := (R_nc_put_vara_double_writes L pncid pvarid pstart pcount pndims
      (R_nc_get_var H L nc var start count rawchar).ret.data hend hv).1
    rw [hid, hvid, hreal] at hw
    exact ⟨hw, fun i hi => ⟨q1 i hi, q2 i hi⟩⟩
  · obtain ⟨q1, q2, q3⟩ := putTextDims_same_slice pstart pcount pndims _ _ _ hpn hmax hps hpc
    have hv : 0 < (putTextDims pstart pcount pndims).varsize := by
      rw [q3]
      exact hne
    have hw := (R_nc_put_vara_text_writes L pncid pvarid pstart pcount pndims prawchar
      (R_nc_get_var H L nc var start count rawchar).ret.data hend hv).1
    rw [hid, hvid] at hw
    exact ⟨hw, fun i hi => ⟨q1 i hi, q2 i hi⟩⟩
  · obtain ⟨_, xs, hd, _, hx2⟩ := R_nc_get_var_switch_raw L RetList.empty (H.asInteger nc)
      (getVarVarid H L nc var) (getVarSlice H L nc var start count).ndims
      (getVarSlice H L nc var start count).cstart (getVarSlice H L nc var start count).ccount
      (getVarArrlen H L nc var start count) _ _ hx hraw
    unfold putTextBuffer
    rw [if_pos hpraw, hdata, hd, hx2 hret]
    rfl
  · obtain ⟨_, xs, hd, hl, h0case, hx2⟩ := R_nc_get_var_switch_str L RetList.empty
      (H.asInteger nc) (getVarVarid H L nc var) (getVarSlice H L nc var start count).ndims
      (getVarSlice H L nc var start count).cstart (getVarSlice H L nc var start count).ccount
      (getVarArrlen H L nc var start count) _ _ hx hraw
    obtain ⟨z1, z2⟩ := putTextDims_sizes pstart pcount pndims _ _ hpn hmax hpc
    have hsf := string_sizes_fit _ _ hfit
    have hbl : (getVarBuffer H L nc var start count).length
        = stringCount (getVarSlice H L nc var start count).ndims
            (getVarSlice H L nc var start count).ccount
          * stringWidth (getVarSlice H L nc var start count).ndims
            (getVarSlice H L nc var start count).ccount := by
      unfold getVarBuffer
      rw [fillBuf_length, hsf]
      rfl
    have hfit2 : (putTextDims pstart pcount pndims).tx_num
        * (putTextDims pstart pcount pndims).tx_len < SIZE_MOD := by
      rw [z1, z2, hsf, R_nc_length_eq_mod]
      exact Nat.mod_lt _ (Nat.two_pow_pos 64)
    have hv : (putTextDims pstart pcount pndims).varsize
        = (putTextDims pstart pcount pndims).tx_num
          * (putTextDims pstart pcount pndims).tx_len := by
      rw [putTextDims_varsize, Nat.mod_eq_of_lt hfit2]
    obtain ⟨pl, pw⟩ := putTextBuffer_windows (putTextDims pstart pcount pndims) prawchar
      (R_nc_get_var H L nc var start count rawchar).ret.data hpraw hv hfit2
    rw [z1, z2] at pl
    rw [z1, z2] at pw
    have hstr : ∀ k, k < stringCount (getVarSlice H L nc var start count).ndims
        (getVarSlice H L nc var start count).ccount →
        (STRINGS (R_nc_get_var H L nc var start count rawchar).ret.data).getD k []
          = cutAtZero (stringWindow (getVarBuffer H L nc var start count)
            (stringWidth (getVarSlice H L nc var start count).ndims
              (getVarSlice H L nc var start count).ccount) k) := by
      intro k hk
      rw [hdata, hd]
      show xs.getD k [] = _
      by_cases hne : 0 < getVarArrlen H L nc var start count
      · have hoff : (k * stringWidth (getVarSlice H L nc var start count).ndims
            (getVarSlice H L nc var start count).ccount) % SIZE_MOD
            = k * stringWidth (getVarSlice H L nc var start count).ndims
              (getVarSlice H L nc var start count).ccount := by
          apply Nat.mod_eq_of_lt
          have h1 : (k + 1) * stringWidth (getVarSlice H L nc var start count).ndims
              (getVarSlice H L nc var start count).ccount
              ≤ stringCount (getVarSlice H L nc var start count).ndims
                (getVarSlice H L nc var start count).ccount
              * stringWidth (getVarSlice H L nc var start count).ndims
                (getVarSlice H L nc var start count).ccount := Nat.mul_le_mul_right _ hk
          have h2 : (k + 1) * stringWidth (getVarSlice H L nc var start count).ndims
              (getVarSlice H L nc var start count).ccount
              = k * stringWidth (getVarSlice H L nc var start count).ndims
                (getVarSlice H L nc var start count).ccount
              + stringWidth (getVarSlice H L nc var start count).ndims
                (getVarSlice H L nc var start count).ccount := by ring
          have h3 : R_nc_length (getVarSlice H L nc var start count).ndims
              (getVarSlice H L nc var start count).ccount < SIZE_MOD := by
            rw [R_nc_length_eq_mod]
            exact Nat.mod_lt _ (Nat.two_pow_pos 64)
          omega
        rw [hx2 hret hne, (extractStrings_spec _ _ _).2 k hk, take_strnlen, hoff]
        rfl
      · have h0 : getVarArrlen H L nc var start count = 0 := by omega
        have hb0 : getVarBuffer H L nc var start count = [] := by
          unfold getVarBuffer
          rw [h0]
          rfl
        rw [(h0case h0).1, hb0]
        simp [stringWindow, cutAtZero, List.getD_eq_getElem?_getD, List.getElem?_replicate, hk]
    have hwin : ∀ k, k < stringCount (getVarSlice H L nc var start count).ndims
        (getVarSlice H L nc var start count).ccount →
        stringWindow (putTextBuffer (putTextDims pstart pcount pndims) prawchar
            (R_nc_get_var H L nc var start count rawchar).ret.data)
          (stringWidth (getVarSlice H L nc var start count).ndims
            (getVarSlice H L nc var start count).ccount) k
        = cutAtZero (stringWindow (getVarBuffer H L nc var start count)
            (stringWidth (getVarSlice H L nc var start count).ndims
              (getVarSlice H L nc var start count).ccount) k)
          ++ List.replicate
            (stringWidth (getVarSlice H L nc var start count).ndims
                (getVarSlice H L nc var start count).ccount
              - (cutAtZero (stringWindow (getVarBuffer H L nc var start count)
                  (stringWidth (getVarSlice H L nc var start count).ndims
                    (getVarSlice H L nc var start count).ccount) k)).length) 0 := by
      intro k hk
      rw [pw k hk, hstr k hk]
      exact strncpy_cutAtZero _ _ (stringWindow_spec _ _ _ k hbl hk).1
    refine ⟨hwin, fun e k hk => ?_, fun hc => ?_⟩
    · have := hwin k hk
      rw [e] at this
      exact this
    · exact eq_of_windows _ _ _ _ pl hbl (fun k hk => (hwin k hk).trans (hc k hk).symm)

/-- An instance of C17: the character variable of `charLib`, of extents
`[2, 3]` and contents `"ab\0cd\0"`, read in string mode with start `c(1, 1)`
and count `c(3, 2)` and written back with the same slice (start `[0, 0]` and
count `[2, 3]` in storage order): the write calls `nc_enddef` and then
`nc_put_vara_text` once, with a buffer that is the buffer read. -/
theorem R_nc_get_put_round_trip_witness :
    (R_nc_get_var hostZero charLib .null (intScalar 0 (by decide))
      (.int [RInt.ofNat 1 (by decide), RInt.ofNat 1 (by decide)])
      (.int [RInt.ofNat 3 (by decide), RInt.ofNat 2 (by decide)]) .null).ret.status
      = some NC_NOERR ∧
    (R_nc_put_vara_text charLib (intScalar 0 (by decide)) (intScalar 0 (by decide))
        (.int [RInt.ofNat 0 (by decide), RInt.ofNat 0 (by decide)])
        (.int [RInt.ofNat 2 (by decide), RInt.ofNat 3 (by decide)]) (intScalar 2 (by decide))
        (intScalar 0 (by decide))
        (R_nc_get_var hostZero charLib .null (intScalar 0 (by decide))
          (.int [RInt.ofNat 1 (by decide), RInt.ofNat 1 (by decide)])
          (.int [RInt.ofNat 3 (by decide), RInt.ofNat 2 (by decide)]) .null).ret.data).calls
      = [NcCall.enddef (hostZero.asInteger .null),
          NcCall.put_vara_text (hostZero.asInteger .null)
            (getVarVarid hostZero charLib .null (intScalar 0 (by decide)))
            (putTextDims (.int [RInt.ofNat 0 (by decide), RInt.ofNat 0 (by decide)])
              (.int [RInt.ofNat 2 (by decide), RInt.ofNat 3 (by decide)])
              (intScalar 2 (by decide))).s_start
            (putTextDims (.int [RInt.ofNat 0 (by decide), RInt.ofNat 0 (by decide)])
              (.int [RInt.ofNat 2 (by decide), RInt.ofNat 3 (by decide)])
              (intScalar 2 (by decide))).s_count
            (putTextBuffer (putTextDims
              (.int [RInt.ofNat 0 (by decide), RInt.ofNat 0 (by decide)])
              (.int [RInt.ofNat 2 (by decide), RInt.ofNat 3 (by decide)])
              (intScalar 2 (by decide))) (intScalar 0 (by decide))
              (R_nc_get_var hostZero charLib .null (intScalar 0 (by decide))
                (.int [RInt.ofNat 1 (by decide), RInt.ofNat 1 (by decide)])
                (.int [RInt.ofNat 3 (by decide), RInt.ofNat 2 (by decide)]) .null).ret.data)] ∧
    putTextBuffer (putTextDims (.int [RInt.ofNat 0 (by decide), RInt.ofNat 0 (by decide)])
        (.int [RInt.ofNat 2 (by decide), RInt.ofNat 3 (by decide)]) (intScalar 2 (by decide)))
        (intScalar 0 (by decide))
        (R_nc_get_var hostZero charLib .null (intScalar 0 (by decide))
          (.int [RInt.ofNat 1 (by decide), RInt.ofNat 1 (by decide)])
          (.int [RInt.ofNat 3 (by decide), RInt.ofNat 2 (by decide)]) .null).ret.data
      = getVarBuffer hostZero charLib .null (intScalar 0 (by decide))
          (.int [RInt.ofNat 1 (by decide), RInt.ofNat 1 (by decide)])
          (.int [RInt.ofNat 3 (by decide), RInt.ofNat 2 (by decide)]) ∧
    getVarBuffer hostZero charLib .null (intScalar 0 (by decide))
        (.int [RInt.ofNat 1 (by decide), RInt.ofNat 1 (by decide)])
        (.int [RInt.ofNat 3 (by decide), RInt.ofNat 2 (by decide)])
      = [97, 98, 0, 99, 100, 0] :=
  ⟨by decide,
    ((R_nc_get_put_round_trip hostZero charLib .null (intScalar 0 (by decide))
      (.int [RInt.ofNat 1 (by decide), RInt.ofNat 1 (by decide)])
      (.int [RInt.ofNat 3 (by decide), RInt.ofNat 2 (by decide)]) .null
      (intScalar 0 (by decide)) (intScalar 0 (by decide))
      (.int [RInt.ofNat 0 (by decide), RInt.ofNat 0 (by decide)])
      (.int [RInt.ofNat 2 (by decide), RInt.ofNat 3 (by decide)]) (intScalar 2 (by decide))
      (intScalar 0 (by decide)) (by decide) (by decide) (by decide) (by decide) (by decide)
      (by decide) (by decide) (by decide)).2.1 (by decide)).1,
    ((R_nc_get_put_round_trip hostZero charLib .null (intScalar 0 (by decide))
      (.int [RInt.ofNat 1 (by decide), RInt.ofNat 1 (by decide)])
      (.int [RInt.ofNat 3 (by decide), RInt.ofNat 2 (by decide)]) .null
      (intScalar 0 (by decide)) (intScalar 0 (by decide))
      (.int [RInt.ofNat 0 (by decide), RInt.ofNat 0 (by decide)])
      (.int [RInt.ofNat 2 (by decide), RInt.ofNat 3 (by decide)]) (intScalar 2 (by decide))
      (intScalar 0 (by decide)) (by decide) (by decide) (by decide) (by decide) (by decide)
      (by decide) (by decide) (by decide)).2.2.2 (by decide) (by decide) (by decide)
      (by decide)).2.2 (by decide),
    by decide⟩

/-- C17 fails for a stored buffer with a byte after a zero byte: the variable
of `dirtyStringLib` holds `'a'`, zero, `'b'`; a read in string mode with start
`c(1)` and count `c(3)` succeeds and gives the one string `"a"`, and the buffer
that `R_nc_put_vara_text` builds from it with the same slice is `'a'`, zero,
zero. -/
theorem R_nc_get_put_round_trip_dirty :
    (R_nc_get_var hostZero dirtyStringLib .null (intScalar 0 (by decide))
      (intScalar 1 (by decide)) (intScalar 3 (by decide)) .null).ret.status = some NC_NOERR ∧
    (getVarSlice hostZero dirtyStringLib .null (intScalar 0 (by decide))
      (intScalar 1 (by decide)) (intScalar 3 (by decide))).cstart.take 1 = [0] ∧
    (getVarSlice hostZero dirtyStringLib .null (intScalar 0 (by decide))
      (intScalar 1 (by decide)) (intScalar 3 (by decide))).ccount.take 1 = [3] ∧
    getVarBuffer hostZero dirtyStringLib .null (intScalar 0 (by decide))
      (intScalar 1 (by decide)) (intScalar 3 (by decide)) = [97, 0, 98] ∧
    (R_nc_get_var hostZero dirtyStringLib .null (intScalar 0 (by decide))
      (intScalar 1 (by decide)) (intScalar 3 (by decide)) .null).ret.data = .str [[97]] ∧
    putTextBuffer (putTextDims (intScalar 0 (by decide)) (intScalar 3 (by decide))
        (intScalar 1 (by decide))) (intScalar 0 (by decide))
        (R_nc_get_var hostZero dirtyStringLib .null (intScalar 0 (by decide))
          (intScalar 1 (by decide)) (intScalar 3 (by decide)) .null).ret.data = [97, 0, 0] ∧
    putTextBuffer (putTextDims (intScalar 0 (by decide)) (intScalar 3 (by decide))
        (intScalar 1 (by decide))) (intScalar 0 (by decide))
        (R_nc_get_var hostZero dirtyStringLib .null (intScalar 0 (by decide))
          (intScalar 1 (by decide)) (intScalar 3 (by decide)) .null).ret.data
      ≠ getVarBuffer hostZero dirtyStringLib .null (intScalar 0 (by decide))
          (intScalar 1 (by decide)) (intScalar 3 (by decide)) := by
  decide

/-! ## Release of variable-length strings -/

/-- When its first steps succeed, the library calls of `R_nc_get_var` are
those of the variable lookup, of `R_nc_slice`, the type query, `nc_enddef` and
the calls of the `switch`. -/
theorem R_nc_get_var_calls_of_reaches (H : Host) (L : NcLib)
    (nc var start count rawchar : SEXP) (h : getVarReaches H L nc var start count) :
    (R_nc_get_var H L nc var start count rawchar).calls =
      (R_nc_var_id H L var (H.asInteger nc)).2.2 ++ (getVarSlice H L nc var start count).calls
        ++ [NcCall.inq_vartype (H.asInteger nc) (getVarVarid H L nc var)]
        ++ [NcCall.enddef (H.asInteger nc)]
        ++ (getVarSwitch H L nc var start count rawchar).calls := by
  obtain ⟨h1, h2, h3, h4⟩ := h
  unfold getVarSlice at h2
  unfold getVarVarid at h3
  unfold R_nc_get_var
  simp only [(RNCCHECK_some_iff L _ _).2 h1, (RNCCHECK_some_iff L _ _).2 h2,
    (RNCCHECK_some_iff L _ _).2 h3, (RNCCHECK_some_iff L _ _).2 h4]
  unfold getVarSwitch getVarArrlen getVarSlice getVarXtype getVarVarid
  split <;> rfl

/-- The `switch` of `R_nc_get_var` for variable-length strings, when there is
something to read and the bulk read succeeds: the strings are copied and
released with one call of `nc_free_string`. -/
theorem R_nc_get_var_switch_vstr_read (L : NcLib) (retlist : RetList) (ncid varid : Int)
    (ndims : Nat) (cstart ccount : List Nat) (arrlen : Nat) (xtype rawchar : Int)
    (hx : xtype = NC_STRING) (hpos : 0 < arrlen)
    (hread : (L.nc_get_vara_string ncid varid cstart ccount).1 = NC_NOERR) :
    (R_nc_get_var_switch L retlist ncid varid ndims cstart ccount arrlen xtype rawchar).calls
      = [NcCall.get_vara_string ncid varid cstart ccount,
          NcCall.free_string arrlen
            (fillBuf arrlen (L.nc_get_vara_string ncid varid cstart ccount).2 [])] ∧
    (R_nc_get_var_switch L retlist ncid varid ndims cstart ccount arrlen xtype
      rawchar).retlist.data
      = .str ((fillBuf arrlen (L.nc_get_vara_string ncid varid cstart ccount).2 []).map cstr) := by
  have hne : ¬ NC_STRING = NC_CHAR := by decide
  have hp : arrlen > 0 := hpos
  have hcopy : forLoop 0 arrlen (fun ii strs => strs.set ii
      (cstr ((fillBuf arrlen (L.nc_get_vara_string ncid varid cstart ccount).2 []).getD ii [])))
      (List.replicate arrlen [])
      = (fillBuf arrlen (L.nc_get_vara_string ncid varid cstart ccount).2 []).map cstr := by
    obtain ⟨s1, s2, _⟩ := forLoop_store_spec
      (fun ii => cstr ((fillBuf arrlen
        (L.nc_get_vara_string ncid varid cstart ccount).2 []).getD ii []))
      (List.replicate arrlen []) arrlen (by simp)
    apply List.ext_getElem?
    intro k
    by_cases hk : k < arrlen
    · rw [s2 k hk, List.getElem?_map, List.getD_eq_getElem?_getD]
      have hk2 : k < (fillBuf arrlen (L.nc_get_vara_string ncid varid cstart ccount).2 []).length := by
        rw [fillBuf_length]
        exact hk
      rw [List.getElem?_eq_getElem hk2]
      rfl
    · rw [List.getElem?_eq_none (by rw [s1, List.length_replicate]; omega),
        List.getElem?_eq_none (by rw [List.length_map, fillBuf_length]; omega)]
  unfold R_nc_get_var_switch
  simp only [hx, hne, if_true, if_false, checked_read, hp, hread, hcopy]
  constructor
  · split <;> rfl
  · split <;> rfl

theorem R_nc_slice_calls_no_strings (H : Host) (L : NcLib) (M : Nat) (start count : SEXP)
    (ncid varid : Int) (cs0 cc0 : List Nat) :
    ∀ c ∈ (R_nc_slice H L.toNcMeta start count ncid varid cs0 cc0).calls,
      stringsAllocated L M c = 0 := by
  intro c hc
  by_cases hq : (L.nc_inq_var ncid varid).1 = NC_NOERR
  · rw [R_nc_slice_ok_eq H L.toNcMeta start count ncid varid cs0 cc0 hq] at hc
    rcases sliceCount_loop_calls _ _ _ _ _ _ _ c hc with h | ⟨d, h⟩
    · rw [List.mem_singleton.mp h]
      rfl
    · rw [h]
      rfl
  · rw [R_nc_slice_fail_eq H L.toNcMeta start count ncid varid cs0 cc0 hq] at hc
    rw [List.mem_singleton.mp hc]
    rfl

theorem R_nc_var_id_calls_no_strings (H : Host) (L : NcLib) (M : Nat) (var : SEXP)
    (ncid : Int) :
    ∀ c ∈ (R_nc_var_id H L var ncid).2.2, stringsAllocated L M c = 0 := by
  intro c hc
  unfold R_nc_var_id at hc
  split at hc
  · simp at hc
  · split at hc
    · rw [List.mem_singleton.mp hc]
      rfl
    · simp at hc

theorem sum_map_eq_zero (f : NcCall → Int) (cs : List NcCall) (h : ∀ c ∈ cs, f c = 0) :
    (cs.map f).sum = 0 := by
  induction cs with
  | nil => rfl
  | cons c rest ih =>
    rw [List.map_cons, List.sum_cons, h c (List.mem_cons_self _ _),
      ih (fun d hd => h d (List.mem_cons_of_mem _ hd))]
    rfl

theorem outstandingStrings_append (L : NcLib) (M : Nat) (a b : List NcCall) :
    outstandingStrings L M (a ++ b) = outstandingStrings L M a + outstandingStrings L M b := by
  unfold outstandingStrings
  rw [List.map_append, List.sum_append]

theorem outstandingStrings_repeat (L : NcLib) (M : Nat) (cs : List NcCall)
    (h : outstandingStrings L M cs = 0) (N : Nat) :
    outstandingStrings L M (List.replicate N cs).flatten = 0 := by
  induction N with
  | zero => rfl
  | succ N ih =>
    rw [List.replicate_succ, List.flatten_cons, outstandingStrings_append, h, ih]
    rfl

/-- C22: for a read of `M > 0` variable-length strings (type `NC_STRING`)
whose first steps and bulk read succeed, the `switch` of `R_nc_get_var` makes
exactly two library calls, the bulk read and then one `nc_free_string` over
the `M` pointers that the read filled; the data returned are the copies of
those strings; so the library-owned strings outstanding after the call, and
after `N` such reads, are zero. -/
theorem R_nc_get_var_releases_strings (H : Host) (L : NcLib)
    (nc var start count rawchar : SEXP) (N : Nat)
    (hr : getVarReaches H L nc var start count)
    (hx : getVarXtype H L nc var = NC_STRING)
    (hM : 0 < getVarArrlen H L nc var start count)
    (hread : (L.nc_get_vara_string (H.asInteger nc) (getVarVarid H L nc var)
      (getVarSlice H L nc var start count).cstart
      (getVarSlice H L nc var start count).ccount).1 = NC_NOERR) :
    (R_nc_get_var H L nc var start count rawchar).calls =
      (R_nc_var_id H L var (H.asInteger nc)).2.2 ++ (getVarSlice H L nc var start count).calls
        ++ [NcCall.inq_vartype (H.asInteger nc) (getVarVarid H L nc var)]
        ++ [NcCall.enddef (H.asInteger nc)]
        ++ [NcCall.get_vara_string (H.asInteger nc) (getVarVarid H L nc var)
              (getVarSlice H L nc var start count).cstart
              (getVarSlice H L nc var start count).ccount,
            NcCall.free_string (getVarArrlen H L nc var start count)
              (fillBuf (getVarArrlen H L nc var start count)
                (L.nc_get_vara_string (H.asInteger nc) (getVarVarid H L nc var)
                  (getVarSlice H L nc var start count).cstart
                  (getVarSlice H L nc var start count).ccount).2 [])] ∧
    (R_nc_get_var H L nc var start count rawchar).ret.data
      = .str ((fillBuf (getVarArrlen H L nc var start count)
          (L.nc_get_vara_string (H.asInteger nc) (getVarVarid H L nc var)
            (getVarSlice H L nc var start count).cstart
            (getVarSlice H L nc var start count).ccount).2 []).map cstr) ∧
    outstandingStrings L (getVarArrlen H L nc var start count)
      (R_nc_get_var H L nc var start count rawchar).calls = 0 ∧
    outstandingStrings L (getVarArrlen H L nc var start count)
      (List.replicate N (R_nc_get_var H L nc var start count rawchar).calls).flatten = 0 := by
  obtain ⟨s1, s2⟩ := R_nc_get_var_switch_vstr_read L RetList.empty (H.asInteger nc)
    (getVarVarid H L nc var) (getVarSlice H L nc var start count).ndims
    (getVarSlice H L nc var start count).cstart (getVarSlice H L nc var start count).ccount
    (getVarArrlen H L nc var start count) (getVarXtype H L nc var) (H.asLogical rawchar)
    hx hM hread
  have hcalls := R_nc_get_var_calls_of_reaches H L nc var start count rawchar hr
  unfold getVarSwitch at hcalls
  rw [s1] at hcalls
  have hzero : outstandingStrings L (getVarArrlen H L nc var start count)
      (R_nc_get_var H L nc var start count rawchar).calls = 0 := by
    rw [hcalls]
    simp only [outstandingStrings_append]
    have e1 : outstandingStrings L (getVarArrlen H L nc var start count)
        (R_nc_var_id H L var (H.asInteger nc)).2.2 = 0 :=
      sum_map_eq_zero _ _ (R_nc_var_id_calls_no_strings H L _ var _)
    have e2 : outstandingStrings L (getVarArrlen H L nc var start count)
        (getVarSlice H L nc var start count).calls = 0 :=
      sum_map_eq_zero _ _ (R_nc_slice_calls_no_strings H L _ start count _ _ _ _)
    rw [e1, e2]
    simp [outstandingStrings, stringsAllocated, hread]
  refine ⟨hcalls, ?_, hzero, outstandingStrings_repeat L _ _ hzero N⟩
  rw [R_nc_get_var_data_of_reaches H L nc var start count rawchar hr]
  exact s2

/-- An instance of C22: three reads of the two strings of `vstringLib`. -/
theorem R_nc_get_var_releases_strings_witness :
    outstandingStrings vstringLib
      (getVarArrlen hostZero vstringLib .null (intScalar 0 (by decide)) .null .null)
      (List.replicate 3
        (R_nc_get_var hostZero vstringLib .null (intScalar 0 (by decide)) .null .null
          .null).calls).flatten = 0 ∧
    getVarArrlen hostZero vstringLib .null (intScalar 0 (by decide)) .null .null = 2 ∧
    (R_nc_get_var hostZero vstringLib .null (intScalar 0 (by decide)) .null .null
      .null).calls.length = 6 ∧
    (R_nc_get_var hostZero vstringLib .null (intScalar 0 (by decide)) .null .null
      .null).calls.drop 5 = [NcCall.free_string 2 [[97], [98, 99]]] ∧
    (R_nc_get_var hostZero vstringLib .null (intScalar 0 (by decide)) .null .null .null).ret.data
      = .str [[97], [98, 99]] :=
  ⟨(R_nc_get_var_releases_strings hostZero vstringLib .null (intScalar 0 (by decide)) .null
      .null .null 3 (by decide) (by decide) (by decide) (by decide)).2.2.2,
    by decide, by decide, by decide, by decide⟩

/-! ## A count entry of -1 -/

/-- The last loop of `R_nc_slice`, when it runs to its end, has asked the
library for the length of every dimension whose count entry was `NA_SIZE`. -/
theorem sliceCount_loop_queried (L : NcMeta) (ncid : Int) (dimids : List Int)
    (cstart : List Nat) (is : List Nat) (hnd : is.Nodup) (calls : List NcCall) (cc : List Nat)
    (hnone : (forLoopRet (sliceCountBody L ncid dimids cstart) is (calls, cc)).1 = none) :
    ∀ j, j ∈ is → cc.getD j 0 = NA_SIZE →
      NcCall.inq_dimlen ncid (dimids.getD j 0)
        ∈ (forLoopRet (sliceCountBody L ncid dimids cstart) is (calls, cc)).2.1 := by
  induction is generalizing calls cc with
  | nil => exact fun j hj => by simp at hj
  | cons a rest ih =>
    have hnd2 : rest.Nodup := (List.nodup_cons.mp hnd).2
    have ha : a ∉ rest := (List.nodup_cons.mp hnd).1
    intro j hj hna
    by_cases hca : cc.getD a 0 = NA_SIZE
    · by_cases hq : (L.nc_inq_dimlen ncid (dimids.getD a 0)).1 = NC_NOERR
      · have hbody : sliceCountBody L ncid dimids cstart a (calls, cc) =
            (none, (calls ++ [NcCall.inq_dimlen ncid (dimids.getD a 0)],
              cc.set a (((L.nc_inq_dimlen ncid (dimids.getD a 0)).2 + SIZE_MOD
                - cstart.getD a 0) % SIZE_MOD))) := by
          unfold sliceCountBody
          dsimp only
          rw [if_pos hca, if_neg (not_not.mpr hq)]
        rw [forLoopRet_cons_none _ _ _ _ _ hbody] at hnone ⊢
        rcases List.mem_cons.mp hj with rfl | hjr
        · obtain ⟨extra, e1, _, _⟩ := sliceCount_loop_log L ncid dimids cstart rest
            (calls ++ [NcCall.inq_dimlen ncid (dimids.getD j 0)])
            (cc.set j (((L.nc_inq_dimlen ncid (dimids.getD j 0)).2 + SIZE_MOD
                - cstart.getD j 0) % SIZE_MOD))
          rw [e1]
          simp
        · have hne : a ≠ j := fun e => ha (e ▸ hjr)
          apply ih hnd2 _ _ hnone j hjr
          rw [getD_set_eq, if_neg (fun hh => hne hh.1.symm)]
          exact hna
      · exfalso
        have hbody : sliceCountBody L ncid dimids cstart a (calls, cc) =
            (some (L.nc_inq_dimlen ncid (dimids.getD a 0)).1,
              (calls ++ [NcCall.inq_dimlen ncid (dimids.getD a 0)], cc)) := by
          unfold sliceCountBody
          dsimp only
          rw [if_pos hca, if_pos hq]
        rw [forLoopRet_cons_some _ _ _ _ _ _ hbody] at hnone
        simp at hnone
    · have hbody : sliceCountBody L ncid dimids cstart a (calls, cc) = (none, (calls, cc)) := by
        unfold sliceCountBody
        dsimp only
        rw [if_neg hca]
      rw [forLoopRet_cons_none _ _ _ _ _ hbody] at hnone ⊢
      rcases List.mem_cons.mp hj with rfl | hjr
      · exact absurd hna hca
      · exact ih hnd2 _ _ hnone j hjr hna

theorem int2size_neg_one : int2size (-1) = NA_SIZE := by decide

/-- For `R_nc_size_r2c` with fill value `NA_SIZE`, an integer entry of -1 and
an entry `NA` are the same. -/
theorem R_nc_size_r2c_minus_one (H : Host) (xs : List RInt) (k nc : Nat) (cv : List Nat)
    (hv : (INTEGER (.int xs)).getD k 0 = -1) :
    R_nc_size_r2c H (.int xs) nc NA_SIZE cv
      = R_nc_size_r2c H (.int (xs.set k (RInt.negOfNat 2147483648 (by decide)))) nc NA_SIZE
          cv := by
  have hbody : ∀ ii, (if (INTEGER (.int xs)).getD ii 0 = NA_INTEGER then NA_SIZE
        else int2size ((INTEGER (.int xs)).getD ii 0))
      = (if (INTEGER (.int (xs.set k (RInt.negOfNat 2147483648 (by decide))))).getD ii 0
          = NA_INTEGER then NA_SIZE
        else int2size ((INTEGER (.int (xs.set k
          (RInt.negOfNat 2147483648 (by decide))))).getD ii 0)) := by
    intro ii
    by_cases e : ii = k
    · subst e
      have hlt : ii < xs.length := by
        by_contra hge
        simp only [INTEGER, List.getD_eq_getElem?_getD, List.getElem?_map] at hv
        rw [List.getElem?_eq_none (by omega)] at hv
        simp at hv
      have h2 : (INTEGER (.int (xs.set ii (RInt.negOfNat 2147483648 (by decide))))).getD ii 0
          = NA_INTEGER := by
        simp only [INTEGER, List.getD_eq_getElem?_getD, List.getElem?_map, List.getElem?_set,
          if_true, hlt]
        rfl
      rw [hv, h2, if_pos rfl, if_neg (by decide), int2size_neg_one]
    · have h2 : (INTEGER (.int (xs.set k (RInt.negOfNat 2147483648 (by decide))))).getD ii 0
          = (INTEGER (.int xs)).getD ii 0 := by
        simp only [INTEGER, List.getD_eq_getElem?_getD, List.getElem?_map, List.getElem?_set]
        rw [if_neg (fun hh => e hh.symm)]
      rw [h2]
  have hlen : xlength (.int (xs.set k (RInt.negOfNat 2147483648 (by decide))))
      = xlength (.int xs) := by
    simp [xlength]
  unfold R_nc_size_r2c
  simp only [hlen, isReal, isInteger, Bool.false_eq_true, if_false, if_true]
  congr 1
  apply forLoop_congr
  intro ii s _ _
  have hb := hbody ii
  by_cases h1 : (INTEGER (.int xs)).getD ii 0 = NA_INTEGER
  · rw [if_pos h1] at hb
    rw [if_pos h1]
    by_cases h2 : (INTEGER (.int (xs.set k (RInt.negOfNat 2147483648 (by decide))))).getD ii 0
        = NA_INTEGER
    · rw [if_pos h2]
    · rw [if_neg h2] at hb
      rw [if_neg h2, hb]
  · rw [if_neg h1] at hb
    rw [if_neg h1]
    by_cases h2 : (INTEGER (.int (xs.set k (RInt.negOfNat 2147483648 (by decide))))).getD ii 0
        = NA_INTEGER
    · rw [if_pos h2] at hb
      rw [if_pos h2, hb]
    · rw [if_neg h2] at hb
      rw [if_neg h2, hb]

/-- C24: an integer count entry of -1 converts to the `size_t` value
`NA_SIZE`, so `R_nc_slice` resolves it exactly like a missing entry: the
result is the one for the count vector with `NA` in place of -1, and in a
slice returned with `NC_NOERR` for a variable of rank `n`, the dimension
`i = n - 1 - k` of an entry -1 at position `k` has had its length queried and
has `ccount[i] = length - cstart[i]` in `size_t` arithmetic, which is the
difference itself when the length is at least `cstart[i]`. -/
theorem R_nc_slice_count_minus_one (H : Host) (L : NcMeta) (start : SEXP) (xs : List RInt)
    (ncid varid : Int) (cs0 cc0 : List Nat) (k : Nat)
    (hv : (INTEGER (.int xs)).getD k 0 = -1) :
    int2size ((INTEGER (.int xs)).getD k 0) = NA_SIZE ∧
    userEntry H (.int xs) NA_SIZE k = NA_SIZE ∧
    R_nc_slice H L start (.int xs) ncid varid cs0 cc0
      = R_nc_slice H L start (.int (xs.set k (RInt.negOfNat 2147483648 (by decide))))
          ncid varid cs0 cc0 ∧
    ((R_nc_slice H L start (.int xs) ncid varid cs0 cc0).status = NC_NOERR →
      (L.nc_inq_var ncid varid).2.length ≤ cs0.length →
      (L.nc_inq_var ncid varid).2.length ≤ cc0.length →
      ∀ i, i < (L.nc_inq_var ncid varid).2.length →
        (L.nc_inq_var ncid varid).2.length - 1 - i = k →
        NcCall.inq_dimlen ncid ((L.nc_inq_var ncid varid).2.getD i 0)
          ∈ (R_nc_slice H L start (.int xs) ncid varid cs0 cc0).calls ∧
        (R_nc_slice H L start (.int xs) ncid varid cs0 cc0).ccount.getD i 0
          = (dimensionLength L ncid varid i + SIZE_MOD
            - (R_nc_slice H L start (.int xs) ncid varid cs0 cc0).cstart.getD i 0)
              % SIZE_MOD ∧
        ((R_nc_slice H L start (.int xs) ncid varid cs0 cc0).cstart.getD i 0
            ≤ dimensionLength L ncid varid i →
          (R_nc_slice H L start (.int xs) ncid varid cs0 cc0).ccount.getD i 0
            = dimensionLength L ncid varid i
              - (R_nc_slice H L start (.int xs) ncid varid cs0 cc0).cstart.getD i 0)) := by
  have hlt : k < xs.length := by
    by_contra hge
    simp only [INTEGER, List.getD_eq_getElem?_getD, List.getElem?_map] at hv
    rw [List.getElem?_eq_none (by omega)] at hv
    simp at hv
  have hu : userEntry H (.int xs) NA_SIZE k = NA_SIZE := by
    unfold userEntry
    simp only [isReal, isInteger, xlength, Bool.false_eq_true, if_false, if_true, hlt, hv]
    rw [if_neg (by decide)]
    exact int2size_neg_one
  refine ⟨by rw [hv]; exact int2size_neg_one, hu, ?_, ?_⟩
  · unfold R_nc_slice
    simp only [R_nc_size_r2c_minus_one H xs k _ _ hv]
  · intro hst h1 h2 i hi hik
    have hq := R_nc_slice_query_ok H L start (.int xs) ncid varid cs0 cc0 hst
    have hui : userEntry H (.int xs) NA_SIZE ((L.nc_inq_var ncid varid).2.length - 1 - i)
        = NA_SIZE := by
      rw [hik]
      exact hu
    have hval := ((R_nc_slice_spec H L start (.int xs) ncid varid cs0 cc0 hq h1
      h2).2.2.2.2.2.2.2.1 hst i 0 hi hui).2
    refine ⟨?_, hval, fun hle => ?_⟩
    · have hnone : (forLoopRet (sliceCountBody L ncid (L.nc_inq_var ncid varid).2
            (forLoop 0 (L.nc_inq_var ncid varid).2.length
              (fun ii cs => cs.set ii ((cs.getD ii 0 + SIZE_MOD - 1) % SIZE_MOD))
              (R_nc_size_r2c H start (L.nc_inq_var ncid varid).2.length 1 cs0)))
          (List.range (L.nc_inq_var ncid varid).2.length)
          ([NcCall.inq_var ncid varid],
            R_nc_size_r2c H (.int xs) (L.nc_inq_var ncid varid).2.length NA_SIZE cc0)).1
          = none := by
        rw [R_nc_slice_ok_eq H L start (.int xs) ncid varid cs0 cc0 hq] at hst
        dsimp only at hst
        cases hc : (forLoopRet (sliceCountBody L ncid (L.nc_inq_var ncid varid).2
            (forLoop 0 (L.nc_inq_var ncid varid).2.length
              (fun ii cs => cs.set ii ((cs.getD ii 0 + SIZE_MOD - 1) % SIZE_MOD))
              (R_nc_size_r2c H start (L.nc_inq_var ncid varid).2.length 1 cs0)))
          (List.range (L.nc_inq_var ncid varid).2.length)
          ([NcCall.inq_var ncid varid],
            R_nc_size_r2c H (.int xs) (L.nc_inq_var ncid varid).2.length NA_SIZE cc0)).1 with
        | none => rfl
        | some s =>
          exfalso
          rw [hc] at hst
          obtain ⟨hne, _⟩ := (sliceCount_loop_log L ncid (L.nc_inq_var ncid varid).2 _
            (List.range (L.nc_inq_var ncid varid).2.length) [NcCall.inq_var ncid varid]
            (R_nc_size_r2c H (.int xs) (L.nc_inq_var ncid varid).2.length NA_SIZE
              cc0)).choose_spec.2.2 s hc
          exact hne hst
      rw [R_nc_slice_ok_eq H L start (.int xs) ncid varid cs0 cc0 hq]
      dsimp only
      apply sliceCount_loop_queried L ncid _ _ _ (List.nodup_range _) _ _ hnone i
        (List.mem_range.mpr hi)
      rw [(R_nc_size_r2c_spec H (.int xs) (L.nc_inq_var ncid varid).2.length NA_SIZE cc0 h2
        0).2.1 i hi]
      exact hui
    · rw [hval]
      have hd : dimensionLength L ncid varid i < SIZE_MOD := L.dimlen_lt _ _
      simp only [SIZE_MOD] at hd ⊢
      omega

/-- An instance of C24: dimension length 10, 1-based start 3 and count -1
give offset 2 and extent 8, as a missing count does. -/
theorem R_nc_slice_count_minus_one_witness :
    (R_nc_slice hostZero (oneDimMeta 10 (by decide)) (.int [RInt.ofNat 3 (by decide)])
        (.int [RInt.negOfNat 1 (by decide)]) 0 0 [0] [0])
      = (R_nc_slice hostZero (oneDimMeta 10 (by decide)) (.int [RInt.ofNat 3 (by decide)])
        (.int ([RInt.negOfNat 1 (by decide)].set 0 (RInt.negOfNat 2147483648 (by decide))))
        0 0 [0] [0]) ∧
    (R_nc_slice hostZero (oneDimMeta 10 (by decide)) (.int [RInt.ofNat 3 (by decide)])
        (.int [RInt.negOfNat 1 (by decide)]) 0 0 [0] [0])
      = ⟨NC_NOERR, [NcCall.inq_var 0 0, NcCall.inq_dimlen 0 0], 1, [2], [8]⟩ ∧
    (R_nc_slice hostZero (oneDimMeta 10 (by decide)) (.int [RInt.ofNat 3 (by decide)])
        .null 0 0 [0] [0])
      = ⟨NC_NOERR, [NcCall.inq_var 0 0, NcCall.inq_dimlen 0 0], 1, [2], [8]⟩ :=
  ⟨(R_nc_slice_count_minus_one hostZero (oneDimMeta 10 (by decide))
      (.int [RInt.ofNat 3 (by decide)]) [RInt.negOfNat 1 (by decide)] 0 0 [0] [0] 0
      (by decide)).2.2.1,
    by decide, by decide⟩

/-! ## Strings written and read back -/

theorem cutAtZero_append_zeros (a : List Nat) (m : Nat) (h : ∀ c ∈ a, c ≠ 0) :
    cutAtZero (a ++ List.replicate m 0) = a := by
  induction a with
  | nil =>
    cases m with
    | zero => rfl
    | succ m => rfl
  | cons c rest ih =>
    have hc : c ≠ 0 := h c (List.mem_cons_self _ _)
    unfold cutAtZero at ih ⊢
    rw [List.cons_append, List.takeWhile_cons_of_pos (by simpa using hc),
      ih (fun d hd => h d (List.mem_cons_of_mem _ hd))]

/-- Cutting what `strncpy` stores for a string without zero bytes gives the
first `w` bytes of the string. -/
theorem cutAtZero_strncpy (s : List Nat) (w : Nat) (h : ∀ c ∈ s, c ≠ 0) :
    cutAtZero (strncpy s w) = s.take w := by
  unfold strncpy
  rw [cstr_of_no_zero s h]
  exact cutAtZero_append_zeros _ _ (fun c hc => h c (List.mem_of_mem_take hc))

/-- C25: for every list of strings without zero bytes and every width `w`
with `n * w < 2 ^ 64` (`n` the number of strings), extracting strings the way
`R_nc_get_var` does in string mode from the buffer that `R_nc_put_vara_text`
builds for `n` strings of width `w` returns, for each string, its first
`min (length, w)` bytes; hence every string of length at most `w` is returned
unchanged. -/
theorem put_then_extract_strings (d : PutTextDims) (rawchar : SEXP) (strs : List (List Nat))
    (hraw : ¬ (INTEGER rawchar).getD 0 0 > 0)
    (hn : d.tx_num = strs.length)
    (hv : d.varsize = (d.tx_num * d.tx_len) % SIZE_MOD)
    (hfit : d.tx_num * d.tx_len < SIZE_MOD)
    (hz : ∀ s ∈ strs, ∀ c ∈ s, c ≠ 0) :
    (extractStrings (putTextBuffer d rawchar (.str strs)) d.tx_num d.tx_len).length
      = strs.length ∧
    ∀ i, i < strs.length →
      (extractStrings (putTextBuffer d rawchar (.str strs)) d.tx_num d.tx_len).getD i []
        = (strs.getD i []).take d.tx_len ∧
      ((strs.getD i []).take d.tx_len).length = min (strs.getD i []).length d.tx_len ∧
      ((strs.getD i []).length ≤ d.tx_len →
        (extractStrings (putTextBuffer d rawchar (.str strs)) d.tx_num d.tx_len).getD i []
          = strs.getD i []) := by
  have hv2 : d.varsize = d.tx_num * d.tx_len := by rw [hv, Nat.mod_eq_of_lt hfit]
  obtain ⟨pl, pw⟩ := putTextBuffer_windows d rawchar (.str strs) hraw hv2 hfit
  obtain ⟨x1, x2⟩ := extractStrings_spec (putTextBuffer d rawchar (.str strs)) d.tx_num d.tx_len
  refine ⟨by rw [x1, hn], ?_⟩
  intro i hi
  have hi2 : i < d.tx_num := by rw [hn]; exact hi
  have hmem : strs.getD i [] ∈ strs := by
    rw [List.getD_eq_getElem _ _ hi]
    exact List.getElem_mem _
  have hoff : (i * d.tx_len) % SIZE_MOD = i * d.tx_len := by
    apply Nat.mod_eq_of_lt
    have : i * d.tx_len ≤ d.tx_num * d.tx_len := Nat.mul_le_mul_right _ (Nat.le_of_lt hi2)
    omega
  have hkey : (extractStrings (putTextBuffer d rawchar (.str strs)) d.tx_num d.tx_len).getD i []
      = (strs.getD i []).take d.tx_len := by
    rw [x2 i hi2, take_strnlen, hoff]
    show cutAtZero (stringWindow (putTextBuffer d rawchar (.str strs)) d.tx_len i) = _
    rw [pw i hi2]
    exact cutAtZero_strncpy _ _ (hz _ hmem)
  refine ⟨hkey, by rw [List.length_take]; exact Nat.min_comm _ _, fun hle => ?_⟩
  rw [hkey, List.take_of_length_le hle]

/-- An instance of C25 with width 3: `"abcde"` comes back as `"abc"` and `"x"`
unchanged. -/
theorem put_then_extract_strings_witness :
    (extractStrings (putTextBuffer (putTextDims .null
        (.int [RInt.ofNat 2 (by decide), RInt.ofNat 3 (by decide)]) (intScalar 2 (by decide)))
        (intScalar 0 (by decide)) (.str [[97, 98, 99, 100, 101], [120]]))
      (putTextDims .null (.int [RInt.ofNat 2 (by decide), RInt.ofNat 3 (by decide)])
        (intScalar 2 (by decide))).tx_num
      (putTextDims .null (.int [RInt.ofNat 2 (by decide), RInt.ofNat 3 (by decide)])
        (intScalar 2 (by decide))).tx_len).length = [[97, 98, 99, 100, 101], [120]].length ∧
    extractStrings (putTextBuffer (putTextDims .null
        (.int [RInt.ofNat 2 (by decide), RInt.ofNat 3 (by decide)]) (intScalar 2 (by decide)))
        (intScalar 0 (by decide)) (.str [[97, 98, 99, 100, 101], [120]])) 2 3
      = [[97, 98, 99], [120]] :=
  ⟨(put_then_extract_strings (putTextDims .null
      (.int [RInt.ofNat 2 (by decide), RInt.ofNat 3 (by decide)]) (intScalar 2 (by decide)))
      (intScalar 0 (by decide)) [[97, 98, 99, 100, 101], [120]]
      (by decide) (by decide) (by decide) (by decide) (by decide)).1,
    by decide⟩

/-! ## The dimension attribute and the length of the data -/

theorem prod_range_reversed (f : Nat → Int) (n : Nat) :
    ((List.range n).map (fun j => f (n - 1 - j))).prod = ((List.range n).map f).prod := by
  induction n with
  | zero => rfl
  | succ n ih =>
    rw [List.range_succ_eq_map, List.map_cons, List.prod_cons, List.map_map]
    have e : ((fun j => f (n + 1 - 1 - j)) ∘ Nat.succ) = fun j => f (n - 1 - j) := by
      funext j
      show f (n + 1 - 1 - (j + 1)) = f (n - 1 - j)
      congr 1
      omega
    rw [e, ih, ← List.range_succ_eq_map, List.range_succ, List.map_append, List.prod_append]
    simp only [List.map_cons, List.map_nil, List.prod_cons, List.prod_nil, mul_one]
    rw [mul_comm]
    rfl

/-- The product of the dimension attribute, when the extents it lists fit in
an `int`, is the product of those extents. -/
theorem dimAttr_prod (rank : Nat) (ccount : List Nat)
    (hint : ∀ i, i < rank → ccount.getD i 0 < 2147483648) :
    (dimAttr rank ccount).prod = (extentProduct rank ccount : Int) := by
  obtain ⟨s1, s2⟩ := dimAttr_spec rank ccount
  have hd : dimAttr rank ccount
      = (List.range rank).map (fun j => ((ccount.getD (rank - 1 - j) 0 : Nat) : Int)) := by
    apply List.ext_getElem (by rw [s1]; simp)
    intro j h1 h2
    have hj : j < rank := by rw [← s1]; exact h1
    have := s2 j hj
    rw [List.getD_eq_getElem _ _ h1] at this
    rw [this, size2int_of_lt _ (hint _ (by omega))]
    simp
  rw [hd, prod_range_reversed (fun i => ((ccount.getD i 0 : Nat) : Int)) rank]
  unfold extentProduct
  rw [Nat.cast_list_prod, List.map_map]
  rfl

/-- C27, as the code has it: for every successful `R_nc_get_var` result that
carries a dim attribute (output rank at least 1), with extents that fit in a
32-bit `int` and a product of the dim entries below `2 ^ 64`, the product of
the entries of the dim attribute equals the length of the returned data
vector, which is the total element count for numeric, `NC_STRING` and
raw-character results and the string count for string-mode character
results. -/
theorem R_nc_get_var_dim_product (H : Host) (L : NcLib) (nc var start count rawchar : SEXP)
    (d : List Int)
    (hst : (R_nc_get_var H L nc var start count rawchar).ret.status = some NC_NOERR)
    (hd : (R_nc_get_var H L nc var start count rawchar).ret.dim = some d)
    (hint : ∀ i, i < (getVarSlice H L nc var start count).ndims →
      (getVarSlice H L nc var start count).ccount.getD i 0 < 2147483648)
    (hfit : d.prod < (SIZE_MOD : Int)) :
    d.prod = (xlength (R_nc_get_var H L nc var start count rawchar).ret.data : Int) ∧
    (¬ (getVarXtype H L nc var = NC_CHAR ∧ H.asLogical rawchar = 0) →
      xlength (R_nc_get_var H L nc var start count rawchar).ret.data
        = getVarArrlen H L nc var start count) ∧
    (getVarXtype H L nc var = NC_CHAR → H.asLogical rawchar = 0 →
      xlength (R_nc_get_var H L nc var start count rawchar).ret.data
        = stringCount (getVarSlice H L nc var start count).ndims
          (getVarSlice H L nc var start count).ccount) := by
  obtain ⟨r1, r2⟩ := R_nc_get_var_rank_of_success H L nc var start count rawchar hst
  obtain ⟨d1, d2⟩ := R_nc_get_var_dim_of_success H L nc var start count rawchar hst
  obtain ⟨_, hret, hdata, _⟩ := R_nc_get_var_of_success H L nc var start count rawchar hst
  have hpos : 0 < (getVarSwitch H L nc var start count rawchar).rank := by
    rcases Nat.eq_zero_or_pos (getVarSwitch H L nc var start count rawchar).rank with e | e
    · rw [d1 e] at hd
      simp at hd
    · exact e
  have hdd : d = dimAttr (getVarSwitch H L nc var start count rawchar).rank
      (getVarSlice H L nc var start count).ccount := by
    rw [d2 hpos] at hd
    exact (Option.some.inj hd).symm
  have hlenA : ¬ (getVarXtype H L nc var = NC_CHAR ∧ H.asLogical rawchar = 0) →
      xlength (R_nc_get_var H L nc var start count rawchar).ret.data
        = getVarArrlen H L nc var start count := by
    intro hmode
    rw [hdata]
    unfold getVarSwitch
    by_cases hc : getVarXtype H L nc var = NC_CHAR
    · have hraw : H.asLogical rawchar ≠ 0 := fun e => hmode ⟨hc, e⟩
      obtain ⟨_, xs, e1, e2, _⟩ :=
        R_nc_get_var_switch_raw L RetList.empty (H.asInteger nc) (getVarVarid H L nc var)
          (getVarSlice H L nc var start count).ndims
          (getVarSlice H L nc var start count).cstart
          (getVarSlice H L nc var start count).ccount
          (getVarArrlen H L nc var start count) _ _ hc hraw
      rw [e1]
      exact e2
    · by_cases hs : getVarXtype H L nc var = NC_STRING
      · obtain ⟨_, xs, e1, e2⟩ :=
          R_nc_get_var_switch_vstr L RetList.empty (H.asInteger nc) (getVarVarid H L nc var)
            (getVarSlice H L nc var start count).ndims
            (getVarSlice H L nc var start count).cstart
            (getVarSlice H L nc var start count).ccount
            (getVarArrlen H L nc var start count) _ (H.asLogical rawchar) hs
        rw [e1]
        exact e2
      · by_cases hn : isNumericType (getVarXtype H L nc var)
        · obtain ⟨_, xs, e1, e2⟩ :=
            R_nc_get_var_switch_num L RetList.empty (H.asInteger nc) (getVarVarid H L nc var)
              (getVarSlice H L nc var start count).ndims
              (getVarSlice H L nc var start count).cstart
              (getVarSlice H L nc var start count).ccount
              (getVarArrlen H L nc var start count) _ (H.asLogical rawchar) hn
          rw [e1]
          exact e2
        · exfalso
          unfold getVarSwitch at hret
          rw [R_nc_get_var_switch_other L RetList.empty _ _ _ _ _ _ _ _ hc hs hn] at hret
          simp at hret
  have hlenS : getVarXtype H L nc var = NC_CHAR → H.asLogical rawchar = 0 →
      xlength (R_nc_get_var H L nc var start count rawchar).ret.data
        = stringCount (getVarSlice H L nc var start count).ndims
          (getVarSlice H L nc var start count).ccount := by
    intro hc hraw
    rw [hdata]
    unfold getVarSwitch
    obtain ⟨_, xs, e1, e2, _⟩ :=
      R_nc_get_var_switch_str L RetList.empty (H.asInteger nc) (getVarVarid H L nc var)
        (getVarSlice H L nc var start count).ndims
        (getVarSlice H L nc var start count).cstart
        (getVarSlice H L nc var start count).ccount
        (getVarArrlen H L nc var start count) _ _ hc hraw
    rw [e1]
    exact e2
  refine ⟨?_, hlenA, hlenS⟩
  by_cases hmode : getVarXtype H L nc var = NC_CHAR ∧ H.asLogical rawchar = 0
  · have hrk := r2 hmode.1 hmode.2
    have hnd : 2 ≤ (getVarSlice H L nc var start count).ndims := by
      rw [hrk] at hpos
      unfold stringRank at hpos
      split at hpos <;> omega
    have hrk2 : (getVarSwitch H L nc var start count rawchar).rank
        = (getVarSlice H L nc var start count).ndims - 1 := by
      rw [hrk]
      unfold stringRank
      rw [if_pos (by omega)]
    have hp := dimAttr_prod ((getVarSlice H L nc var start count).ndims - 1)
      (getVarSlice H L nc var start count).ccount (fun i hi => hint i (by omega))
    rw [hdd, hrk2] at hfit ⊢
    rw [hp] at hfit ⊢
    rw [hlenS hmode.1 hmode.2, (stringCount_le _ _ (by omega)).1, Nat.mod_eq_of_lt]
    exact_mod_cast hfit
  · have hrk := r1 hmode
    have hp := dimAttr_prod (getVarSlice H L nc var start count).ndims
      (getVarSlice H L nc var start count).ccount hint
    rw [hdd, hrk] at hfit ⊢
    rw [hp] at hfit ⊢
    rw [hlenA hmode]
    unfold getVarArrlen
    rw [R_nc_length_eq_mod, Nat.mod_eq_of_lt]
    exact_mod_cast hfit

/-- An instance of C27: the character variable of `charLib` read raw has dim
`c(3, 2)` and six bytes. -/
theorem R_nc_get_var_dim_product_witness :
    (R_nc_get_var hostRaw charLib .null (intScalar 0 (by decide)) .null .null .null).ret.dim
      = some [3, 2] ∧
    ([3, 2] : List Int).prod = (xlength (R_nc_get_var hostRaw charLib .null
      (intScalar 0 (by decide)) .null .null .null).ret.data : Int) :=
  ⟨by decide,
    (R_nc_get_var_dim_product hostRaw charLib .null (intScalar 0 (by decide)) .null .null
      .null [3, 2] (by decide) (by decide) (by decide) (by decide)).1⟩

/-- C27 fails when the product of the extents wraps: a read of the variable of
`cubeLib` with count `c(4194304, 4194304, 4194304)` succeeds with a data vector
of length 0 and a dim attribute whose product is `2 ^ 66`. -/
theorem R_nc_get_var_dim_product_wraps :
    (R_nc_get_var hostZero cubeLib .null (intScalar 0 (by decide)) .null cubeExtents
      .null).ret.status = some NC_NOERR ∧
    (R_nc_get_var hostZero cubeLib .null (intScalar 0 (by decide)) .null cubeExtents
      .null).ret.dim = some [4194304, 4194304, 4194304] ∧
    ([4194304, 4194304, 4194304] : List Int).prod = 73786976294838206464 ∧
    (getVarSlice hostZero cubeLib .null (intScalar 0 (by decide)) .null cubeExtents).ccount.take 3
      = [4194304, 4194304, 4194304] ∧
    xlength (R_nc_get_var hostZero cubeLib .null (intScalar 0 (by decide)) .null cubeExtents
      .null).ret.data = 0 ∧
    ([4194304, 4194304, 4194304] : List Int).prod
      ≠ (xlength (R_nc_get_var hostZero cubeLib .null (intScalar 0 (by decide)) .null
        cubeExtents .null).ret.data : Int) := by
  decide

/-! ## Type labels -/

theorem str2type_leaf (s lab : List Nat) (t x : Int)
    (hlab : lab ∈ builtinLabels ∨ lab = ascii "NC_LONG") (ht : t ∈ builtinTypes)
    (hx : (if s = lab then t else NC_NAT) = x) (h : x ≠ NC_NAT) :
    (s ∈ builtinLabels ∨ s = ascii "NC_LONG") ∧ x ∈ builtinTypes := by
  by_cases e : s = lab
  · rw [if_pos e] at hx
    subst e hx
    exact ⟨hlab, ht⟩
  · rw [if_neg e] at hx
    exact absurd hx.symm h

/-- When the `switch` of `R_nc_str2type` sets a type code, the string is the
label of a built-in type or `"NC_LONG"`, and the code is a built-in one. -/
theorem str2typeSwitch_label (s : List Nat) (typelen : Int) (x : Int)
    (hx : str2typeSwitch s typelen = x) (h : x ≠ NC_NAT) :
    (s ∈ builtinLabels ∨ s = ascii "NC_LONG") ∧ x ∈ builtinTypes := by
  unfold str2typeSwitch at hx
  by_cases h6 : typelen ≥ 6
  swap
  · rw [if_neg h6] at hx
    exact absurd hx.symm h
  rw [if_pos h6] at hx
  by_cases c1 : s.getD 3 0 = Char.toNat 'B'
  · rw [if_pos c1] at hx
    exact str2type_leaf _ _ _ _ (by decide) (by decide) hx h
  rw [if_neg c1] at hx
  by_cases c2 : s.getD 3 0 = Char.toNat 'C'
  · rw [if_pos c2] at hx
    exact str2type_leaf _ _ _ _ (by decide) (by decide) hx h
  rw [if_neg c2] at hx
  by_cases c3 : s.getD 3 0 = Char.toNat 'D'
  · rw [if_pos c3] at hx
    exact str2type_leaf _ _ _ _ (by decide) (by decide) hx h
  rw [if_neg c3] at hx
  by_cases c4 : s.getD 3 0 = Char.toNat 'F'
  · rw [if_pos c4] at hx
    exact str2type_leaf _ _ _ _ (by decide) (by decide) hx h
  rw [if_neg c4] at hx
  by_cases c5 : s.getD 3 0 = Char.toNat 'I'
  · rw [if_pos c5] at hx
    by_cases d1 : s.getD 6 0 = 0
    · rw [if_pos d1] at hx
      exact str2type_leaf _ _ _ _ (by decide) (by decide) hx h
    rw [if_neg d1] at hx
    by_cases d2 : s.getD 6 0 = Char.toNat '6'
    · rw [if_pos d2] at hx
      exact str2type_leaf _ _ _ _ (by decide) (by decide) hx h
    rw [if_neg d2] at hx
    exact absurd hx.symm h
  rw [if_neg c5] at hx
  by_cases c6 : s.getD 3 0 = Char.toNat 'L'
  · rw [if_pos c6] at hx
    exact str2type_leaf _ _ _ _ (by decide) (by decide) hx h
  rw [if_neg c6] at hx
  by_cases c7 : s.getD 3 0 = Char.toNat 'S'
  · rw [if_pos c7] at hx
    by_cases d1 : s.getD 4 0 = Char.toNat 'H'
    · rw [if_pos d1] at hx
      exact str2type_leaf _ _ _ _ (by decide) (by decide) hx h
    rw [if_neg d1] at hx
    by_cases d2 : s.getD 4 0 = Char.toNat 'T'
    · rw [if_pos d2] at hx
      exact str2type_leaf _ _ _ _ (by decide) (by decide) hx h
    rw [if_neg d2] at hx
    exact absurd hx.symm h
  rw [if_neg c7] at hx
  by_cases c8 : s.getD 3 0 = Char.toNat 'U'
  swap
  · rw [if_neg c8] at hx
    exact absurd hx.symm h
  rw [if_pos c8] at hx
  by_cases h7 : typelen ≥ 7
  swap
  · rw [if_neg h7] at hx
    exact absurd hx.symm h
  rw [if_pos h7] at hx
  by_cases d1 : s.getD 7 0 = 0
  · rw [if_pos d1] at hx
    exact str2type_leaf _ _ _ _ (by decide) (by decide) hx h
  rw [if_neg d1] at hx
  by_cases d2 : s.getD 7 0 = Char.toNat '6'
  · rw [if_pos d2] at hx
    exact str2type_leaf _ _ _ _ (by decide) (by decide) hx h
  rw [if_neg d2] at hx
  by_cases d3 : s.getD 7 0 = Char.toNat 'E'
  · rw [if_pos d3] at hx
    exact str2type_leaf _ _ _ _ (by decide) (by decide) hx h
  rw [if_neg d3] at hx
  by_cases d4 : s.getD 7 0 = Char.toNat 'R'
  · rw [if_pos d4] at hx
    exact str2type_leaf _ _ _ _ (by decide) (by decide) hx h
  rw [if_neg d4] at hx
  exact absurd hx.symm h

/-- The `switch` of `R_nc_str2type` on the labels. -/
theorem str2typeSwitch_of_label (s : List Nat) (h : s ∈ builtinLabels ∨ s = ascii "NC_LONG") :
    str2typeSwitch s (size2int s.length) ≠ NC_NAT := by
  rcases h with h | h
  · simp only [builtinLabels, List.mem_cons, List.mem_singleton, List.not_mem_nil,
      or_false] at h
    rcases h with h | h | h | h | h | h | h | h | h | h | h | h
    all_goals
      subst h
      decide
  · subst h
    decide

/-- C21: for each of the twelve built-in type codes `t`, `R_nc_type2str`
returns a label without consulting the library, and `R_nc_str2type` applied to
that label yields `NC_NOERR` and `t`, again without consulting the library;
and for every string, `R_nc_str2type` answers without consulting the library
exactly when the string is one of the twelve labels or `"NC_LONG"`, and then
it returns `NC_NOERR` and a built-in type code (`NC_INT` for `"NC_LONG"`). -/
theorem R_nc_type_label_round_trip (T : NcTypeLib) (ncid : Int) :
    (∀ t ∈ builtinTypes,
      (R_nc_type2str T ncid t).2 = [] ∧ (R_nc_type2str T ncid t).1 ∈ builtinLabels ∧
      R_nc_str2type T ncid (R_nc_type2str T ncid t).1 = (NC_NOERR, t, [])) ∧
    (∀ s : List Nat, (R_nc_str2type T ncid s).2.2 = [] ↔
      (cstr s ∈ builtinLabels ∨ cstr s = ascii "NC_LONG")) ∧
    (∀ s : List Nat, (R_nc_str2type T ncid s).2.2 = [] →
      (R_nc_str2type T ncid s).1 = NC_NOERR ∧ (R_nc_str2type T ncid s).2.1 ∈ builtinTypes) ∧
    R_nc_str2type T ncid (ascii "NC_LONG") = (NC_NOERR, NC_INT, []) := by
  refine ⟨?_, ?_, ?_, rfl⟩
  · intro t ht
    simp only [builtinTypes, List.mem_cons, List.mem_singleton, List.not_mem_nil,
      or_false] at ht
    rcases ht with h | h | h | h | h | h | h | h | h | h | h | h
    all_goals
      subst h
      exact ⟨rfl, of_decide_eq_true rfl, rfl⟩
  · intro s
    constructor
    · intro hc
      by_cases hx : str2typeSwitch (cstr s) (size2int (cstr s).length) = NC_NAT
      · unfold R_nc_str2type at hc
        simp only [hx, if_true] at hc
        simp at hc
      · exact (str2typeSwitch_label _ _ _ rfl hx).1
    · intro hl
      have hx := str2typeSwitch_of_label (cstr s) hl
      unfold R_nc_str2type
      simp only [hx, if_false]
  · intro s hc
    by_cases hx : str2typeSwitch (cstr s) (size2int (cstr s).length) = NC_NAT
    · unfold R_nc_str2type at hc
      simp only [hx, if_true] at hc
      simp at hc
    · have hb := (str2typeSwitch_label _ _ _ rfl hx).2
      unfold R_nc_str2type
      simp only [hx, if_false]
      exact ⟨trivial, hb⟩

/-! ## Closing a handle -/

theorem R_nc_close_cleared (L : NcLib) (nc_close : Int → Int) :
    (R_nc_close L nc_close none).ret.status = some NC_NOERR ∧
    (R_nc_close L nc_close none).ptr = none ∧
    (R_nc_close L nc_close none).closed = [] :=
  ⟨RNCRETURN_status L RetList.empty NC_NOERR, rfl, rfl⟩

theorem R_nc_close_iterate_cleared (L : NcLib) (nc_close : Int → Int) (n : Nat) :
    (fun p => (R_nc_close L nc_close p).ptr)^[n] none = none := by
  induction n with
  | zero => rfl
  | succ n ih =>
    rw [Function.iterate_succ_apply]
    exact ih

/-- C29: closing a handle twice is a safe no-op. When the library's close
succeeds, `R_nc_close` returns `NC_NOERR` after one call of `nc_close` and
clears the handle pointer, and every later `R_nc_close` on the handle, after
any number of closes, returns `NC_NOERR`, leaves the pointer cleared and does
not call `nc_close`; when the library's close fails, the handle is left
uncleared and the error status is returned. -/
theorem R_nc_close_twice (L : NcLib) (nc_close : Int → Int) (fileid : Int) :
    (nc_close fileid = NC_NOERR →
      (R_nc_close L nc_close (some fileid)).ret.status = some NC_NOERR ∧
      (R_nc_close L nc_close (some fileid)).ptr = none ∧
      (R_nc_close L nc_close (some fileid)).closed = [fileid] ∧
      ∀ n : Nat,
        (R_nc_close L nc_close ((fun p => (R_nc_close L nc_close p).ptr)^[n]
          (R_nc_close L nc_close (some fileid)).ptr)).ret.status = some NC_NOERR ∧
        (R_nc_close L nc_close ((fun p => (R_nc_close L nc_close p).ptr)^[n]
          (R_nc_close L nc_close (some fileid)).ptr)).ptr = none ∧
        (R_nc_close L nc_close ((fun p => (R_nc_close L nc_close p).ptr)^[n]
          (R_nc_close L nc_close (some fileid)).ptr)).closed = []) ∧
    (nc_close fileid ≠ NC_NOERR →
      (R_nc_close L nc_close (some fileid)).ret.status = some (nc_close fileid) ∧
      (R_nc_close L nc_close (some fileid)).ptr = some fileid ∧
      (R_nc_close L nc_close (some fileid)).closed = [fileid]) := by
  constructor
  · intro hok
    have hc := (RNCCHECK_some_iff L RetList.empty (nc_close fileid)).2 hok
    have hres : R_nc_close L nc_close (some fileid)
        = ⟨RNCRETURN L RetList.empty NC_NOERR, none, [fileid]⟩ := by
      unfold R_nc_close
      simp only [hc]
    rw [hres]
    refine ⟨RNCRETURN_status L RetList.empty NC_NOERR, rfl, rfl, fun n => ?_⟩
    rw [R_nc_close_iterate_cleared L nc_close n]
    exact R_nc_close_cleared L nc_close
  · intro hfail
    have hc := (RNCCHECK_some_iff L RetList.empty (nc_close fileid)).1 hfail
    have hres : R_nc_close L nc_close (some fileid)
        = ⟨(R_nc_status L RetList.empty (nc_close fileid) 0).1, some fileid, [fileid]⟩ := by
      unfold R_nc_close
      simp only [hc]
    rw [hres]
    exact ⟨(R_nc_status_spec L RetList.empty (nc_close fileid) 0).2.1 (Or.inr hfail), rfl, rfl⟩

/-! ## The text buffer of `R_nc_get_att` -/

/-- C26 at a failing input: for the global text attribute `"ab"` (`cnt = 2`)
`R_nc_get_att` allocates 3 bytes and writes the indices 0, 1 and 3: the
terminating zero goes to index `cnt + 1`, outside the allocation, and index
`cnt` is never written, so with bytes of value 1 in memory the string returned
is `"ab"` followed by the byte 1. -/
theorem R_nc_get_att_terminator_misplaced :
    (R_nc_get_att hostZero charLib textAttLib [1, 1, 1, 1, 1] .null (.str [ascii "NC_GLOBAL"])
      (.str [ascii "units"])).ret.status = some NC_NOERR ∧
    (R_nc_get_att hostZero charLib textAttLib [1, 1, 1, 1, 1] .null (.str [ascii "NC_GLOBAL"])
      (.str [ascii "units"])).allocated = 3 ∧
    (R_nc_get_att hostZero charLib textAttLib [1, 1, 1, 1, 1] .null (.str [ascii "NC_GLOBAL"])
      (.str [ascii "units"])).written = [0, 1, 3] ∧
    (¬ ∀ i ∈ (R_nc_get_att hostZero charLib textAttLib [1, 1, 1, 1, 1] .null
        (.str [ascii "NC_GLOBAL"]) (.str [ascii "units"])).written,
      i < (R_nc_get_att hostZero charLib textAttLib [1, 1, 1, 1, 1] .null
        (.str [ascii "NC_GLOBAL"]) (.str [ascii "units"])).allocated) ∧
    (R_nc_get_att hostZero charLib textAttLib [1, 1, 1, 1, 1] .null (.str [ascii "NC_GLOBAL"])
      (.str [ascii "units"])).ret.data = .str [[97, 98, 1]] := by
  decide

/-! ## The unlimited dimensions of a group and its ancestors -/

/-- C23 at a failing input: for the group 1 of `nestedGroupLib` with
`ancestors` set, the library returns the lists `[5]` and `[7]`;
`R_nc_unlimdims` returns `NC_NOERR` and `nunlim = 2`, but it copies the second
list to index `1 * sizeof (int) = 4` of `unlimids`, so that entry 1 keeps what
the memory held before (here -9) and entries `0 .. nunlim-1` are not the
concatenation `[5, 7]`. -/
theorem R_nc_unlimdims_misplaced_copy :
    R_nc_unlimdims nestedGroupLib [-9, -9, -9, -9, -9] 3 1 1
      = some (NC_NOERR, 2, [5, -9, -9, -9, 7]) ∧
    unlimitedLists nestedGroupLib 1 3 1 = [[5], [7]] ∧
    (∃ st n ids, R_nc_unlimdims nestedGroupLib [-9, -9, -9, -9, -9] 3 1 1 = some (st, n, ids) ∧
      st = NC_NOERR ∧ n = (unlimitedLists nestedGroupLib 1 3 1).flatten.length ∧
      ids.take n ≠ (unlimitedLists nestedGroupLib 1 3 1).flatten) := by
  refine ⟨by decide, by decide, NC_NOERR, 2, [5, -9, -9, -9, 7], by decide, rfl, by decide,
    by decide⟩

/-! ## The order of dimension identifiers -/

/-- A loop with an exit that is never taken is the loop without it. -/
theorem forLoopRet_never {σ : Type} (body : Nat → σ → Option Int × σ) (g : Nat → σ → σ)
    (is : List Nat) (s : σ) (h : ∀ i ∈ is, ∀ t, body i t = (none, g i t)) :
    forLoopRet body is s = (none, is.foldl (fun t i => g i t) s) := by
  induction is generalizing s with
  | nil => rfl
  | cons a rest ih =>
    rw [forLoopRet_cons_none body a rest s (g a s) (h a (List.mem_cons_self _ _) s)]
    exact ih (g a s) (fun i hi t => h i (List.mem_cons_of_mem _ hi) t)

theorem forLoop_eq_foldl {σ : Type} (n : Nat) (g : Nat → σ → σ) (s : σ) :
    forLoop 0 n g s = (List.range n).foldl (fun t i => g i t) s := by
  unfold forLoop
  simp

/-- A loop that stores `g ii` at index `n - 1 - ii`, after `m ≤ n` rounds. -/
theorem forLoop_rev_store {α : Type} (g : Nat → α) (xs : List α) (n : Nat)
    (hn : n ≤ xs.length) (m : Nat) (hm : m ≤ n) :
    (forLoop 0 m (fun ii s => s.set (n - 1 - ii) (g ii)) xs).length = xs.length ∧
    (∀ k, k < m →
      (forLoop 0 m (fun ii s => s.set (n - 1 - ii) (g ii)) xs)[n - 1 - k]? = some (g k)) := by
  induction m with
  | zero =>
    rw [forLoop_nil _ _ (le_refl _)]
    exact ⟨rfl, fun k hk => absurd hk (by omega)⟩
  | succ m ih =>
    obtain ⟨i1, i2⟩ := ih (by omega)
    rw [forLoop_succ _ _ (Nat.zero_le _)]
    refine ⟨by rw [List.length_set]; exact i1, ?_⟩
    intro k hk
    rw [List.getElem?_set]
    by_cases e : n - 1 - m = n - 1 - k
    · have ekm : k = m := by omega
      subst ekm
      rw [if_pos rfl, if_pos (by rw [i1]; omega)]
    · rw [if_neg e]
      exact i2 k (by omega)

/-- The array that the loop of `R_nc_def_var` fills holds the values in
reversed order. -/
theorem rev_store_take (ids : List Int) (xs : List Int) (hn : ids.length ≤ xs.length) :
    (forLoop 0 ids.length (fun ii s => s.set (ids.length - 1 - ii) (ids.getD ii 0)) xs).take
      ids.length = ids.reverse := by
  obtain ⟨s1, s2⟩ := forLoop_rev_store (fun ii => ids.getD ii 0) xs ids.length hn ids.length
    (le_refl _)
  apply List.ext_getElem?
  intro j
  by_cases hj : j < ids.length
  · have e : j = ids.length - 1 - (ids.length - 1 - j) := by omega
    rw [List.getElem?_take_of_lt hj, e, s2 (ids.length - 1 - j) (by omega),
      List.getElem?_reverse (by omega), ← e, List.getD_eq_getElem?_getD]
    have hlt : ids.length - 1 - j < ids.length := by omega
    rw [List.getElem?_eq_getElem hlt]
    rfl
  · rw [List.getElem?_eq_none (by rw [List.length_take]; omega),
      List.getElem?_eq_none (by rw [List.length_reverse]; omega)]

/-- The loop of `R_nc_inq_var` stores the identifiers in reversed order. -/
theorem inq_var_dimids_reverse (c : List Int) :
    forLoop 0 c.length (fun ii r => r.set ii (c.getD (c.length - 1 - ii) 0))
      (List.replicate c.length 0) = c.reverse := by
  obtain ⟨s1, s2, _⟩ := forLoop_store_spec (fun ii => c.getD (c.length - 1 - ii) 0)
    (List.replicate c.length 0) c.length (by simp)
  apply List.ext_getElem?
  intro j
  by_cases hj : j < c.length
  · rw [s2 j hj, List.getElem?_reverse hj, List.getD_eq_getElem?_getD]
    have hlt : c.length - 1 - j < c.length := by omega
    rw [List.getElem?_eq_getElem hlt]
    rfl
  · rw [List.getElem?_eq_none (by rw [s1, List.length_replicate]; omega),
      List.getElem?_eq_none (by rw [List.length_reverse]; omega)]

/-- For a vector of dimension identifiers, `R_nc_dim_id` succeeds and gives
the identifier at the index asked for. -/
theorem R_nc_dim_id_numeric (H : Host) (D : NcDefLib) (dims : SEXP) (ids : List Int)
    (ncid : Int) (h : dimensionIds dims = some ids) :
    xlength dims = ids.length ∧
    ∀ k, k < ids.length → R_nc_dim_id H D dims ncid k = (NC_NOERR, ids.getD k 0) := by
  cases dims with
  | int xs =>
    simp only [dimensionIds, Option.some.injEq] at h
    subst h
    refine ⟨by simp [xlength], fun k _ => ?_⟩
    rfl
  | real xs =>
    simp only [dimensionIds] at h
    split at h
    · rename_i hall
      simp only [Option.some.injEq] at h
      subst h
      refine ⟨by simp [xlength], fun k hk => ?_⟩
      rw [List.length_map] at hk
      have hx := List.all_eq_true.mp hall (xs.get ⟨k, hk⟩) (List.get_mem _ _ _)
      have hget : xs.getD k .nonfinite = xs.get ⟨k, hk⟩ := by
        rw [List.getD_eq_getElem _ _ hk]
        rfl
      have hget2 : (xs.map RDouble.trunc).getD k 0 = (xs.get ⟨k, hk⟩).trunc := by
        rw [List.getD_eq_getElem _ _ (by rw [List.length_map]; exact hk)]
        simp
      cases hv : (xs.get ⟨k, hk⟩).toInt? with
      | none =>
        rw [hv] at hx
        simp at hx
      | some v =>
        rw [hv] at hx
        have hr := of_decide_eq_true hx
        obtain ⟨t1, t2⟩ := RDouble.trunc_of_toInt? _ _ hv
        have hd : dbl2int H (xs.get ⟨k, hk⟩) = (xs.get ⟨k, hk⟩).trunc := by
          unfold dbl2int
          rw [if_pos ⟨t2, by rw [t1]; exact hr.1, by rw [t1]; exact hr.2⟩]
        show (if isInteger (.real xs) then _ else _) = _
        simp only [isInteger, isReal, Bool.false_eq_true, if_false, if_true, REAL, hget, hd,
          hget2]
    · simp at h
  | null => simp [dimensionIds] at h
  | lgl xs => simp [dimensionIds] at h
  | str xs => simp [dimensionIds] at h
  | raw xs => simp [dimensionIds] at h

/-- C28: for a vector `dims` of `n` dimension identifiers `ids`, with
`1 ≤ n ≤ NC_MAX_VAR_DIMS`, a call of `R_nc_def_var` whose type lookup and
entry into define mode succeed passes `ids` to `nc_def_var` in reversed order;
`R_nc_inq_var`, when its queries succeed on a variable of rank at least 1,
reports the library's dimension identifiers in reversed order; so when the
library (`L2`, the dataset after the definition) reports for the variable the
identifiers that were passed at its definition, `R_nc_inq_var` reports `ids`
in the same order as `dims`. -/
theorem R_nc_def_var_inq_var_dimids (H : Host) (L L2 : NcLib) (T : NcTypeLib) (D : NcDefLib)
    (junk : RInt) (nc varname type dims nc2 var2 : SEXP) (ids : List Int)
    (hids : dimensionIds dims = some ids)
    (h1 : 1 ≤ ids.length) (h2 : ids.length ≤ NC_MAX_VAR_DIMS)
    (ht : (R_nc_str2type T (H.asInteger nc) ((STRINGS type).getD 0 [])).1 = NC_NOERR)
    (hredef : R_nc_redef D (H.asInteger nc) = NC_NOERR)
    (hvar : (R_nc_var_id H L2 var2 (H.asInteger nc2)).1 = NC_NOERR)
    (hq : (L2.nc_inq_var (H.asInteger nc2) (R_nc_var_id H L2 var2 (H.asInteger nc2)).2.1).1
      = NC_NOERR) :
    (R_nc_def_var H L T D junk nc varname type dims).passed
      = some (cstr ((STRINGS varname).getD 0 []),
          (R_nc_str2type T (H.asInteger nc) ((STRINGS type).getD 0 [])).2.1, ids.reverse) ∧
    (∃ i, (R_nc_inq_var H L2 T D nc2 var2).info = some i ∧
      (1 ≤ (L2.nc_inq_var (H.asInteger nc2)
          (R_nc_var_id H L2 var2 (H.asInteger nc2)).2.1).2.length →
        i.dimids = (L2.nc_inq_var (H.asInteger nc2)
          (R_nc_var_id H L2 var2 (H.asInteger nc2)).2.1).2.reverse) ∧
      ((L2.nc_inq_var (H.asInteger nc2) (R_nc_var_id H L2 var2 (H.asInteger nc2)).2.1).2
          = ids.reverse →
        i.dimids = ids ∧ i.ndims = ids.length)) := by
  obtain ⟨hlen, hdim⟩ := R_nc_dim_id_numeric H D dims ids (H.asInteger nc) hids
  have hloop : forLoopRet (defVarDimBody H D dims (H.asInteger nc) ids.length)
      (List.range ids.length) (List.replicate NC_MAX_VAR_DIMS 0)
      = (none, forLoop 0 ids.length
          (fun ii s => s.set (ids.length - 1 - ii) (ids.getD ii 0))
          (List.replicate NC_MAX_VAR_DIMS 0)) := by
    rw [forLoop_eq_foldl]
    apply forLoopRet_never
    intro i hi t
    unfold defVarDimBody
    rw [hdim i (List.mem_range.mp hi)]
    simp
  have hrev : ∀ c : List Int, 1 ≤ c.length →
      (if c.length > 0 then
        forLoop 0 c.length (fun ii r => r.set ii (c.getD (c.length - 1 - ii) 0))
          (List.replicate c.length 0)
      else [NA_INTEGER]) = c.reverse := by
    intro c hc
    have hc2 : c.length > 0 := hc
    rw [if_pos hc2, inq_var_dimids_reverse]
  constructor
  · unfold R_nc_def_var
    simp only [(RNCCHECK_some_iff L _ _).2 ht, hlen, hloop, if_neg (not_lt.mpr h2),
      (RNCCHECK_some_iff L _ _).2 hredef]
    rw [rev_store_take ids _ (by rw [List.length_replicate]; exact h2)]
    split <;> rfl
  · unfold R_nc_inq_var
    simp only [(RNCCHECK_some_iff L2 _ _).2 hvar, (RNCCHECK_some_iff L2 _ _).2 hq]
    refine ⟨_, rfl, fun hc => hrev _ hc, fun hlib => ?_⟩
    have hc : 1 ≤ (L2.nc_inq_var (H.asInteger nc2)
        (R_nc_var_id H L2 var2 (H.asInteger nc2)).2.1).2.length := by
      rw [hlib, List.length_reverse]
      exact h1
    refine ⟨?_, ?_⟩
    · show (if _ then _ else _) = ids
      rw [hrev _ hc, hlib, List.reverse_reverse]
    · show (L2.nc_inq_var (H.asInteger nc2)
        (R_nc_var_id H L2 var2 (H.asInteger nc2)).2.1).2.length = ids.length
      rw [hlib, List.length_reverse]

/-- An instance of C28: a variable defined with `dims = c(0, 1, 2)` has the
identifiers passed to the library as `[2, 1, 0]`, and `R_nc_inq_var` on a
dataset that holds them so reports `c(0, 1, 2)`. -/
theorem R_nc_def_var_inq_var_dimids_witness :
    (R_nc_def_var hostZero orderLib plainTypes plainDefLib (RInt.ofNat 0 (by decide)) .null
      (.str [ascii "v"]) (.str [ascii "NC_INT"])
      (.int [RInt.ofNat 0 (by decide), RInt.ofNat 1 (by decide),
        RInt.ofNat 2 (by decide)])).passed
      = some (cstr ((STRINGS (.str [ascii "v"])).getD 0 []),
          (R_nc_str2type plainTypes (hostZero.asInteger .null)
            ((STRINGS (.str [ascii "NC_INT"])).getD 0 [])).2.1, [0, 1, 2].reverse) ∧
    (R_nc_inq_var hostZero orderLib plainTypes plainDefLib .null
      (intScalar 0 (by decide))).info
      = some ⟨0, ascii "v", ascii "NC_INT", 3, [0, 1, 2], 0⟩ :=
  ⟨(R_nc_def_var_inq_var_dimids hostZero orderLib orderLib plainTypes plainDefLib
      (RInt.ofNat 0 (by decide)) .null (.str [ascii "v"]) (.str [ascii "NC_INT"])
      (.int [RInt.ofNat 0 (by decide), RInt.ofNat 1 (by decide), RInt.ofNat 2 (by decide)])
      .null (intScalar 0 (by decide)) [0, 1, 2]
      (by decide) (by decide) (by decide) (by decide) (by decide) (by decide) (by decide)).1,
    by decide⟩

end RNetCDF
